import Mathlib

/-!
go-tpm2: resource contexts, policy commands and the duplication codec

A shallow embedding of

* `util/object.go`: `UnwrapOuter`, `ProduceOuterWrap`, `DuplicateToSensitive`,
  `SensitiveToDuplicate`;
* `resources.go`: `evictResourceContext`, `addResourceContext`,
  `checkResourceContextParam`, `WrapHandle` and the context constructors;
* `cmds_ea.go`: `PolicySecret`, `PolicyOR`, `PolicyPCR`, `PolicyAuthValue`,
  `PolicyPassword`, `PolicyGetDigest`;
* `constants.go`: the handle classes and the object attributes;
* `util/keys.go`: `NewSealedObject`, `NewExternalECCPublicKey`.

The methods of `Name` are not among the translated files; they are modelled from the
specification and the tests.

Go values are modelled by value: a `[]byte` is a `List UInt8`, a pointer that may be nil
is an `Option`, a Go `(value, error)` return is a pair of options, and a run-time panic is
an outcome of its own. The cryptographic primitives, the marshalling of a `Sensitive`, the
entropy source and the device are collaborators that live outside the translated files;
they are parameters of the model.
-/

namespace GoTpm2

/-! ## Basic value types -/

/-- A Go byte slice, by value. -/
abbrev Bytes := List UInt8

/-- Go `error` values: `errors.New` / `fmt.Errorf` build a message, and
`xerrors.Errorf("<context>: %w", err)` wraps an inner error with a context. -/
inductive Err where
  | msg (text : String)
  | wrap (context : String) (inner : Err)
  deriving DecidableEq, Repr

/-- How a Go call ends: it returns its result tuple, or it panics. -/
inductive Outcome (α : Type) where
  | ret (result : α)
  | panic (reason : String)
  deriving DecidableEq, Repr

/-- The type `tpm2.HashAlgorithmId` (a uint16). -/
abbrev HashAlgorithmId := Nat

/-- The type `tpm2.SymObjectAlgorithmId` (a uint16). -/
abbrev SymObjectAlgorithmId := Nat

/-- The constant `AlgorithmNull` of constants.go, as `tpm2.SymObjectAlgorithmNull`. -/
def SymObjectAlgorithmNull : SymObjectAlgorithmId := 0x0010

/-- The struct `tpm2.SymDefObject`, reduced to the two fields object.go reads:
`Algorithm` and `KeyBits.Sym`. -/
structure SymDefObject where
  Algorithm : SymObjectAlgorithmId
  KeyBitsSym : Nat
  deriving DecidableEq, Repr

/-- The struct `tpm2.ECCPoint`: the two coordinates, as byte slices. -/
structure ECCPoint where
  X : Bytes
  Y : Bytes
  deriving DecidableEq, Repr

/-- The union `tpm2.PublicIDU`, with the two members util/keys.go sets. -/
inductive PublicIDU where
  | KeyedHash (digest : Bytes)
  | ECC (point : ECCPoint)
  deriving DecidableEq, Repr

/-- The struct `tpm2.Public`, reduced to what object.go reads: `NameAlg`, and
`Params.AsymDetail()`, which is nil for a public area that is not an asymmetric key
(`none` here) and otherwise carries the `Symmetric` definition; and to what util/keys.go
writes: `Type` (here `ObjectType`), `Attrs` (a uint32 of attribute bits) and `Unique` (nil
is `none`). -/
structure Public where
  NameAlg : HashAlgorithmId
  AsymDetailSymmetric : Option SymDefObject
  ObjectType : Nat := 0
  Attrs : Nat := 0
  Unique : Option PublicIDU := none
  deriving DecidableEq, Repr

/-- Modelled from the spec: the constant `tpm2.IntegrityKey`, the fixed ASCII label
`"INTEGRITY"` of the HMAC key (its declaration is not among the translated files). -/
def IntegrityKey : Bytes := "INTEGRITY".data.map (fun ch => ch.toNat.toUInt8)

/-- Modelled from the spec: the constant `tpm2.StorageKey`, the fixed ASCII label
`"STORAGE"` of the encryption key (its declaration is not among the translated files). -/
def StorageKey : Bytes := "STORAGE".data.map (fun ch => ch.toNat.toUInt8)

/-! ## External collaborators -/

/-- The cryptographic primitives object.go calls. For the hash based ones `none` stands for
the panic of the Go library on a hash algorithm that is not available.

* `kdfa alg key label contextU contextV bits` is `internal.KDFa(alg.GetHash(), ...)`;
* `hmac alg key message` is `hmac.New(alg.NewHash, key)` fed `message`, then `Sum(nil)`;
* `hash alg message` is `alg.NewHash()` fed `message`, then `Sum(nil)`;
* `digestSize alg` is `alg.Size()`;
* `blockSize alg` is `alg.BlockSize()`;
* `encrypt alg key iv data` is `tpm2.CryptSymmetricEncrypt`, which works in place: the
  result is the new content of `data`; `decrypt` likewise;
* `nameAlgorithm name` is `name.Algorithm()`. -/
structure Crypto where
  kdfa : HashAlgorithmId → Bytes → Bytes → Bytes → Bytes → Nat → Option Bytes
  hmac : HashAlgorithmId → Bytes → Bytes → Option Bytes
  hash : HashAlgorithmId → Bytes → Option Bytes
  digestSize : HashAlgorithmId → Nat
  blockSize : SymObjectAlgorithmId → Nat
  encrypt : SymObjectAlgorithmId → Bytes → Bytes → Bytes → Except Err Bytes
  decrypt : SymObjectAlgorithmId → Bytes → Bytes → Bytes → Except Err Bytes
  nameAlgorithm : Bytes → HashAlgorithmId

/-- The marshalling of the struct `tpm2.Sensitive` by package `mu`, a black box:
`marshal` and `unmarshal` of the struct itself, without the size prefix. -/
structure SensitiveCodec (S : Type) where
  marshal : S → Except Err Bytes
  unmarshal : Bytes → Except Err S

/-- The entropy source behind `crypto/rand.Read`: either it fails, or it supplies a stream
of bytes. -/
abbrev Entropy := Except Err (Nat → UInt8)

/-- The call `rand.Read(buf)` on a buffer of `n` bytes: on success the buffer is filled,
so the result has exactly `n` bytes. -/
def randRead (src : Entropy) (n : Nat) : Except Err Bytes :=
  match src with
  | .error e => .error e
  | .ok f => .ok ((List.range n).map f)

/-! ## Size-prefixed fields (package `mu`) -/

/-- The 2-byte big-endian encoding of a uint16. -/
def putUint16 (n : Nat) : Bytes := [(n / 256).toUInt8, (n % 256).toUInt8]

/-- Modelled from the spec: the marshalling of a `[]byte` by package `mu` as a
length-prefixed field, a 2-byte big-endian length followed by the bytes. A field longer
than 65535 bytes cannot be marshalled. -/
def marshalSized (b : Bytes) : Except Err Bytes :=
  if b.length ≤ 65535 then .ok (putUint16 b.length ++ b)
  else .error (.msg "sized value size greater than 2^16-1")

/-- Modelled from the spec: `mu.UnmarshalFromReader(r, &field)` for a `[]byte` field: read
the 2-byte big-endian length, then that many bytes; what is left in the reader is returned
as the second component (the later `ioutil.ReadAll(r)`). Fewer than 2 bytes, or a length
larger than what follows, is an error. -/
def unmarshalSized : Bytes → Except Err (Bytes × Bytes)
  | b0 :: b1 :: rest =>
    if b0.toNat * 256 + b1.toNat ≤ rest.length then
      .ok (rest.take (b0.toNat * 256 + b1.toNat), rest.drop (b0.toNat * 256 + b1.toNat))
    else .error (.msg "unexpected EOF")
  | _ => .error (.msg "EOF")

/-- The call `mu.MustMarshalToBytes(field, mu.RawBytes(raw))`: the length-prefixed `field`
followed by `raw` as it is; `none` is the panic of `MustMarshalToBytes` on a marshalling
error. -/
def mustMarshalSizedThenRaw (field raw : Bytes) : Option Bytes :=
  match marshalSized field with
  | .ok b => some (b ++ raw)
  | .error _ => none

/-- The call `mu.MarshalToBytes(struct{Ptr *Sensitive "sized"}{sensitive})` for a non-nil
`sensitive`: the marshalled struct behind a 2-byte length. -/
def marshalSensitiveSized {S : Type} (codec : SensitiveCodec S) (sensitive : S) :
    Except Err Bytes :=
  match codec.marshal sensitive with
  | .error e => .error e
  | .ok body => marshalSized body

/-- The call `mu.UnmarshalFromBytes(duplicate, &struct{Ptr *Sensitive "sized"})`: read the
2-byte length, then unmarshal the struct from exactly that many bytes; bytes after the
field are not looked at. On a length of zero the library leaves the pointer nil and
returns no error; that case is not told apart here: the empty body goes to the codec like
any other. -/
def unmarshalSensitiveSized {S : Type} (codec : SensitiveCodec S) (duplicate : Bytes) :
    Except Err S :=
  match unmarshalSized duplicate with
  | .error e => .error e
  | .ok (body, _) => codec.unmarshal body

/-- The all-zero IV `make([]byte, alg.BlockSize())`. -/
def zeroIV (c : Crypto) (alg : SymObjectAlgorithmId) : Bytes :=
  List.replicate (c.blockSize alg) 0

/-! ## util/object.go -/

/-- The function `UnwrapOuter` of util/object.go. The result is the Go pair
`([]byte, error)`. A nil `symmetricAlg` is dereferenced only after the integrity check. -/
def UnwrapOuter (c : Crypto) (hashAlg : HashAlgorithmId) (symmetricAlg : Option SymDefObject)
    (name seed data : Bytes) : Outcome (Option Bytes × Option Err) :=
  match unmarshalSized data with
  | .error e => .ret (none, some (.wrap "cannot unpack integrity digest" e))
  | .ok (integrity, data) =>
    match c.kdfa hashAlg seed IntegrityKey [] [] (c.digestSize hashAlg * 8) with
    | none => .panic "hash algorithm is not available"
    | some hmacKey =>
      match c.hmac hashAlg hmacKey (data ++ name) with
      | none => .panic "hash algorithm is not available"
      | some mac =>
        if mac ≠ integrity then .ret (none, some (.msg "integrity digest is invalid"))
        else
          match symmetricAlg with
          | none => .panic "nil pointer dereference"
          | some sym =>
            match c.kdfa hashAlg seed StorageKey name [] sym.KeyBitsSym with
            | none => .panic "hash algorithm is not available"
            | some symKey =>
              match c.decrypt sym.Algorithm symKey (zeroIV c sym.Algorithm) data with
              | .error e => .ret (none, some (.wrap "cannot remove wrapper" e))
              | .ok data => .ret (some data, none)

/-- The function `ProduceOuterWrap` of util/object.go. The result is the Go pair
`([]byte, error)`. -/
def ProduceOuterWrap (c : Crypto) (protector : Public) (name seed data : Bytes) :
    Outcome (Option Bytes × Option Err) :=
  match protector.AsymDetailSymmetric with
  | none => .panic "nil pointer dereference"
  | some symmetric =>
    match c.kdfa protector.NameAlg seed StorageKey name [] symmetric.KeyBitsSym with
    | none => .panic "hash algorithm is not available"
    | some symKey =>
      match c.encrypt symmetric.Algorithm symKey (zeroIV c symmetric.Algorithm) data with
      | .error e => .ret (none, some (.wrap "cannot apply wrapper" e))
      | .ok data =>
        match c.kdfa protector.NameAlg seed IntegrityKey [] []
            (c.digestSize protector.NameAlg * 8) with
        | none => .panic "hash algorithm is not available"
        | some hmacKey =>
          match c.hmac protector.NameAlg hmacKey (data ++ name) with
          | none => .panic "hash algorithm is not available"
          | some integrity =>
            match mustMarshalSizedThenRaw integrity data with
            | none => .panic "cannot marshal"
            | some out => .ret (some out, none)

/-- The test `symmetricAlg != nil && symmetricAlg.Algorithm != tpm2.SymObjectAlgorithmNull`
that both entry points use to decide whether there is an inner wrapper. -/
def hasInnerWrapper : Option SymDefObject → Option SymDefObject
  | some sym => if sym.Algorithm ≠ SymObjectAlgorithmNull then some sym else none
  | none => none

/-- The last step of `DuplicateToSensitive` (lines 137-144): unmarshal the size-prefixed
`Sensitive`. -/
def unmarshalDuplicate {S : Type} (codec : SensitiveCodec S) (duplicate : Bytes) :
    Outcome (Option S × Option Err) :=
  match unmarshalSensitiveSized codec duplicate with
  | .error e => .ret (none, some (.wrap "cannot unmarhsal sensitive" e))
  | .ok sensitive => .ret (some sensitive, none)

/-- The part of `DuplicateToSensitive` after the outer wrapper is gone (lines 109-144):
remove the inner wrapper when there is one, then unmarshal the size-prefixed
`Sensitive`. -/
def removeInnerAndUnmarshal {S : Type} (c : Crypto) (codec : SensitiveCodec S)
    (duplicate name : Bytes) (symmetricAlg : Option SymDefObject) (innerSymKey : Bytes) :
    Outcome (Option S × Option Err) :=
  match hasInnerWrapper symmetricAlg with
  | none => unmarshalDuplicate codec duplicate
  | some sym =>
    match c.decrypt sym.Algorithm innerSymKey (zeroIV c sym.Algorithm) duplicate with
    | .error e => .ret (none, some (.wrap "cannot remove inner wrapper" e))
    | .ok duplicate =>
      match unmarshalSized duplicate with
      | .error e => .ret (none, some (.wrap "cannot unpack inner integrity digest" e))
      | .ok (innerIntegrity, duplicate) =>
        match c.hash (c.nameAlgorithm name) (duplicate ++ name) with
        | none => .panic "hash algorithm is not available"
        | some digest =>
          if digest ≠ innerIntegrity then
            .ret (none, some (.msg "inner integrity digest is invalid"))
          else unmarshalDuplicate codec duplicate

/-- The function `DuplicateToSensitive` of util/object.go. The result is the Go pair
`(*tpm2.Sensitive, error)`. -/
def DuplicateToSensitive {S : Type} (c : Crypto) (codec : SensitiveCodec S)
    (duplicate name : Bytes) (parentNameAlg : HashAlgorithmId)
    (parentSymmetricAlg : Option SymDefObject) (seed : Bytes)
    (symmetricAlg : Option SymDefObject) (innerSymKey : Bytes) :
    Outcome (Option S × Option Err) :=
  if seed.length > 0 then
    match UnwrapOuter c parentNameAlg parentSymmetricAlg name seed duplicate with
    | .panic r => .panic r
    | .ret (_, some err) => .ret (none, some (.wrap "cannot unwrap outer wrapper" err))
    | .ret (none, none) => removeInnerAndUnmarshal c codec [] name symmetricAlg innerSymKey
    | .ret (some duplicate, none) =>
      removeInnerAndUnmarshal c codec duplicate name symmetricAlg innerSymKey
  else removeInnerAndUnmarshal c codec duplicate name symmetricAlg innerSymKey

/-- The last step of `SensitiveToDuplicate` (lines 199-208): apply the outer wrapper when
a seed was supplied, and return. -/
def applyOuterWrapper (c : Crypto) (parent : Public) (name seed : Bytes)
    (innerSymKeyOut : Option Bytes) (duplicate : Bytes) :
    Outcome (Option Bytes × Option Bytes × Option Err) :=
  if seed.length > 0 then
    match ProduceOuterWrap c parent name seed duplicate with
    | .panic r => .panic r
    | .ret (_, some err) =>
      .ret (none, none, some (.wrap "cannot produce outer wrapper" err))
    | .ret (duplicate, none) => .ret (innerSymKeyOut, duplicate, none)
  else .ret (innerSymKeyOut, some duplicate, none)

/-- The function `SensitiveToDuplicate` of util/object.go, for a non-nil `sensitive` and a
non-nil `parent`. The result is the Go triple `(innerSymKeyOut, duplicate, err)`. -/
def SensitiveToDuplicate {S : Type} (c : Crypto) (codec : SensitiveCodec S) (rand : Entropy)
    (sensitive : S) (name : Bytes) (parent : Public) (seed : Bytes)
    (symmetricAlg : Option SymDefObject) (innerSymKey : Bytes) :
    Outcome (Option Bytes × Option Bytes × Option Err) :=
  match marshalSensitiveSized codec sensitive with
  | .error e => .ret (none, none, some (.wrap "cannot marshal sensitive" e))
  | .ok duplicate =>
    match hasInnerWrapper symmetricAlg with
    | none => applyOuterWrapper c parent name seed none duplicate
    | some sym =>
      match c.hash (c.nameAlgorithm name) (duplicate ++ name) with
      | none => .panic "hash algorithm is not available"
      | some innerIntegrity =>
        match mustMarshalSizedThenRaw innerIntegrity duplicate with
        | none => .panic "cannot marshal"
        | some duplicate =>
          if innerSymKey.length = 0 then
            match randRead rand (sym.KeyBitsSym / 8) with
            | .error e =>
              .ret (none, none,
                some (.wrap "cannot read random bytes for key for inner wrapper" e))
            | .ok innerSymKey =>
              match c.encrypt sym.Algorithm innerSymKey (zeroIV c sym.Algorithm) duplicate with
              | .error e => .ret (none, none, some (.wrap "cannot apply inner wrapper" e))
              | .ok duplicate =>
                applyOuterWrapper c parent name seed (some innerSymKey) duplicate
          else
            match c.encrypt sym.Algorithm innerSymKey (zeroIV c sym.Algorithm) duplicate with
            | .error e => .ret (none, none, some (.wrap "cannot apply inner wrapper" e))
            | .ok duplicate => applyOuterWrapper c parent name seed none duplicate

/-! ## resources.go -/

/-- The type `Handle` (a uint32). -/
abbrev Handle := Nat

/-- The identity of a connection, a `*tpmContext`. -/
abbrev ConnId := Nat

/-- The identity (address) of a context object on the heap. -/
abbrev CtxId := Nat

/-- A value of the interface type `ResourceContext` as the package makes it: nil (`none`),
or a pointer to one of the four context structs of resources.go. -/
abbrev ResourceContext := Option CtxId

/-- Modelled from the spec: the type of the authorization-method flag of a session, the
field `policyHMACType` that cmds_ea.go writes. Its declaration and the constants
`policyHMACTypeAuth` and `policyHMACTypePassword` are not among the translated files; the
spec gives the values unset, auth-value and password. -/
inductive PolicyHMACType where
  | policyHMACTypeNoAuth
  | policyHMACTypeAuth
  | policyHMACTypePassword
  deriving DecidableEq, Repr

/-- The fields of `sessionContext` besides `tpm` and `handle`: those of the struct in
resources.go, and the field `policyHMACType` that cmds_ea.go writes. -/
structure SessionData where
  hashAlg : Nat
  boundResource : ResourceContext
  sessionKey : Bytes
  nonceCaller : Bytes
  nonceTPM : Bytes
  policyHMACType : PolicyHMACType
  deriving DecidableEq, Repr

/-- The four context structs of resources.go, each with its back-reference `tpm` (nil is
`none`) and its `handle`. -/
inductive Context where
  | permanentContext (tpm : Option ConnId) (handle : Handle)
  | objectContext (tpm : Option ConnId) (handle : Handle) (pub : Public) (name : Bytes)
  | nvIndexContext (tpm : Option ConnId) (handle : Handle) (name : Bytes)
  | sessionContext (tpm : Option ConnId) (handle : Handle) (session : SessionData)
  deriving DecidableEq, Repr

/-- The 4-byte big-endian encoding `binary.BigEndian.PutUint32` of a uint32. -/
def putUint32 (n : Nat) : Bytes :=
  [(n / 16777216 % 256).toUInt8, (n / 65536 % 256).toUInt8, (n / 256 % 256).toUInt8,
    (n % 256).toUInt8]

/-- The methods `Handle()` of the four context structs. -/
def Context.Handle : Context → Handle
  | .permanentContext _ handle => handle
  | .objectContext _ handle _ _ => handle
  | .nvIndexContext _ handle _ => handle
  | .sessionContext _ handle _ => handle

/-- The methods `Name()` of the four context structs; a nil `Name` is the empty list. -/
def Context.Name : Context → Bytes
  | .permanentContext _ handle => putUint32 (handle % 4294967296)
  | .objectContext _ _ _ name => name
  | .nvIndexContext _ _ name => name
  | .sessionContext _ _ _ => []

/-- The methods `Tpm()` of the four context structs. -/
def Context.Tpm : Context → Option ConnId
  | .permanentContext tpm _ => tpm
  | .objectContext tpm _ _ _ => tpm
  | .nvIndexContext tpm _ _ => tpm
  | .sessionContext tpm _ _ => tpm

/-- The methods `SetTpm(t)` of the four context structs. -/
def Context.SetTpm (t : Option ConnId) : Context → Context
  | .permanentContext _ handle => .permanentContext t handle
  | .objectContext _ handle pub name => .objectContext t handle pub name
  | .nvIndexContext _ handle name => .nvIndexContext t handle name
  | .sessionContext _ handle session => .sessionContext t handle session

/-- The type `CommandCode` (a uint32). -/
abbrev CommandCode := Nat

/-- A command that went to the device: the two reads resources.go makes, and a command
sent through `t.RunCommand` with its command code, the handles of the resource contexts
it names (a nil context has none), its parameters, and the authorizations that came with
it (the auth value given for a context, the sessions). -/
inductive DeviceCall where
  | nvReadPublic (handle : Handle)
  | readPublic (handle : Handle)
  | runCommand (code : CommandCode) (handles : List (Option Handle)) (params : List Bytes)
      (auths : List Bytes)
  deriving DecidableEq, Repr

/-- The device behind a connection, as far as resources.go talks to it: the answers of
`t.nvReadPublic(handle)` (the name of the index) and of `t.readPublic(handle)` (the public
area and the name of the object), or the error of the round trip. -/
structure Device where
  nvReadPublic : Handle → Except Err Bytes
  readPublic : Handle → Except Err (Public × Bytes)

/-- The program state resources.go works on.

* `heap` holds the context objects, by identity;
* `next` is the identity the next allocated context gets;
* `resources t` is the map `t.resources` of connection `t`: `none` is a missing entry;
* `sent` lists the device round trips made so far, the latest first, each with the
  connection that made it. -/
structure World where
  heap : CtxId → Context
  next : CtxId
  resources : ConnId → Handle → Option ResourceContext
  sent : List (ConnId × DeviceCall)

/-- How a call that works on the program state ends: it returns, or it panics; either way
the state is what the call left behind. -/
inductive Run (α : Type) where
  | done (world : World) (result : α)
  | panicked (world : World) (reason : String)

/-- The state a call left behind. -/
def Run.world {α : Type} : Run α → World
  | .done w _ => w
  | .panicked w _ => w

/-- Whether the call panicked. -/
def Run.isPanic {α : Type} : Run α → Bool
  | .done _ _ => false
  | .panicked _ _ => true

/-- What the call returned, if it returned. -/
def Run.result? {α : Type} : Run α → Option α
  | .done _ a => some a
  | .panicked _ _ => none

/-- The allocation `&T{...}` of a new context object. -/
def World.alloc (w : World) (ctx : Context) : World × CtxId :=
  ({ w with heap := Function.update w.heap w.next ctx, next := w.next + 1 }, w.next)

/-- The function `makeNVIndexContext` of resources.go. The result is the Go pair
`(ResourceContext, error)`. -/
def makeNVIndexContext (dev : Device) (t : ConnId) (handle : Handle) (w : World) :
    Run (ResourceContext × Option Err) :=
  let w := { w with sent := (t, DeviceCall.nvReadPublic handle) :: w.sent }
  match dev.nvReadPublic handle with
  | .error err => .done w (none, some err)
  | .ok name =>
    let (w, id) := w.alloc (.nvIndexContext none handle name)
    .done w (some id, none)

/-- The function `makeObjectContext` of resources.go. The result is the Go pair
`(ResourceContext, error)`. -/
def makeObjectContext (dev : Device) (t : ConnId) (handle : Handle) (w : World) :
    Run (ResourceContext × Option Err) :=
  let w := { w with sent := (t, DeviceCall.readPublic handle) :: w.sent }
  match dev.readPublic handle with
  | .error err => .done w (none, some err)
  | .ok (pub, name) =>
    let (w, id) := w.alloc (.objectContext none handle pub name)
    .done w (some id, none)

/-- The method `evictResourceContext` of resources.go. The type assertion
`rc.(resourceContextPrivate)` panics on a nil interface value. -/
def evictResourceContext (t : ConnId) (rc : ResourceContext) (w : World) : Run Unit :=
  match rc with
  | none => .panicked w "interface conversion: interface is nil"
  | some id =>
    if (w.heap id).Tpm = none then .done w ()
    else if (w.heap id).Tpm ≠ some t then
      .panicked w "Attempting to evict a resource for another TPM instance"
    else
      let heap := Function.update w.heap id ((w.heap id).SetTpm none)
      .done { w with
        heap := heap
        resources := Function.update w.resources t
          (Function.update (w.resources t) (heap id).Handle none) } ()

/-- The method `addResourceContext` of resources.go. The type assertion
`rc.(resourceContextPrivate)` panics on a nil interface value. -/
def addResourceContext (t : ConnId) (rc : ResourceContext) (w : World) : Run Unit :=
  match rc with
  | none => .panicked w "interface conversion: interface is nil"
  | some id =>
    if (w.heap id).Tpm ≠ none then
      .panicked w "Attempting to add a resource to more than one TPM instance"
    else if (w.resources t (w.heap id).Handle).isSome then
      .panicked w "Resource object for handle already exists"
    else
      let heap := Function.update w.heap id ((w.heap id).SetTpm (some t))
      .done { w with
        heap := heap
        resources := Function.update w.resources t
          (Function.update (w.resources t) (heap id).Handle (some rc)) } ()

/-- A value of the exported interface type `ResourceContext` as a caller of a public
method can pass it: nil or a pointer to one of the four context structs (`context`); a nil
pointer of one of the four struct types inside an interface value that is not nil
(`nilPointer`); or a value of a type declared outside the package (`foreign`), which has
the methods `Handle()` and `Name()` and cannot have `Tpm()` and `SetTpm()`, the type
`tpmContext` not being exported. -/
inductive InterfaceValue where
  | context (rc : ResourceContext)
  | nilPointer
  | foreign
  deriving DecidableEq, Repr

/-- A nil interface value or a pointer to a context struct, as an interface value. -/
instance : Coe ResourceContext InterfaceValue := ⟨InterfaceValue.context⟩

/-- The method `checkResourceContextParam` of resources.go. The result is the Go `error`,
nil being `none`. After the nil test the type assertion `rc.(resourceContextPrivate)` has
no second result: it panics on a value of a foreign type; on a nil pointer of a struct of
the package it succeeds and `rcp.Tpm()` reads a field through the nil pointer. -/
def checkResourceContextParam (t : ConnId) (rc : InterfaceValue) (name : String)
    (w : World) : Run (Option Err) :=
  match rc with
  | .context none =>
    .done w (some (.msg ("invalid resource context for " ++ name ++ ": nil")))
  | .foreign =>
    .panicked w "interface conversion: missing method SetTpm"
  | .nilPointer =>
    .panicked w "invalid memory address or nil pointer dereference"
  | .context (some id) =>
    if (w.heap id).Tpm = none then
      .done w (some (.msg
        ("invalid resource context for " ++ name ++ ": resource has been closed")))
    else if (w.heap id).Tpm ≠ some t then
      .done w (some (.msg ("invalid resource context for " ++ name ++
        ": resource belongs to another tpm2.TPM instance")))
    else .done w none

/-- The discriminator `(handle & 0xff000000) >> 24` that `WrapHandle` switches on. -/
def handleTypeByte (handle : Handle) : Nat := (handle &&& 0xff000000) >>> 24

/-- The switch of `WrapHandle`: the context built for a handle that is not registered,
with the error of the device round trip when there was one. The cases 0x00, 0x02, 0x03
and every value without a case leave `rc` and `err` nil. -/
def synthesizeContext (dev : Device) (t : ConnId) (handle : Handle) (w : World) :
    Run (ResourceContext × Option Err) :=
  if handleTypeByte handle = 0x01 then makeNVIndexContext dev t handle w
  else if handleTypeByte handle = 0x40 then
    let (w, id) := w.alloc (.permanentContext none handle)
    .done w (some id, none)
  else if handleTypeByte handle = 0x80 ∨ handleTypeByte handle = 0x81 then
    makeObjectContext dev t handle w
  else .done w (none, none)

/-- The method `WrapHandle` of resources.go. The result is the Go pair
`(ResourceContext, error)`. -/
def WrapHandle (dev : Device) (t : ConnId) (handle : Handle) (w : World) :
    Run (ResourceContext × Option Err) :=
  match w.resources t handle with
  | some rc => .done w (rc, none)
  | none =>
    match synthesizeContext dev t handle w with
    | .panicked w r => .panicked w r
    | .done w (_, some err) => .done w (none, some err)
    | .done w (rc, none) =>
      match addResourceContext t rc w with
      | .panicked w r => .panicked w r
      | .done w _ => .done w (rc, none)

/-! ## Handle classes (constants.go) -/

/-- `HandleTypePCR` of constants.go. -/
def HandleTypePCR : Handle := 0x00000000

/-- `HandleTypeNVIndex` of constants.go. -/
def HandleTypeNVIndex : Handle := 0x01000000

/-- `HandleTypeHMACSession` of constants.go. -/
def HandleTypeHMACSession : Handle := 0x02000000

/-- `HandleTypePolicySession` of constants.go. -/
def HandleTypePolicySession : Handle := 0x03000000

/-- `HandleTypePermanent` of constants.go. -/
def HandleTypePermanent : Handle := 0x40000000

/-- `HandleTypeTransientObject` of constants.go. -/
def HandleTypeTransientObject : Handle := 0x80000000

/-- `HandleTypePersistentObject` of constants.go. -/
def HandleTypePersistentObject : Handle := 0x81000000

/-- The seven handle classes of the spec. -/
inductive HandleClass where
  | pcr
  | nvIndex
  | hmacSession
  | policySession
  | permanent
  | transient
  | persistent
  deriving DecidableEq, Repr

/-- The `HandleType*` constant of a class. -/
def HandleClass.handleType : HandleClass → Handle
  | .pcr => HandleTypePCR
  | .nvIndex => HandleTypeNVIndex
  | .hmacSession => HandleTypeHMACSession
  | .policySession => HandleTypePolicySession
  | .permanent => HandleTypePermanent
  | .transient => HandleTypeTransientObject
  | .persistent => HandleTypePersistentObject

/-- The top byte of a class, the case label of the switch of `WrapHandle`. -/
def HandleClass.typeByte : HandleClass → Nat
  | .pcr => 0x00
  | .nvIndex => 0x01
  | .hmacSession => 0x02
  | .policySession => 0x03
  | .permanent => 0x40
  | .transient => 0x80
  | .persistent => 0x81

/-- The classification the spec reads off the switch of `WrapHandle`: the class whose case
label the discriminator `(handle & 0xff000000) >> 24` meets, if there is one. The switch
has no default case. -/
def classify (handle : Handle) : Option HandleClass :=
  if handleTypeByte handle = 0x00 then some .pcr
  else if handleTypeByte handle = 0x01 then some .nvIndex
  else if handleTypeByte handle = 0x02 then some .hmacSession
  else if handleTypeByte handle = 0x03 then some .policySession
  else if handleTypeByte handle = 0x40 then some .permanent
  else if handleTypeByte handle = 0x80 then some .transient
  else if handleTypeByte handle = 0x81 then some .persistent
  else none

/-- The reading `binary.BigEndian.Uint32` of the first four bytes; `none` is its panic on
fewer than four bytes. -/
def getUint32 : Bytes → Option Nat
  | a :: b :: c :: d :: _ =>
    some (a.toNat * 16777216 + b.toNat * 65536 + c.toNat * 256 + d.toNat)
  | _ => none

/-! ## cmds_ea.go -/

/-- `CommandPolicySecret` of constants.go. -/
def CommandPolicySecret : CommandCode := 0x00000151

/-- `CommandPolicyAuthValue` of constants.go. -/
def CommandPolicyAuthValue : CommandCode := 0x0000016B

/-- `CommandPolicyOR` of constants.go. -/
def CommandPolicyOR : CommandCode := 0x00000171

/-- `CommandPolicyPCR` of constants.go. -/
def CommandPolicyPCR : CommandCode := 0x0000017F

/-- `CommandPolicyGetDigest` of constants.go. -/
def CommandPolicyGetDigest : CommandCode := 0x00000189

/-- `CommandPolicyPassword` of constants.go. -/
def CommandPolicyPassword : CommandCode := 0x0000018C

/-- The struct `TkAuth`, kept as its encoding. -/
abbrev TkAuth := Bytes

/-- The values `RunCommand` stores through the response pointers a caller passes:
`&timeout` and `&policyTicket` for PolicySecret, `&policyDigest` for PolicyGetDigest. -/
structure Response where
  timeout : Bytes
  policyTicket : TkAuth
  policyDigest : Bytes
  deriving DecidableEq, Repr

/-- The device behind `t.RunCommand`: its answer to a command, the error of the command or
the response values. The answer may depend on everything sent so far; the argument is the
list of round trips, the command in question first. -/
structure Transport where
  respond : List (ConnId × DeviceCall) → Except Err Response

/-- Modelled from the spec: the method `RunCommand`, which is not among the translated
files. It is a round trip to the device: the command goes out with the handles of the
contexts it names, and the answer of the device comes back. The client state is left as it
is; what `RunCommand` does to the sessions that authorize a command (the rolling nonces) is
not modelled. -/
def RunCommand (tr : Transport) (t : ConnId) (code : CommandCode)
    (contexts : List ResourceContext) (params auths : List Bytes) (w : World) :
    Run (Except Err Response) :=
  let call := DeviceCall.runCommand code
    (contexts.map (fun rc => rc.map (fun id => (w.heap id).Handle))) params auths
  .done { w with sent := (t, call) :: w.sent } (tr.respond ((t, call) :: w.sent))

/-- The helper `makeInvalidParamError(name, msg)`, which is not among the translated
files: its error is kept as its two arguments. -/
def makeInvalidParamError (name msg : String) : Err := .wrap name (.msg msg)

/-- The type assertions `rc.(*sessionContext)` and `rc.(SessionContext)` in their
two-value form: the session context behind `rc`, if `rc` is one. The interface
`SessionContext` is not among the translated files; the struct `sessionContext` is taken
to be its only implementation. -/
def asSessionContext (w : World) : ResourceContext → Option (CtxId × SessionData)
  | none => none
  | some id =>
    match w.heap id with
    | .sessionContext _ _ session => some (id, session)
    | _ => none

/-- The assignment `sc.policyHMACType = v` on a session context. -/
def Context.setPolicyHMACType (v : PolicyHMACType) : Context → Context
  | .sessionContext tpm handle session =>
    .sessionContext tpm handle { session with policyHMACType := v }
  | ctx => ctx

/-- The method `PolicySecret` of cmds_ea.go. The result is the Go triple
`(Timeout, *TkAuth, error)`. The arguments `authContextAuth` and `sessions` are passed on
to `RunCommand` as they are. -/
def PolicySecret (tr : Transport) (t : ConnId) (authContext policySession : ResourceContext)
    (cpHashA policyRef : Bytes) (expiration : Int) (authContextAuth : Bytes)
    (sessions : List Bytes) (w : World) :
    Run (Option Bytes × Option TkAuth × Option Err) :=
  match checkResourceContextParam t authContext "authContext" w with
  | .panicked w r => .panicked w r
  | .done w (some err) => .done w (none, none, some err)
  | .done w none =>
    match checkResourceContextParam t policySession "policySession" w with
    | .panicked w r => .panicked w r
    | .done w (some err) => .done w (none, none, some err)
    | .done w none =>
      match asSessionContext w policySession with
      | none =>
        .done w (none, none, some (.msg
          "invalid resource context for policySession: not a session context"))
      | some (_, sessionContext) =>
        match RunCommand tr t CommandPolicySecret [authContext, policySession]
            [sessionContext.nonceTPM, cpHashA, policyRef,
              putUint32 (expiration % 4294967296).toNat]
            (authContextAuth :: sessions) w with
        | .panicked w r => .panicked w r
        | .done w (.error err) => .done w (none, none, some err)
        | .done w (.ok resp) => .done w (some resp.timeout, some resp.policyTicket, none)

/-- The method `PolicyOR` of cmds_ea.go. The result is the Go `error`. -/
def PolicyOR (tr : Transport) (t : ConnId) (policySession : ResourceContext)
    (pHashList : List Bytes) (w : World) : Run (Option Err) :=
  match checkResourceContextParam t policySession "policySession" w with
  | .panicked w r => .panicked w r
  | .done w (some err) => .done w (some err)
  | .done w none =>
    match RunCommand tr t CommandPolicyOR [policySession] pHashList [] w with
    | .panicked w r => .panicked w r
    | .done w (.error err) => .done w (some err)
    | .done w (.ok _) => .done w none

/-- The method `PolicyPCR` of cmds_ea.go. The result is the Go `error`. The PCR selection
list is kept as its encoding. -/
def PolicyPCR (tr : Transport) (t : ConnId) (policySession : ResourceContext)
    (pcrDigest pcrs : Bytes) (sessions : List Bytes) (w : World) : Run (Option Err) :=
  match checkResourceContextParam t policySession "policySession" w with
  | .panicked w r => .panicked w r
  | .done w (some err) => .done w (some err)
  | .done w none =>
    match RunCommand tr t CommandPolicyPCR [policySession] [pcrDigest, pcrs] sessions w with
    | .panicked w r => .panicked w r
    | .done w (.error err) => .done w (some err)
    | .done w (.ok _) => .done w none

/-- The method `PolicyAuthValue` of cmds_ea.go. The result is the Go `error`. -/
def PolicyAuthValue (tr : Transport) (t : ConnId) (policySession : ResourceContext)
    (w : World) : Run (Option Err) :=
  match checkResourceContextParam t policySession "policySession" w with
  | .panicked w r => .panicked w r
  | .done w (some err) => .done w (some err)
  | .done w none =>
    match asSessionContext w policySession with
    | none => .done w (some (makeInvalidParamError "policySession" "not a session context"))
    | some (sc, _) =>
      match RunCommand tr t CommandPolicyAuthValue [policySession] [] [] w with
      | .panicked w r => .panicked w r
      | .done w (.error err) => .done w (some err)
      | .done w (.ok _) =>
        .done { w with
          heap := Function.update w.heap sc
            ((w.heap sc).setPolicyHMACType .policyHMACTypeAuth) } none

/-- The method `PolicyPassword` of cmds_ea.go. The result is the Go `error`. -/
def PolicyPassword (tr : Transport) (t : ConnId) (policySession : ResourceContext)
    (w : World) : Run (Option Err) :=
  match checkResourceContextParam t policySession "policySession" w with
  | .panicked w r => .panicked w r
  | .done w (some err) => .done w (some err)
  | .done w none =>
    match asSessionContext w policySession with
    | none => .done w (some (makeInvalidParamError "policySession" "not a session context"))
    | some (sc, _) =>
      match RunCommand tr t CommandPolicyPassword [policySession] [] [] w with
      | .panicked w r => .panicked w r
      | .done w (.error err) => .done w (some err)
      | .done w (.ok _) =>
        .done { w with
          heap := Function.update w.heap sc
            ((w.heap sc).setPolicyHMACType .policyHMACTypePassword) } none

/-- The method `PolicyGetDigest` of cmds_ea.go. The result is the Go pair
`(Digest, error)`. -/
def PolicyGetDigest (tr : Transport) (t : ConnId) (policySession : ResourceContext)
    (w : World) : Run (Option Bytes × Option Err) :=
  match checkResourceContextParam t policySession "policySession" w with
  | .panicked w r => .panicked w r
  | .done w (some err) => .done w (none, some err)
  | .done w none =>
    match RunCommand tr t CommandPolicyGetDigest [policySession] [] [] w with
    | .panicked w r => .panicked w r
    | .done w (.error err) => .done w (none, some err)
    | .done w (.ok resp) => .done w (some resp.policyDigest, none)

/-! ## Small instances of the collaborators

They serve to run the model on concrete inputs: a stream cipher that XORs every byte with
a byte derived from the key, and checksums in place of the hash functions. On its first
block the CFB mode of the library is such a XOR with a key stream. -/

/-- The XOR of all bytes. -/
def xorBytes (b : Bytes) : UInt8 := b.foldl (· ^^^ ·) 0

/-- The sum of all bytes, modulo 256. -/
def sumBytes (b : Bytes) : UInt8 := b.foldl (· + ·) 0

/-- `AlgorithmAES` of constants.go. -/
def AlgorithmAES : Nat := 0x0006

/-- `AlgorithmSHA256` of constants.go. -/
def AlgorithmSHA256 : Nat := 0x000b

/-- `AlgorithmNull` of constants.go. -/
def AlgorithmNull : Nat := 0x0010

/-- The XOR cipher: the same function encrypts and decrypts; only AES is a known
algorithm, and an empty key is refused. -/
def demoCipher (alg : SymObjectAlgorithmId) (key _iv data : Bytes) : Except Err Bytes :=
  if alg ≠ AlgorithmAES then .error (.msg "unknown symmetric algorithm")
  else if key.length = 0 then .error (.msg "invalid key size")
  else .ok (data.map (· ^^^ (xorBytes key ^^^ 0x5a)))

/-- A two-byte checksum; only SHA-256 is an available algorithm. -/
def demoHash (alg : HashAlgorithmId) (message : Bytes) : Option Bytes :=
  if alg = AlgorithmSHA256 then some [sumBytes message, xorBytes message] else none

/-- A small instance of `Crypto`. -/
def demoCrypto : Crypto where
  kdfa := fun alg key label contextU contextV bits =>
    if alg = AlgorithmSHA256 then
      some ((List.range (bits / 8)).map
        (fun i => sumBytes (key ++ label ++ contextU ++ contextV) + i.toUInt8))
    else none
  hmac := fun alg key message => (demoHash alg (key ++ message))
  hash := demoHash
  digestSize := fun _ => 2
  blockSize := fun _ => 16
  encrypt := demoCipher
  decrypt := demoCipher
  nameAlgorithm := fun name =>
    match name with
    | 0 :: 11 :: digest => if digest.length = 32 then AlgorithmSHA256 else AlgorithmNull
    | _ => AlgorithmNull

/-- A codec whose `Sensitive` is its own encoding. -/
def demoCodec : SensitiveCodec Bytes where
  marshal := fun s => .ok s
  unmarshal := fun b => .ok b

/-- A storage parent: SHA-256 name algorithm, AES-128 symmetric definition. -/
def demoParent : Public :=
  { NameAlg := AlgorithmSHA256, AsymDetailSymmetric := some ⟨AlgorithmAES, 128⟩ }

/-- A digest-form name: 0x000B followed by 32 bytes. -/
def demoName : Bytes := 0 :: 11 :: (List.range 32).map (fun i => (7 * i + 3).toUInt8)

/-- A 32-byte all-zero seed. -/
def demoSeed : Bytes := List.replicate 32 0

/-- A 16-byte payload. -/
def demoPayload : Bytes := (List.range 16).map (fun i => (i + 65).toUInt8)

/-- A 16-byte inner key. -/
def demoKey : Bytes := (List.range 16).map (fun i => (5 * i + 2).toUInt8)

/-- The blob `SensitiveToDuplicate` makes of `demoPayload` under `demoName` with the inner
wrapper alone, under `demoKey`. -/
def demoInnerBlob : Bytes :=
  [58, 56, 169, 49, 58, 42, 123, 120, 121, 126, 127, 124, 125, 114, 115, 112, 113, 118, 119,
    116, 117, 106]

/-- The blob `SensitiveToDuplicate` makes of `demoPayload` under `demoName` with the outer
wrapper alone, under `demoSeed`. -/
def demoOuterBlob : Bytes :=
  [0, 2, 134, 116, 90, 74, 27, 24, 25, 30, 31, 28, 29, 18, 19, 16, 17, 22, 23, 20, 21, 10]

/-- An entropy source. -/
def demoEntropy : Entropy := .ok (fun i => (3 * i + 1).toUInt8)

/-- The byte sequence with bit `j` of byte `i` flipped. -/
def flipBit : Bytes → Nat → Nat → Bytes
  | [], _, _ => []
  | b :: bs, 0, j => (b ^^^ (1 <<< j.toUInt8)) :: bs
  | b :: bs, i + 1, j => b :: flipBit bs i j

/-- The two results of `DuplicateToSensitive` that are integrity failures: the inner
`inner integrity digest is invalid`, and the outer `integrity digest is invalid` as
`DuplicateToSensitive` passes it on. -/
def IsIntegrityFailure {S : Type} (r : Outcome (Option S × Option Err)) : Prop :=
  r = .ret (none, some (.msg "inner integrity digest is invalid")) ∨
  r = .ret (none, some (.wrap "cannot unwrap outer wrapper"
    (.msg "integrity digest is invalid")))

/-- The context `rc` is already owned by some connection: its back-reference is not
nil. -/
def AlreadyOwned (w : World) (rc : ResourceContext) : Prop :=
  ∃ id, rc = some id ∧ (w.heap id).Tpm ≠ none

/-- The map `t.resources` already holds an entry for `rc.Handle()`. -/
def HandleRegistered (w : World) (t : ConnId) (rc : ResourceContext) : Prop :=
  ∃ id, rc = some id ∧ (w.resources t (w.heap id).Handle).isSome = true

/-- The constant `HandleOwner` of constants.go. -/
def HandleOwner : Handle := 0x40000001

/-- A state with no registration: every context object is an unowned permanent context
for `HandleOwner`, and no connection has an entry. -/
def emptyWorld : World where
  heap := fun _ => .permanentContext none HandleOwner
  next := 0
  resources := fun _ _ => none
  sent := []

/-- A device that knows one NV index and one transient object. -/
def demoDevice : Device where
  nvReadPublic := fun handle =>
    if handle = 0x01000001 then .ok demoName else .error (.msg "TPM_RC_HANDLE")
  readPublic := fun handle =>
    if handle = 0x80000000 then .ok (demoParent, demoName) else .error (.msg "TPM_RC_HANDLE")

/-- The data of a new policy session: no authorization method has been set. -/
def demoSession : SessionData where
  hashAlg := AlgorithmSHA256
  boundResource := none
  sessionKey := []
  nonceCaller := []
  nonceTPM := [1, 2, 3]
  policyHMACType := .policyHMACTypeNoAuth

/-- A state in which connection 1 has registered two contexts: context 0, a policy session
with handle 0x03000000, and context 1, the permanent context of `HandleOwner`. -/
def sessionWorld : World where
  heap := fun id =>
    if id = 0 then .sessionContext (some 1) 0x03000000 demoSession
    else if id = 1 then .permanentContext (some 1) HandleOwner
    else .permanentContext none HandleOwner
  next := 2
  resources := fun t handle =>
    if t = 1 ∧ handle = 0x03000000 then some (some 0)
    else if t = 1 ∧ handle = HandleOwner then some (some 1)
    else none
  sent := []

/-- A device that accepts every command. -/
def acceptingTransport : Transport where
  respond := fun _ => .ok { timeout := [], policyTicket := [], policyDigest := demoSeed }

/-- A device that rejects every command. -/
def rejectingTransport : Transport where
  respond := fun _ => .error (.msg "TPM_RC_VALUE")

/-- The context `rc` can be used on connection `t`: it is not nil and is owned by `t`. -/
def ValidContext (w : World) (t : ConnId) (rc : ResourceContext) : Prop :=
  ∃ id, rc = some id ∧ (w.heap id).Tpm = some t

/-! ## util/keys.go -/

/-- `AttrFixedTPM` of constants.go. -/
def AttrFixedTPM : Nat := 1 <<< 1

/-- `AttrFixedParent` of constants.go. -/
def AttrFixedParent : Nat := 1 <<< 4

/-- `AttrSensitiveDataOrigin` of constants.go. -/
def AttrSensitiveDataOrigin : Nat := 1 <<< 5

/-- `AttrUserWithAuth` of constants.go. -/
def AttrUserWithAuth : Nat := 1 <<< 6

/-- `AlgorithmKeyedHash` of constants.go, as `tpm2.ObjectTypeKeyedHash`. -/
def ObjectTypeKeyedHash : Nat := 0x0008

/-- `AlgorithmSHA1` of constants.go. -/
def AlgorithmSHA1 : Nat := 0x0004

/-- `AlgorithmSHA384` of constants.go. -/
def AlgorithmSHA384 : Nat := 0x000c

/-- `AlgorithmSHA512` of constants.go. -/
def AlgorithmSHA512 : Nat := 0x000d

/-- Modelled from the spec: the constant `tpm2.HashAlgorithmNull`, the value
`AlgorithmNull` of constants.go as a hash algorithm (its declaration is not among the
translated files; the tests compare `Name.Algorithm()` of a handle name with it). -/
def HashAlgorithmNull : HashAlgorithmId := AlgorithmNull

/-- Modelled from the spec: the constant `tpm2.HashAlgorithmSHA256`, the value
`AlgorithmSHA256` of constants.go as a hash algorithm (its declaration is not among the
translated files; the tests tag a name with `AlgorithmSHA256` and expect it back). -/
def HashAlgorithmSHA256 : HashAlgorithmId := AlgorithmSHA256

/-- The Go operator `&^` (bit clear) on unsigned integers: the bits of `a` that are not
in `m`. -/
def bitClear (a m : Nat) : Nat := a ^^^ (a &&& m)

/-- The struct `tpm2.Sensitive`, with the fields `NewSealedObject` sets; `ObjectType` is
`Type` and `Bits` is `Sensitive.Bits`. -/
structure Sensitive where
  ObjectType : Nat
  AuthValue : Bytes
  SeedValue : Bytes
  Bits : Bytes
  deriving DecidableEq, Repr

/-- Modelled from the spec: `templates.NewSealedObject`, which is not among the translated
files, as the comment of `NewSealedObject` in util/keys.go describes its result: a
keyed-hash object whose name algorithm is SHA-256 when `HashAlgorithmNull` is given, with
`AttrUserWithAuth` set; `AttrFixedTPM` and `AttrFixedParent` are the attributes that
`NewSealedObject` takes away again. -/
def templates.NewSealedObject (nameAlg : HashAlgorithmId) : Public :=
  { ObjectType := ObjectTypeKeyedHash
    NameAlg := if nameAlg = HashAlgorithmNull then HashAlgorithmSHA256 else nameAlg
    Attrs := AttrFixedTPM ||| AttrFixedParent ||| AttrUserWithAuth
    AsymDetailSymmetric := none }

/-- The function `NewSealedObject` of util/keys.go. `template` is
`templates.NewSealedObject`. The sizes are `pub.NameAlg.Size()`; `copy` fills the front of
the zeroed `AuthValue`; the error of `rand.Read` is not looked at, and a failed read leaves
the zeroed `SeedValue` as it is; the digest is made by `nameAlg.NewHash()`, on the
argument `nameAlg`. -/
def NewSealedObject (c : Crypto) (template : HashAlgorithmId → Public) (rand : Entropy)
    (nameAlg : HashAlgorithmId) (authValue data : Bytes) : Outcome (Public × Sensitive) :=
  let pub := template nameAlg
  let pub := { pub with Attrs := bitClear pub.Attrs (AttrFixedTPM ||| AttrFixedParent) }
  if authValue.length > c.digestSize pub.NameAlg then .panic "authValue too large"
  else
    let sensitive : Sensitive :=
      { ObjectType := ObjectTypeKeyedHash
        AuthValue := authValue.take (c.digestSize pub.NameAlg) ++
          List.replicate (c.digestSize pub.NameAlg - authValue.length) 0
        SeedValue :=
          match randRead rand (c.digestSize pub.NameAlg) with
          | .ok b => b
          | .error _ => List.replicate (c.digestSize pub.NameAlg) 0
        Bits := data }
    match c.hash nameAlg (sensitive.SeedValue ++ sensitive.Bits) with
    | none => .panic "hash algorithm is not available"
    | some digest => .ret ({ pub with Unique := some (.KeyedHash digest) }, sensitive)

/-- The curves of `crypto/elliptic` that `NewExternalECCPublicKey` knows, and any other
implementation of `elliptic.Curve`, with its bit size. -/
inductive EllipticCurve where
  | P224
  | P256
  | P384
  | P521
  | other (bitSize : Nat)
  deriving DecidableEq, Repr

/-- The field `key.Params().BitSize`: the size of the underlying field of the curve, in
bits. -/
def EllipticCurve.BitSize : EllipticCurve → Nat
  | .P224 => 224
  | .P256 => 256
  | .P384 => 384
  | .P521 => 521
  | .other bitSize => bitSize

/-- The struct `ecdsa.PublicKey`: the curve and the two coordinates, which are
`*big.Int`. -/
structure ECDSAPublicKey where
  Curve : EllipticCurve
  X : Nat
  Y : Nat
  deriving DecidableEq, Repr

/-- `ECCCurveNIST_P224` of constants.go. -/
def ECCCurveNIST_P224 : Nat := 0x0002

/-- `ECCCurveNIST_P256` of constants.go. -/
def ECCCurveNIST_P256 : Nat := 0x0003

/-- `ECCCurveNIST_P384` of constants.go. -/
def ECCCurveNIST_P384 : Nat := 0x0004

/-- `ECCCurveNIST_P521` of constants.go. -/
def ECCCurveNIST_P521 : Nat := 0x0005

/-- The switch of `NewExternalECCPublicKey` on `key.Curve`; `none` is the default case. -/
def eccCurveOf : EllipticCurve → Option Nat
  | .P224 => some ECCCurveNIST_P224
  | .P256 => some ECCCurveNIST_P256
  | .P384 => some ECCCurveNIST_P384
  | .P521 => some ECCCurveNIST_P521
  | .other _ => none

/-- The function `NewExternalECCPublicKey` of util/keys.go. `NewECCKey` is
`templates.NewECCKey` and `zeroExtendBytes` is the helper of that name; neither is among
the translated files, and both are parameters: `zeroExtendBytes x l` gets the coordinate
and the length `key.Params().BitSize/8`. -/
def NewExternalECCPublicKey {U Sch : Type}
    (NewECCKey : HashAlgorithmId → U → Sch → Nat → Public)
    (zeroExtendBytes : Nat → Nat → Outcome Bytes)
    (nameAlg : HashAlgorithmId) (usage : U) (scheme : Sch) (key : ECDSAPublicKey) :
    Outcome Public :=
  match eccCurveOf key.Curve with
  | none => .panic "unsupported curve"
  | some curve =>
    let pub := NewECCKey nameAlg usage scheme curve
    let pub := { pub with
      Attrs := bitClear pub.Attrs
        (AttrFixedTPM ||| AttrFixedParent ||| AttrSensitiveDataOrigin ||| AttrUserWithAuth) }
    match zeroExtendBytes key.X (key.Curve.BitSize / 8) with
    | .panic r => .panic r
    | .ret x =>
      match zeroExtendBytes key.Y (key.Curve.BitSize / 8) with
      | .panic r => .panic r
      | .ret y => .ret { pub with Unique := some (.ECC ⟨x, y⟩) }

/-- The prime `2^521 - 1` of the curve P-521. -/
def P521.P : Nat :=
  6864797660130609714981900799081393217269435300143305409394463459185543183397656052122559640661454554977296311391480858037121987999716643812574028291115057151

/-- The coefficient `b` of the curve P-521, `y^2 = x^3 - 3x + b`. -/
def P521.B : Nat :=
  1093849038073734274511112390766805569936207598951683748994586394495953116150735016013708737573759623248592132296706313309438452531591012912142327488478985984

/-- The first coordinate of the base point of P-521. -/
def P521.Gx : Nat :=
  2661740802050217063228768716723360960729859168756973147706671368418802944996427808491545080627771902352094241225065558662157113545570916814161637315895999846

/-- The second coordinate of the base point of P-521. -/
def P521.Gy : Nat :=
  3757180025770020463545507224491183603594455134769762486694567779615544477440556316691234405012945539562144444537289428522585666729196580810124344277578376784

/-- The point `(x, y)` is on the curve P-521: both coordinates are below the prime and
`y^2 + 3x = x^3 + b` modulo the prime. -/
def P521.IsOnCurve (x y : Nat) : Bool :=
  decide (x < P521.P) && decide (y < P521.P) &&
    ((y * y + 3 * x) % P521.P == (x * x * x + P521.B) % P521.P)

/-- The public key of the private key 1 on P-521: the base point. -/
def demoP521Key : ECDSAPublicKey := { Curve := .P521, X := P521.Gx, Y := P521.Gy }

/-! ## Names -/

/-- The 2-byte big-endian number at the front of a byte sequence
(`binary.BigEndian.Uint16`); 0 when there are fewer than 2 bytes. -/
def getUint16 : Bytes → Nat
  | b0 :: b1 :: _ => b0.toNat * 256 + b1.toNat
  | _ => 0

/-- Modelled from the spec: the three classes of a `Name`; the tests name them
`NameTypeInvalid`, `NameTypeHandle` and `NameTypeDigest`. -/
inductive NameType where
  | NameTypeInvalid
  | NameTypeHandle
  | NameTypeDigest
  deriving DecidableEq, Repr

/-- Modelled from the spec: `Name.Type()` (here `Name.TypeOf`), which is not among the
translated files. A name
is invalid when it is too short for an algorithm id, handle-form when it has exactly 4
bytes, digest-form when its 2-byte algorithm id is a supported hash algorithm and a
digest of that size follows, and invalid otherwise. `digestSizeOf` gives the digest size
of a supported hash algorithm, `none` for every other id. -/
def Name.TypeOf (digestSizeOf : HashAlgorithmId → Option Nat) (n : Bytes) : NameType :=
  if n.length < 2 then .NameTypeInvalid
  else if n.length = 4 then .NameTypeHandle
  else
    match digestSizeOf (getUint16 n) with
    | none => .NameTypeInvalid
    | some size => if n.length - 2 = size then .NameTypeDigest else .NameTypeInvalid

/-- Modelled from the spec: `Name.Handle()`, which is not among the translated files: the
handle of a handle-form name; on any other name a contract violation, the panic
`name is not a handle` of the tests. -/
def Name.Handle (digestSizeOf : HashAlgorithmId → Option Nat) (n : Bytes) : Outcome Handle :=
  if Name.TypeOf digestSizeOf n = .NameTypeHandle then
    match getUint32 n with
    | some handle => .ret handle
    | none => .panic "name is not a handle"
  else .panic "name is not a handle"

/-- Modelled from the spec: `Name.Digest()`, which is not among the translated files: the
bytes after the algorithm id of a digest-form name; on any other name a contract
violation, the panic `name is not a valid digest` of the tests. -/
def Name.Digest (digestSizeOf : HashAlgorithmId → Option Nat) (n : Bytes) : Outcome Bytes :=
  if Name.TypeOf digestSizeOf n = .NameTypeDigest then .ret (n.drop 2)
  else .panic "name is not a valid digest"

/-- Modelled from the spec: `Name.Algorithm()`, which is not among the translated files:
the algorithm id of a digest-form name, and `HashAlgorithmNull` for every other name. -/
def Name.Algorithm (digestSizeOf : HashAlgorithmId → Option Nat) (n : Bytes) :
    HashAlgorithmId :=
  if Name.TypeOf digestSizeOf n = .NameTypeDigest then getUint16 n else HashAlgorithmNull

/-- The digest sizes of SHA-1, SHA-256, SHA-384 and SHA-512, in bytes. -/
def demoDigestSizes (alg : HashAlgorithmId) : Option Nat :=
  if alg = AlgorithmSHA1 then some 20
  else if alg = AlgorithmSHA256 then some 32
  else if alg = AlgorithmSHA384 then some 48
  else if alg = AlgorithmSHA512 then some 64
  else none

/-! ## Sequences of calls on the store -/

/-- A step of a program that uses the store of resources.go: the allocation of a context
object by the caller (objects start with a nil back-reference), or a call of
`addResourceContext`, `evictResourceContext` or `WrapHandle` on some connection. -/
inductive StoreCall where
  | newContext (ctx : Context)
  | addResourceContext (t : ConnId) (rc : ResourceContext)
  | evictResourceContext (t : ConnId) (rc : ResourceContext)
  | WrapHandle (dev : Device) (t : ConnId) (handle : Handle)

/-- The state a step leaves behind, whether the call returned or panicked. -/
def StoreCall.run : StoreCall → World → World
  | .newContext ctx, w => (w.alloc (ctx.SetTpm none)).1
  | .addResourceContext t rc, w => (GoTpm2.addResourceContext t rc w).world
  | .evictResourceContext t rc, w => (GoTpm2.evictResourceContext t rc w).world
  | .WrapHandle dev t handle, w => (GoTpm2.WrapHandle dev t handle w).world

/-- The argument of the call is a Go value of the state: a context that is not nil points
to an object that has been allocated. -/
def StoreCall.wellFormed : StoreCall → World → Bool
  | .addResourceContext _ (some id), w => decide (id < w.next)
  | .evictResourceContext _ (some id), w => decide (id < w.next)
  | _, _ => true

/-- The states a program can reach from the empty store, step by step. -/
inductive Reachable : World → Prop where
  | empty : Reachable emptyWorld
  | step (w : World) (call : StoreCall) :
      Reachable w → call.wellFormed w = true → Reachable (call.run w)

/-- The two directions of the store invariant: an entry `t.resources[h] = rc` holds a
context with handle `h` that is owned by `t`, and a context owned by `t` is the entry of
`t.resources` at its own handle. -/
def StoreConsistent (w : World) : Prop :=
  (∀ t h rc, w.resources t h = some rc →
    ∃ id, rc = some id ∧ (w.heap id).Handle = h ∧ (w.heap id).Tpm = some t) ∧
  (∀ t id, (w.heap id).Tpm = some t → w.resources t (w.heap id).Handle = some (some id))

/-- The store invariant together with what the allocator adds to it: an object that has
not been allocated is not owned. -/
def StoreInvariant (w : World) : Prop :=
  StoreConsistent w ∧ ∀ id, w.next ≤ id → (w.heap id).Tpm = none

/-- A run on two connections: connection 1 wraps `HandleOwner` (context 0), a session
context is allocated (context 1) and registered with connection 2, connection 2 then
tries to register context 0 as well and panics, and connection 1 evicts context 0. -/
def demoStore : World :=
  (StoreCall.evictResourceContext 1 (some 0)).run
    ((StoreCall.addResourceContext 2 (some 0)).run
      ((StoreCall.addResourceContext 2 (some 1)).run
        ((StoreCall.newContext (.sessionContext none 0x03000000 demoSession)).run
          ((StoreCall.WrapHandle demoDevice 1 HandleOwner).run emptyWorld))))

/-! ## Lemmas on size-prefixed fields -/

theorem putUint16_decode (n : Nat) (h : n ≤ 65535) :
    (n / 256).toUInt8.toNat * 256 + (n % 256).toUInt8.toNat = n := by
  have h1 : (n / 256).toUInt8.toNat = n / 256 := by
    show (n / 256) % 256 = n / 256
    omega
  have h2 : (n % 256).toUInt8.toNat = n % 256 := by
    show (n % 256) % 256 = n % 256
    omega
  rw [h1, h2]; omega

/-- Reading back a length-prefixed field followed by raw bytes gives the field and the
raw bytes. -/
theorem unmarshalSized_marshalSized (field raw b : Bytes) (h : marshalSized field = .ok b) :
    unmarshalSized (b ++ raw) = .ok (field, raw) := by
  unfold marshalSized at h
  split at h
  · rename_i hlen
    cases h
    simp only [putUint16, List.cons_append, List.nil_append, unmarshalSized]
    rw [putUint16_decode _ hlen]
    simp
  · cases h

theorem unmarshalSized_mustMarshal (field raw out : Bytes)
    (h : mustMarshalSizedThenRaw field raw = some out) :
    unmarshalSized out = .ok (field, raw) := by
  unfold mustMarshalSizedThenRaw at h
  split at h
  · rename_i b hb
    cases h
    exact unmarshalSized_marshalSized field raw b hb
  · cases h

theorem flipBit_append_right (a b : Bytes) (i j : Nat) :
    flipBit (a ++ b) (a.length + i) j = a ++ flipBit b i j := by
  induction a with
  | nil => simp
  | cons x xs ih =>
    have : (x :: xs).length + i = (xs.length + i) + 1 := by simp; omega
    rw [List.cons_append, this, flipBit, ih, List.cons_append]

/-- Flipping a bit behind the length-prefixed field leaves the field as it is: the blob
reads back as the same field followed by the raw bytes with that bit flipped. -/
theorem unmarshalSized_flipBit_raw (field raw out : Bytes) (i j : Nat)
    (h : mustMarshalSizedThenRaw field raw = some out) :
    unmarshalSized (flipBit out (2 + field.length + i) j) = .ok (field, flipBit raw i j) := by
  have h0 := h
  unfold mustMarshalSizedThenRaw at h
  split at h
  · rename_i pre hpre
    cases h
    have hlen : pre.length = 2 + field.length := by
      unfold marshalSized at hpre
      split at hpre
      · cases hpre
        simp [putUint16]
        omega
      · cases hpre
    rw [← hlen, flipBit_append_right]
    exact unmarshalSized_marshalSized field (flipBit raw i j) pre hpre
  · cases h

theorem unmarshalSensitiveSized_marshal {S : Type} (codec : SensitiveCodec S)
    (hcodec : ∀ s b, codec.marshal s = .ok b → codec.unmarshal b = .ok s)
    (sensitive : S) (b : Bytes) (h : marshalSensitiveSized codec sensitive = .ok b) :
    unmarshalSensitiveSized codec b = .ok sensitive := by
  unfold marshalSensitiveSized at h
  split at h
  · cases h
  · rename_i body hbody
    have hu := unmarshalSized_marshalSized body [] b h
    rw [List.append_nil] at hu
    simp only [unmarshalSensitiveSized, hu]
    exact hcodec _ _ hbody

/-! ## The outer wrapper -/

/-- What a successful `ProduceOuterWrap` returned: the length-prefixed HMAC of the
ciphertext and the name, followed by the ciphertext. -/
theorem ProduceOuterWrap_ok (c : Crypto) (protector : Public) (name seed data : Bytes)
    (res : Option Bytes) (h : ProduceOuterWrap c protector name seed data = .ret (res, none)) :
    ∃ symmetric symKey ct hmacKey integrity out,
      protector.AsymDetailSymmetric = some symmetric ∧
      c.kdfa protector.NameAlg seed StorageKey name [] symmetric.KeyBitsSym = some symKey ∧
      c.encrypt symmetric.Algorithm symKey (zeroIV c symmetric.Algorithm) data = .ok ct ∧
      c.kdfa protector.NameAlg seed IntegrityKey [] [] (c.digestSize protector.NameAlg * 8)
        = some hmacKey ∧
      c.hmac protector.NameAlg hmacKey (ct ++ name) = some integrity ∧
      mustMarshalSizedThenRaw integrity ct = some out ∧ res = some out := by
  unfold ProduceOuterWrap at h
  split at h
  · cases h
  · rename_i symmetric hsym
    split at h
    · cases h
    · rename_i symKey hk
      split at h
      · cases h
      · rename_i ct hct
        split at h
        · cases h
        · rename_i hmacKey hhk
          split at h
          · cases h
          · rename_i integrity hint
            split at h
            · cases h
            · rename_i out hout
              cases h
              exact ⟨symmetric, symKey, ct, hmacKey, integrity, out, hsym, hk, hct, hhk,
                hint, hout, rfl⟩

/-- Removing the outer wrapper that `ProduceOuterWrap` applied gives the data back, when
decryption inverts encryption under the same key and the zero IV. -/
theorem UnwrapOuter_ProduceOuterWrap (c : Crypto)
    (hinv : ∀ alg key p ct, c.encrypt alg key (zeroIV c alg) p = .ok ct →
      c.decrypt alg key (zeroIV c alg) ct = .ok p)
    (protector : Public) (name seed data : Bytes) (res : Option Bytes)
    (h : ProduceOuterWrap c protector name seed data = .ret (res, none)) :
    ∃ out, res = some out ∧
      UnwrapOuter c protector.NameAlg protector.AsymDetailSymmetric name seed out
        = .ret (some data, none) := by
  obtain ⟨symmetric, symKey, ct, hmacKey, integrity, out, hsym, hk, hct, hhk, hint, hout,
    hres⟩ := ProduceOuterWrap_ok c protector name seed data res h
  refine ⟨out, hres, ?_⟩
  unfold UnwrapOuter
  rw [unmarshalSized_mustMarshal integrity ct out hout]
  simp only [hhk, hint, hsym, hk, hinv _ _ _ _ hct, ne_eq, not_true_eq_false, if_false]

/-! ## The inner wrapper and the round trip -/

/-- What `applyOuterWrapper` returned on success, and that `DuplicateToSensitive` gets
past the outer wrapper to the bytes that were wrapped. -/
theorem DuplicateToSensitive_applyOuterWrapper {S : Type} (c : Crypto)
    (codec : SensitiveCodec S)
    (hinv : ∀ alg key p ct, c.encrypt alg key (zeroIV c alg) p = .ok ct →
      c.decrypt alg key (zeroIV c alg) ct = .ok p)
    (parent : Public) (name seed : Bytes) (keyOut0 keyOut blob : Option Bytes)
    (inner : Bytes) (symmetricAlg : Option SymDefObject) (k : Bytes)
    (h : applyOuterWrapper c parent name seed keyOut0 inner = .ret (keyOut, blob, none)) :
    keyOut = keyOut0 ∧ ∃ b, blob = some b ∧
      DuplicateToSensitive c codec b name parent.NameAlg parent.AsymDetailSymmetric seed
        symmetricAlg k = removeInnerAndUnmarshal c codec inner name symmetricAlg k := by
  unfold applyOuterWrapper at h
  split at h
  · rename_i hseed
    split at h
    · cases h
    · cases h
    · rename_i res hp
      cases h
      obtain ⟨out, hres, hun⟩ := UnwrapOuter_ProduceOuterWrap c hinv parent name seed inner _ hp
      refine ⟨rfl, out, hres, ?_⟩
      simp only [DuplicateToSensitive, hseed, if_true, hun]
  · rename_i hseed
    cases h
    refine ⟨rfl, inner, rfl, ?_⟩
    simp only [DuplicateToSensitive, hseed, if_false]

/-- Removing the inner wrapper from what the inner wrapping step produced, with the key
it was encrypted under, gives the `Sensitive` back. -/
theorem removeInner_roundtrip {S : Type} (c : Crypto) (codec : SensitiveCodec S)
    (hinv : ∀ alg key p ct, c.encrypt alg key (zeroIV c alg) p = .ok ct →
      c.decrypt alg key (zeroIV c alg) ct = .ok p)
    (hcodec : ∀ s b, codec.marshal s = .ok b → codec.unmarshal b = .ok s)
    (sensitive : S) (name m digest framed ct key : Bytes) (symmetricAlg : Option SymDefObject)
    (sym : SymDefObject) (hsym : hasInnerWrapper symmetricAlg = some sym)
    (hm : marshalSensitiveSized codec sensitive = .ok m)
    (hd : c.hash (c.nameAlgorithm name) (m ++ name) = some digest)
    (hf : mustMarshalSizedThenRaw digest m = some framed)
    (he : c.encrypt sym.Algorithm key (zeroIV c sym.Algorithm) framed = .ok ct) :
    removeInnerAndUnmarshal c codec ct name symmetricAlg key = .ret (some sensitive, none) := by
  unfold removeInnerAndUnmarshal
  simp only [hsym, hinv _ _ _ _ he, unmarshalSized_mustMarshal digest m framed hf, hd,
    ne_eq, not_true_eq_false, if_false, unmarshalDuplicate,
    unmarshalSensitiveSized_marshal codec hcodec sensitive m hm]

/-- The XOR cipher undoes itself. -/
theorem demoCipher_inverts (alg : SymObjectAlgorithmId) (key iv p ct : Bytes)
    (h : demoCipher alg key iv p = .ok ct) : demoCipher alg key iv ct = .ok p := by
  unfold demoCipher at h ⊢
  split at h
  · cases h
  · split at h
    · cases h
    · rename_i h1 h2
      cases h
      rw [if_neg h1, if_neg h2]
      congr 1
      rw [List.map_map]
      conv_rhs => rw [← List.map_id p]
      apply List.map_congr_left
      intro x _
      rcases x with ⟨x⟩
      generalize xorBytes key ^^^ 0x5a = k
      rcases k with ⟨k⟩
      show UInt8.mk (x ^^^ k ^^^ k) = UInt8.mk x
      rw [BitVec.xor_assoc, BitVec.xor_self, BitVec.xor_zero]

/-! ## C1, C2: round trips -/

set_option maxRecDepth 20000

/-- C1: if `SensitiveToDuplicate` returns `(keyOut, blob)` without error for a `Sensitive`,
then `DuplicateToSensitive` on `blob`, with the same name, the parent's name algorithm and
symmetric definition, the same seed and inner algorithm, and the inner key that was
supplied (or `keyOut` when none was supplied), returns that `Sensitive` and no error. The
statement covers the four configurations (no wrapper, inner only, outer only, both); it
assumes that decryption inverts encryption under the same key and the zero IV and that
unmarshalling inverts marshalling. -/
theorem SensitiveToDuplicate_roundtrip {S : Type} (c : Crypto) (codec : SensitiveCodec S)
    (rand : Entropy)
    (hinv : ∀ alg key p ct, c.encrypt alg key (zeroIV c alg) p = .ok ct →
      c.decrypt alg key (zeroIV c alg) ct = .ok p)
    (hcodec : ∀ s b, codec.marshal s = .ok b → codec.unmarshal b = .ok s)
    (sensitive : S) (name : Bytes) (parent : Public) (seed : Bytes)
    (symmetricAlg : Option SymDefObject) (innerSymKey : Bytes) (keyOut blob : Option Bytes)
    (h : SensitiveToDuplicate c codec rand sensitive name parent seed symmetricAlg innerSymKey
      = .ret (keyOut, blob, none)) :
    ∃ b, blob = some b ∧
      DuplicateToSensitive c codec b name parent.NameAlg parent.AsymDetailSymmetric seed
        symmetricAlg (if innerSymKey.length = 0 then keyOut.getD [] else innerSymKey)
        = .ret (some sensitive, none) := by
  unfold SensitiveToDuplicate at h
  split at h
  · cases h
  · rename_i m hm
    split at h
    · rename_i hsym
      obtain ⟨_, b, hb, hd⟩ := DuplicateToSensitive_applyOuterWrapper c codec hinv parent name
        seed none keyOut blob m symmetricAlg
        (if innerSymKey.length = 0 then keyOut.getD [] else innerSymKey) h
      refine ⟨b, hb, ?_⟩
      rw [hd]
      simp only [removeInnerAndUnmarshal, hsym, unmarshalDuplicate,
        unmarshalSensitiveSized_marshal codec hcodec sensitive m hm]
    · rename_i sym hsym
      split at h
      · cases h
      · rename_i digest hdig
        split at h
        · cases h
        · rename_i framed hf
          split at h
          · rename_i hkey
            split at h
            · cases h
            · rename_i key hrand
              split at h
              · cases h
              · rename_i ct he
                obtain ⟨hko, b, hb, hd⟩ := DuplicateToSensitive_applyOuterWrapper c codec hinv
                  parent name seed (some key) keyOut blob ct symmetricAlg
                  (if innerSymKey.length = 0 then keyOut.getD [] else innerSymKey) h
                refine ⟨b, hb, ?_⟩
                rw [hd, if_pos hkey, hko]
                exact removeInner_roundtrip c codec hinv hcodec sensitive name m digest framed
                  ct key symmetricAlg sym hsym hm hdig hf he
          · rename_i hkey
            split at h
            · cases h
            · rename_i ct he
              obtain ⟨_, b, hb, hd⟩ := DuplicateToSensitive_applyOuterWrapper c codec hinv
                parent name seed none keyOut blob ct symmetricAlg
                (if innerSymKey.length = 0 then keyOut.getD [] else innerSymKey) h
              refine ⟨b, hb, ?_⟩
              rw [hd, if_neg hkey]
              exact removeInner_roundtrip c codec hinv hcodec sensitive name m digest framed
                ct innerSymKey symmetricAlg sym hsym hm hdig hf he

/-- C1, on concrete inputs: the round trip in the four configurations (no wrapper, inner
only with a supplied key, outer only, inner with a generated key then outer). -/
theorem SensitiveToDuplicate_roundtrip_witness :
    (∃ b, SensitiveToDuplicate demoCrypto demoCodec demoEntropy demoPayload demoName demoParent
        [] none demoKey = .ret (none, some b, none) ∧
      DuplicateToSensitive demoCrypto demoCodec b demoName AlgorithmSHA256
        (some ⟨AlgorithmAES, 128⟩) [] none demoKey = .ret (some demoPayload, none)) ∧
    (∃ b, SensitiveToDuplicate demoCrypto demoCodec demoEntropy demoPayload demoName demoParent
        [] (some ⟨AlgorithmAES, 128⟩) demoKey = .ret (none, some b, none) ∧
      DuplicateToSensitive demoCrypto demoCodec b demoName AlgorithmSHA256
        (some ⟨AlgorithmAES, 128⟩) [] (some ⟨AlgorithmAES, 128⟩) demoKey
        = .ret (some demoPayload, none)) ∧
    (∃ b, SensitiveToDuplicate demoCrypto demoCodec demoEntropy demoPayload demoName demoParent
        demoSeed none [] = .ret (none, some b, none) ∧
      DuplicateToSensitive demoCrypto demoCodec b demoName AlgorithmSHA256
        (some ⟨AlgorithmAES, 128⟩) demoSeed none [] = .ret (some demoPayload, none)) ∧
    (∃ b k, SensitiveToDuplicate demoCrypto demoCodec demoEntropy demoPayload demoName
        demoParent demoSeed (some ⟨AlgorithmAES, 128⟩) [] = .ret (some k, some b, none) ∧
      DuplicateToSensitive demoCrypto demoCodec b demoName AlgorithmSHA256
        (some ⟨AlgorithmAES, 128⟩) demoSeed (some ⟨AlgorithmAES, 128⟩) k
        = .ret (some demoPayload, none)) := by
  have hinv : ∀ alg key p ct,
      demoCrypto.encrypt alg key (zeroIV demoCrypto alg) p = .ok ct →
      demoCrypto.decrypt alg key (zeroIV demoCrypto alg) ct = .ok p :=
    fun alg key p ct h => demoCipher_inverts alg key (zeroIV demoCrypto alg) p ct h
  have hcodec : ∀ s b, demoCodec.marshal s = .ok b → demoCodec.unmarshal b = .ok s := by
    intro s b h
    cases h
    rfl
  refine ⟨?_, ?_, ?_, ?_⟩
  · have h : SensitiveToDuplicate demoCrypto demoCodec demoEntropy demoPayload demoName
        demoParent [] none demoKey
        = .ret (none, some [0, 16, 65, 66, 67, 68, 69, 70, 71, 72, 73, 74, 75, 76, 77, 78,
          79, 80], none) := by rfl
    obtain ⟨b, hb, hd⟩ := SensitiveToDuplicate_roundtrip demoCrypto demoCodec demoEntropy hinv
      hcodec demoPayload demoName demoParent [] none demoKey _ _ h
    cases hb
    exact ⟨_, h, hd⟩
  · have h : SensitiveToDuplicate demoCrypto demoCodec demoEntropy demoPayload demoName
        demoParent [] (some ⟨AlgorithmAES, 128⟩) demoKey
        = .ret (none, some demoInnerBlob, none) := by rfl
    obtain ⟨b, hb, hd⟩ := SensitiveToDuplicate_roundtrip demoCrypto demoCodec demoEntropy hinv
      hcodec demoPayload demoName demoParent [] (some ⟨AlgorithmAES, 128⟩) demoKey _ _ h
    cases hb
    exact ⟨_, h, hd⟩
  · have h : SensitiveToDuplicate demoCrypto demoCodec demoEntropy demoPayload demoName
        demoParent demoSeed none []
        = .ret (none, some demoOuterBlob, none) := by rfl
    obtain ⟨b, hb, hd⟩ := SensitiveToDuplicate_roundtrip demoCrypto demoCodec demoEntropy hinv
      hcodec demoPayload demoName demoParent demoSeed none [] _ _ h
    cases hb
    exact ⟨_, h, hd⟩
  · have h : SensitiveToDuplicate demoCrypto demoCodec demoEntropy demoPayload demoName
        demoParent demoSeed (some ⟨AlgorithmAES, 128⟩) []
        = .ret (some [1, 4, 7, 10, 13, 16, 19, 22, 25, 28, 31, 34, 37, 40, 43, 46],
          some [0, 2, 114, 238, 32, 34, 179, 43, 32, 48, 97, 98, 99, 100, 101, 102, 103, 104,
            105, 106, 107, 108, 109, 110, 111, 112], none) := by rfl
    obtain ⟨b, hb, hd⟩ := SensitiveToDuplicate_roundtrip demoCrypto demoCodec demoEntropy hinv
      hcodec demoPayload demoName demoParent demoSeed (some ⟨AlgorithmAES, 128⟩) [] _ _ h
    cases hb
    exact ⟨_, _, h, hd⟩

/-- C2: whenever `ProduceOuterWrap` succeeds on a payload, `UnwrapOuter` with the
protector's name algorithm and symmetric definition, the same name and the same seed
returns exactly that payload and no error, assuming that decryption inverts encryption
under the same key and IV. -/
theorem ProduceOuterWrap_roundtrip (c : Crypto)
    (hinv : ∀ alg key p ct, c.encrypt alg key (zeroIV c alg) p = .ok ct →
      c.decrypt alg key (zeroIV c alg) ct = .ok p)
    (protector : Public) (name seed payload : Bytes) (res : Option Bytes)
    (h : ProduceOuterWrap c protector name seed payload = .ret (res, none)) :
    ∃ out, res = some out ∧
      UnwrapOuter c protector.NameAlg protector.AsymDetailSymmetric name seed out
        = .ret (some payload, none) :=
  UnwrapOuter_ProduceOuterWrap c hinv protector name seed payload res h

/-- C2, on concrete inputs: a 32-byte all-zero seed, the SHA-256 name algorithm, a name
made of 0x000B and 32 bytes, and a 16-byte payload. -/
theorem ProduceOuterWrap_roundtrip_witness :
    ∃ out, ProduceOuterWrap demoCrypto demoParent demoName demoSeed demoPayload
        = .ret (some out, none) ∧
      demoSeed.length = 32 ∧ demoName.length = 34 ∧ demoPayload.length = 16 ∧
      UnwrapOuter demoCrypto AlgorithmSHA256 (some ⟨AlgorithmAES, 128⟩) demoName demoSeed out
        = .ret (some demoPayload, none) := by
  have h : ProduceOuterWrap demoCrypto demoParent demoName demoSeed demoPayload
      = .ret (some [0, 2, 226, 100, 27, 24, 25, 30, 31, 28, 29, 18, 19, 16, 17, 22, 23, 20,
        21, 10], none) := by rfl
  obtain ⟨out, ho, hu⟩ := ProduceOuterWrap_roundtrip demoCrypto
    (fun alg key p ct h => demoCipher_inverts alg key (zeroIV demoCrypto alg) p ct h)
    demoParent demoName demoSeed demoPayload _ h
  cases ho
  exact ⟨_, h, by decide, by decide, by decide, hu⟩

/-! ## Integrity checks -/

/-- When `UnwrapOuter` returns data, the blob split into an integrity field and a
remainder, the integrity field is the HMAC of the remainder and the name under the key
derived with the label `IntegrityKey`, and the data is the decrypted remainder. -/
theorem UnwrapOuter_data (c : Crypto) (hashAlg : HashAlgorithmId)
    (symmetricAlg : Option SymDefObject) (name seed blob d : Bytes) (e : Option Err)
    (h : UnwrapOuter c hashAlg symmetricAlg name seed blob = .ret (some d, e)) :
    ∃ integrity rest hmacKey sym symKey,
      unmarshalSized blob = .ok (integrity, rest) ∧
      c.kdfa hashAlg seed IntegrityKey [] [] (c.digestSize hashAlg * 8) = some hmacKey ∧
      c.hmac hashAlg hmacKey (rest ++ name) = some integrity ∧
      symmetricAlg = some sym ∧
      c.kdfa hashAlg seed StorageKey name [] sym.KeyBitsSym = some symKey ∧
      c.decrypt sym.Algorithm symKey (zeroIV c sym.Algorithm) rest = .ok d ∧ e = none := by
  unfold UnwrapOuter at h
  split at h
  · cases h
  · rename_i integrity rest hu
    split at h
    · cases h
    · rename_i hmacKey hk
      split at h
      · cases h
      · rename_i mac hmac
        split at h
        · cases h
        · rename_i heq
          split at h
          · cases h
          · rename_i sym
            split at h
            · cases h
            · rename_i symKey hsk
              split at h
              · cases h
              · rename_i d1 hd
                cases h
                have hmi : mac = integrity := by
                  by_contra hne
                  exact heq hne
                subst hmi
                exact ⟨mac, rest, hmacKey, sym, symKey, hu, hk, hmac, rfl, hsk, hd, rfl⟩

/-- When the recomputed HMAC differs from the integrity field, `UnwrapOuter` returns nil
and the integrity error, whatever the symmetric algorithm and the cipher. -/
theorem UnwrapOuter_mismatch (c : Crypto) (hashAlg : HashAlgorithmId)
    (symmetricAlg : Option SymDefObject) (name seed blob integrity rest hmacKey mac : Bytes)
    (hu : unmarshalSized blob = .ok (integrity, rest))
    (hk : c.kdfa hashAlg seed IntegrityKey [] [] (c.digestSize hashAlg * 8) = some hmacKey)
    (hm : c.hmac hashAlg hmacKey (rest ++ name) = some mac) (hne : mac ≠ integrity) :
    UnwrapOuter c hashAlg symmetricAlg name seed blob
      = .ret (none, some (.msg "integrity digest is invalid")) := by
  unfold UnwrapOuter
  simp only [hu, hk, hm, ne_eq, hne, not_false_eq_true, if_true]

theorem unmarshalDuplicate_error_nil {S : Type} (codec : SensitiveCodec S) (duplicate : Bytes)
    (s : Option S) (e : Err) (h : unmarshalDuplicate codec duplicate = .ret (s, some e)) :
    s = none := by
  unfold unmarshalDuplicate at h
  split at h <;> cases h
  rfl

theorem removeInnerAndUnmarshal_error_nil {S : Type} (c : Crypto) (codec : SensitiveCodec S)
    (duplicate name : Bytes) (symmetricAlg : Option SymDefObject) (innerSymKey : Bytes)
    (s : Option S) (e : Err)
    (h : removeInnerAndUnmarshal c codec duplicate name symmetricAlg innerSymKey
      = .ret (s, some e)) : s = none := by
  unfold removeInnerAndUnmarshal at h
  split at h
  · exact unmarshalDuplicate_error_nil codec _ s e h
  · split at h
    · cases h; rfl
    · split at h
      · cases h; rfl
      · split at h
        · cases h
        · split at h
          · cases h; rfl
          · exact unmarshalDuplicate_error_nil codec _ s e h

theorem DuplicateToSensitive_error_nil {S : Type} (c : Crypto) (codec : SensitiveCodec S)
    (duplicate name : Bytes) (parentNameAlg : HashAlgorithmId)
    (parentSymmetricAlg : Option SymDefObject) (seed : Bytes)
    (symmetricAlg : Option SymDefObject) (innerSymKey : Bytes) (s : Option S) (e : Err)
    (h : DuplicateToSensitive c codec duplicate name parentNameAlg parentSymmetricAlg seed
      symmetricAlg innerSymKey = .ret (s, some e)) : s = none := by
  unfold DuplicateToSensitive at h
  split at h
  · split at h
    · cases h
    · cases h; rfl
    · exact removeInnerAndUnmarshal_error_nil c codec _ name symmetricAlg innerSymKey s e h
    · exact removeInnerAndUnmarshal_error_nil c codec _ name symmetricAlg innerSymKey s e h
  · exact removeInnerAndUnmarshal_error_nil c codec _ name symmetricAlg innerSymKey s e h

/-- With an inner wrapper, a mismatch of the inner integrity digest ends
`removeInnerAndUnmarshal` with nil and the inner integrity error. -/
theorem removeInner_mismatch {S : Type} (c : Crypto) (codec : SensitiveCodec S)
    (duplicate name : Bytes) (symmetricAlg : Option SymDefObject) (sym : SymDefObject)
    (innerSymKey pt innerIntegrity rest digest : Bytes)
    (hsym : hasInnerWrapper symmetricAlg = some sym)
    (hd : c.decrypt sym.Algorithm innerSymKey (zeroIV c sym.Algorithm) duplicate = .ok pt)
    (hu : unmarshalSized pt = .ok (innerIntegrity, rest))
    (hh : c.hash (c.nameAlgorithm name) (rest ++ name) = some digest)
    (hne : digest ≠ innerIntegrity) :
    removeInnerAndUnmarshal c codec duplicate name symmetricAlg innerSymKey
      = (.ret (none, some (.msg "inner integrity digest is invalid")) :
        Outcome (Option S × Option Err)) := by
  unfold removeInnerAndUnmarshal
  simp only [hsym, hd, hu, hh, ne_eq, hne, not_false_eq_true, if_true]

/-- With an inner wrapper, a malformed length prefix of the decrypted bytes ends
`removeInnerAndUnmarshal` with nil and the error of the unpacking. -/
theorem removeInner_malformed {S : Type} (c : Crypto) (codec : SensitiveCodec S)
    (duplicate name : Bytes) (symmetricAlg : Option SymDefObject) (sym : SymDefObject)
    (innerSymKey pt : Bytes) (e : Err)
    (hsym : hasInnerWrapper symmetricAlg = some sym)
    (hd : c.decrypt sym.Algorithm innerSymKey (zeroIV c sym.Algorithm) duplicate = .ok pt)
    (hu : unmarshalSized pt = .error e) :
    removeInnerAndUnmarshal c codec duplicate name symmetricAlg innerSymKey
      = (.ret (none, some (.wrap "cannot unpack inner integrity digest" e)) :
        Outcome (Option S × Option Err)) := by
  unfold removeInnerAndUnmarshal
  simp only [hsym, hd, hu]

/-- With an inner wrapper, a `Sensitive` comes out of `removeInnerAndUnmarshal` only when
the decrypted bytes carry a digest equal to the hash of the rest and the name. -/
theorem removeInner_data {S : Type} (c : Crypto) (codec : SensitiveCodec S)
    (duplicate name : Bytes) (symmetricAlg : Option SymDefObject) (sym : SymDefObject)
    (innerSymKey : Bytes) (s : S) (e : Option Err)
    (hsym : hasInnerWrapper symmetricAlg = some sym)
    (h : removeInnerAndUnmarshal c codec duplicate name symmetricAlg innerSymKey
      = .ret (some s, e)) :
    ∃ pt innerIntegrity rest,
      c.decrypt sym.Algorithm innerSymKey (zeroIV c sym.Algorithm) duplicate = .ok pt ∧
      unmarshalSized pt = .ok (innerIntegrity, rest) ∧
      c.hash (c.nameAlgorithm name) (rest ++ name) = some innerIntegrity ∧
      unmarshalSensitiveSized codec rest = .ok s ∧ e = none := by
  unfold removeInnerAndUnmarshal at h
  rw [hsym] at h
  simp only at h
  split at h
  · cases h
  · rename_i pt hd
    split at h
    · cases h
    · rename_i innerIntegrity rest hu
      split at h
      · cases h
      · rename_i digest hh
        split at h
        · cases h
        · rename_i heq
          have hdi : digest = innerIntegrity := by
            by_contra hne
            exact heq hne
          subst hdi
          unfold unmarshalDuplicate at h
          split at h
          · cases h
          · rename_i s1 hs
            cases h
            exact ⟨pt, digest, rest, hd, hu, hh, hs, rfl⟩

/-- A successful `SensitiveToDuplicate` ended in `applyOuterWrapper`. -/
theorem SensitiveToDuplicate_ends_in_outer {S : Type} (c : Crypto) (codec : SensitiveCodec S)
    (rand : Entropy) (sensitive : S) (name : Bytes) (parent : Public) (seed : Bytes)
    (symmetricAlg : Option SymDefObject) (innerSymKey : Bytes) (keyOut blob : Option Bytes)
    (h : SensitiveToDuplicate c codec rand sensitive name parent seed symmetricAlg innerSymKey
      = .ret (keyOut, blob, none)) :
    ∃ keyOut0 inner,
      applyOuterWrapper c parent name seed keyOut0 inner = .ret (keyOut, blob, none) := by
  unfold SensitiveToDuplicate at h
  split at h
  · cases h
  · split at h
    · exact ⟨_, _, h⟩
    · split at h
      · cases h
      · split at h
        · cases h
        · split at h
          · split at h
            · cases h
            · split at h
              · cases h
              · exact ⟨_, _, h⟩
          · split at h
            · cases h
            · exact ⟨_, _, h⟩

/-- With a seed, a successful `SensitiveToDuplicate` returns a blob made of a
length-prefixed integrity field, the HMAC of the rest and the name, and the rest. -/
theorem SensitiveToDuplicate_outer_shape {S : Type} (c : Crypto) (codec : SensitiveCodec S)
    (rand : Entropy) (sensitive : S) (name : Bytes) (parent : Public) (seed : Bytes)
    (symmetricAlg : Option SymDefObject) (innerSymKey : Bytes) (keyOut blob : Option Bytes)
    (hseed : seed.length > 0)
    (h : SensitiveToDuplicate c codec rand sensitive name parent seed symmetricAlg innerSymKey
      = .ret (keyOut, blob, none)) :
    ∃ b integrity ct hmacKey, blob = some b ∧
      mustMarshalSizedThenRaw integrity ct = some b ∧
      unmarshalSized b = .ok (integrity, ct) ∧
      c.kdfa parent.NameAlg seed IntegrityKey [] [] (c.digestSize parent.NameAlg * 8)
        = some hmacKey ∧
      c.hmac parent.NameAlg hmacKey (ct ++ name) = some integrity := by
  obtain ⟨keyOut0, inner, ho⟩ := SensitiveToDuplicate_ends_in_outer c codec rand sensitive name
    parent seed symmetricAlg innerSymKey keyOut blob h
  unfold applyOuterWrapper at ho
  rw [if_pos hseed] at ho
  split at ho
  · cases ho
  · cases ho
  · rename_i res hp
    cases ho
    obtain ⟨_, _, ct, hmacKey, integrity, out, _, _, _, hhk, hint, hout, hres⟩ :=
      ProduceOuterWrap_ok c parent name seed inner _ hp
    exact ⟨out, integrity, ct, hmacKey, hres, hout,
      unmarshalSized_mustMarshal integrity ct out hout, hhk, hint⟩

/-- With a seed, `DuplicateToSensitive` passes the outer integrity error on. -/
theorem DuplicateToSensitive_outer_mismatch {S : Type} (c : Crypto) (codec : SensitiveCodec S)
    (blob name : Bytes) (parentNameAlg : HashAlgorithmId)
    (parentSymmetricAlg : Option SymDefObject) (seed : Bytes)
    (symmetricAlg : Option SymDefObject) (innerSymKey integrity rest hmacKey mac : Bytes)
    (hseed : seed.length > 0)
    (hu : unmarshalSized blob = .ok (integrity, rest))
    (hk : c.kdfa parentNameAlg seed IntegrityKey [] [] (c.digestSize parentNameAlg * 8)
      = some hmacKey)
    (hm : c.hmac parentNameAlg hmacKey (rest ++ name) = some mac) (hne : mac ≠ integrity) :
    DuplicateToSensitive c codec blob name parentNameAlg parentSymmetricAlg seed symmetricAlg
      innerSymKey
      = (.ret (none, some (.wrap "cannot unwrap outer wrapper"
        (.msg "integrity digest is invalid"))) : Outcome (Option S × Option Err)) := by
  unfold DuplicateToSensitive
  rw [if_pos hseed, UnwrapOuter_mismatch c parentNameAlg parentSymmetricAlg name seed blob
    integrity rest hmacKey mac hu hk hm hne]

theorem DuplicateToSensitive_no_seed {S : Type} (c : Crypto) (codec : SensitiveCodec S)
    (blob name : Bytes) (parentNameAlg : HashAlgorithmId)
    (parentSymmetricAlg : Option SymDefObject) (seed : Bytes)
    (symmetricAlg : Option SymDefObject) (innerSymKey : Bytes) (hseed : seed.length = 0) :
    DuplicateToSensitive c codec blob name parentNameAlg parentSymmetricAlg seed symmetricAlg
      innerSymKey = removeInnerAndUnmarshal c codec blob name symmetricAlg innerSymKey := by
  unfold DuplicateToSensitive
  rw [if_neg (by omega)]

theorem DuplicateToSensitive_after_outer {S : Type} (c : Crypto) (codec : SensitiveCodec S)
    (blob name : Bytes) (parentNameAlg : HashAlgorithmId)
    (parentSymmetricAlg : Option SymDefObject) (seed : Bytes)
    (symmetricAlg : Option SymDefObject) (innerSymKey dup : Bytes) (hseed : seed.length > 0)
    (hu : UnwrapOuter c parentNameAlg parentSymmetricAlg name seed blob
      = .ret (some dup, none)) :
    DuplicateToSensitive c codec blob name parentNameAlg parentSymmetricAlg seed symmetricAlg
      innerSymKey = removeInnerAndUnmarshal c codec dup name symmetricAlg innerSymKey := by
  unfold DuplicateToSensitive
  rw [if_pos hseed, hu]

/-! ## C3, C4: tampering and the integrity checks -/

/-- C3, as stated, fails: the claim says that one flipped bit of the ciphertext always
ends the unwrap in an integrity failure. With the inner wrapper alone the blob is the
encryption of `length || digest || payload`. Under a stream-like cipher a flipped bit of
the first ciphertext byte flips that bit of the length prefix; the length is then larger
than what follows, and `DuplicateToSensitive` returns
`cannot unpack inner integrity digest`, a malformed-field error and not one of the two
integrity failures. Here the top bit of byte 0 is flipped. -/
theorem tamper_not_always_integrity_failure :
    SensitiveToDuplicate demoCrypto demoCodec demoEntropy demoPayload demoName demoParent []
        (some ⟨AlgorithmAES, 128⟩) demoKey
      = .ret (none, some demoInnerBlob, none) ∧
    DuplicateToSensitive demoCrypto demoCodec
        (flipBit demoInnerBlob 0 7) demoName AlgorithmSHA256 (some ⟨AlgorithmAES, 128⟩) []
        (some ⟨AlgorithmAES, 128⟩) demoKey
      = .ret (none, some (.wrap "cannot unpack inner integrity digest"
          (.msg "unexpected EOF"))) ∧
    ¬ IsIntegrityFailure (DuplicateToSensitive demoCrypto demoCodec
        (flipBit demoInnerBlob 0 7) demoName AlgorithmSHA256 (some ⟨AlgorithmAES, 128⟩) []
        (some ⟨AlgorithmAES, 128⟩) demoKey) := by
  have h2 : DuplicateToSensitive demoCrypto demoCodec
        (flipBit demoInnerBlob 0 7) demoName AlgorithmSHA256 (some ⟨AlgorithmAES, 128⟩) []
        (some ⟨AlgorithmAES, 128⟩) demoKey
      = .ret (none, some (.wrap "cannot unpack inner integrity digest"
          (.msg "unexpected EOF"))) := by rfl
  refine ⟨by rfl, h2, ?_⟩
  rw [h2]
  intro h
  rcases h with h | h <;> exact absurd h (by decide)

/-- C3, amended: tamper detection relative to the checks the code makes.

* Outer wrapper (a seed was supplied): the blob returned by `SensitiveToDuplicate` splits
  into an integrity field and a ciphertext, the field being the HMAC of the ciphertext and
  the name. For every blob with the same integrity field and any other ciphertext, and
  every name, whose HMAC differs from that field (the HMAC does not collide on the changed
  input), `DuplicateToSensitive` returns nil and the outer integrity failure; so it does
  for the blob with any one bit of the ciphertext flipped, under any name.
* Inner wrapper alone (no seed), for any blob and name: a `Sensitive` is returned only when
  the decrypted bytes carry a digest equal to the hash of the rest and the name; a digest
  that differs gives nil and the inner integrity failure; a malformed length prefix gives
  nil and `cannot unpack inner integrity digest`. -/
theorem tamper_detection {S : Type} (c : Crypto) (codec : SensitiveCodec S) (rand : Entropy)
    (sensitive : S) (name : Bytes) (parent : Public) (seed : Bytes)
    (symmetricAlg : Option SymDefObject) (innerSymKey : Bytes) (keyOut blob : Option Bytes)
    (h : SensitiveToDuplicate c codec rand sensitive name parent seed symmetricAlg innerSymKey
      = .ret (keyOut, blob, none)) :
    (seed.length > 0 →
      ∃ b integrity ct hmacKey, blob = some b ∧
        unmarshalSized b = .ok (integrity, ct) ∧
        c.kdfa parent.NameAlg seed IntegrityKey [] [] (c.digestSize parent.NameAlg * 8)
          = some hmacKey ∧
        c.hmac parent.NameAlg hmacKey (ct ++ name) = some integrity ∧
        (∀ (b' ct' name' mac' k' : Bytes) (symmetricAlg' : Option SymDefObject),
          unmarshalSized b' = .ok (integrity, ct') →
          c.hmac parent.NameAlg hmacKey (ct' ++ name') = some mac' → mac' ≠ integrity →
          DuplicateToSensitive c codec b' name' parent.NameAlg parent.AsymDetailSymmetric seed
            symmetricAlg' k'
            = .ret (none, some (.wrap "cannot unwrap outer wrapper"
              (.msg "integrity digest is invalid")))) ∧
        (∀ (i j : Nat) (name' mac' k' : Bytes) (symmetricAlg' : Option SymDefObject),
          c.hmac parent.NameAlg hmacKey (flipBit ct i j ++ name') = some mac' →
          mac' ≠ integrity →
          DuplicateToSensitive c codec (flipBit b (2 + integrity.length + i) j) name'
            parent.NameAlg parent.AsymDetailSymmetric seed symmetricAlg' k'
            = .ret (none, some (.wrap "cannot unwrap outer wrapper"
              (.msg "integrity digest is invalid"))))) ∧
    (seed.length = 0 → ∀ sym, hasInnerWrapper symmetricAlg = some sym →
      ∀ (b' name' k' : Bytes),
        (∀ s' e, DuplicateToSensitive c codec b' name' parent.NameAlg
            parent.AsymDetailSymmetric seed symmetricAlg k' = .ret (some s', e) →
          ∃ pt innerIntegrity rest,
            c.decrypt sym.Algorithm k' (zeroIV c sym.Algorithm) b' = .ok pt ∧
            unmarshalSized pt = .ok (innerIntegrity, rest) ∧
            c.hash (c.nameAlgorithm name') (rest ++ name') = some innerIntegrity ∧
            unmarshalSensitiveSized codec rest = .ok s' ∧ e = none) ∧
        (∀ pt innerIntegrity rest digest,
          c.decrypt sym.Algorithm k' (zeroIV c sym.Algorithm) b' = .ok pt →
          unmarshalSized pt = .ok (innerIntegrity, rest) →
          c.hash (c.nameAlgorithm name') (rest ++ name') = some digest →
          digest ≠ innerIntegrity →
          DuplicateToSensitive c codec b' name' parent.NameAlg parent.AsymDetailSymmetric seed
            symmetricAlg k' = .ret (none, some (.msg "inner integrity digest is invalid"))) ∧
        (∀ pt e,
          c.decrypt sym.Algorithm k' (zeroIV c sym.Algorithm) b' = .ok pt →
          unmarshalSized pt = .error e →
          DuplicateToSensitive c codec b' name' parent.NameAlg parent.AsymDetailSymmetric seed
            symmetricAlg k'
            = .ret (none, some (.wrap "cannot unpack inner integrity digest" e)))) := by
  refine ⟨fun hseed => ?_, fun hseed sym hsym b' name' k' => ⟨?_, ?_, ?_⟩⟩
  · obtain ⟨b, integrity, ct, hmacKey, hb, hmm, hu, hk, hm⟩ :=
      SensitiveToDuplicate_outer_shape c codec rand sensitive name parent seed symmetricAlg
        innerSymKey keyOut blob hseed h
    refine ⟨b, integrity, ct, hmacKey, hb, hu, hk, hm, ?_, ?_⟩
    · intro b' ct' name' mac' k' symmetricAlg' hu' hm' hne
      exact DuplicateToSensitive_outer_mismatch c codec b' name' parent.NameAlg
        parent.AsymDetailSymmetric seed symmetricAlg' k' integrity ct' hmacKey mac' hseed hu' hk
        hm' hne
    · intro i j name' mac' k' symmetricAlg' hm' hne
      exact DuplicateToSensitive_outer_mismatch c codec _ name' parent.NameAlg
        parent.AsymDetailSymmetric seed symmetricAlg' k' integrity (flipBit ct i j) hmacKey mac'
        hseed (unmarshalSized_flipBit_raw integrity ct b i j hmm) hk hm' hne
  · intro s' e hd
    rw [DuplicateToSensitive_no_seed c codec b' name' _ _ seed symmetricAlg k' hseed] at hd
    exact removeInner_data c codec b' name' symmetricAlg sym k' s' e hsym hd
  · intro pt innerIntegrity rest digest hdec hu hh hne
    rw [DuplicateToSensitive_no_seed c codec b' name' _ _ seed symmetricAlg k' hseed]
    exact removeInner_mismatch c codec b' name' symmetricAlg sym k' pt innerIntegrity rest
      digest hsym hdec hu hh hne
  · intro pt e hdec hu
    rw [DuplicateToSensitive_no_seed c codec b' name' _ _ seed symmetricAlg k' hseed]
    exact removeInner_malformed c codec b' name' symmetricAlg sym k' pt e hsym hdec hu

/-- C3, amended, on concrete inputs: an outer-wrapped blob with one flipped ciphertext bit
(bit 0 of byte 4, the first byte after the integrity field) is rejected with the outer
integrity failure, and so is the untouched blob under a name with one flipped bit. -/
theorem tamper_detection_witness :
    SensitiveToDuplicate demoCrypto demoCodec demoEntropy demoPayload demoName demoParent
        demoSeed none []
      = .ret (none, some demoOuterBlob, none) ∧
    DuplicateToSensitive demoCrypto demoCodec
        (flipBit demoOuterBlob 4 0) demoName AlgorithmSHA256 (some ⟨AlgorithmAES, 128⟩)
        demoSeed none []
      = .ret (none, some (.wrap "cannot unwrap outer wrapper"
          (.msg "integrity digest is invalid"))) ∧
    DuplicateToSensitive demoCrypto demoCodec
        demoOuterBlob (flipBit demoName 5 2) AlgorithmSHA256
        (some ⟨AlgorithmAES, 128⟩) demoSeed none []
      = .ret (none, some (.wrap "cannot unwrap outer wrapper"
          (.msg "integrity digest is invalid"))) := by
  have h : SensitiveToDuplicate demoCrypto demoCodec demoEntropy demoPayload demoName
      demoParent demoSeed none []
      = .ret (none, some demoOuterBlob, none) := by rfl
  obtain ⟨b, integrity, ct, hmacKey, hb, hu, hk, hm, hall, hflip⟩ :=
    (tamper_detection demoCrypto demoCodec demoEntropy demoPayload demoName demoParent
      demoSeed none [] _ _ h).1 (by decide)
  cases hb
  have hu0 : unmarshalSized demoOuterBlob
      = .ok ([134, 116], [90, 74, 27, 24, 25, 30, 31, 28, 29, 18, 19, 16, 17, 22, 23, 20,
        21, 10]) := by rfl
  rw [hu0] at hu
  cases hu
  have hk0 : demoCrypto.kdfa demoParent.NameAlg demoSeed IntegrityKey [] []
      (demoCrypto.digestSize demoParent.NameAlg * 8) = some [191, 192] := by rfl
  rw [hk0] at hk
  cases hk
  refine ⟨h, ?_, ?_⟩
  · exact hflip 0 0 demoName [135, 117] [] none (by rfl) (by decide)
  · exact hall _ [90, 74, 27, 24, 25, 30, 31, 28, 29, 18, 19, 16, 17, 22, 23, 20, 21, 10]
      (flipBit demoName 5 2) [138, 112] [] none (by rfl) (by rfl) (by decide)

/-- C4: `UnwrapOuter` returns data only if the size-prefixed leading field of the blob
equals the HMAC, keyed by KDFa(hashAlg, seed, "INTEGRITY", empty, empty, 8 * digestSize),
of the remainder followed by the name. On a mismatch it returns nil with the error
`integrity digest is invalid`, and the decryption is not reached: the result is the same
for every decryption function and every symmetric definition, a nil one included.
`DuplicateToSensitive` returns a nil `Sensitive` whenever it returns an error, and a
mismatch of the inner integrity digest gives nil with `inner integrity digest is
invalid`. -/
theorem integrity_checks_gate_output {S : Type} (c : Crypto) (codec : SensitiveCodec S)
    (hashAlg : HashAlgorithmId) (symmetricAlg : Option SymDefObject)
    (name seed blob : Bytes) :
    (∀ d e, UnwrapOuter c hashAlg symmetricAlg name seed blob = .ret (some d, e) →
      ∃ integrity rest hmacKey,
        unmarshalSized blob = .ok (integrity, rest) ∧
        c.kdfa hashAlg seed IntegrityKey [] [] (c.digestSize hashAlg * 8) = some hmacKey ∧
        c.hmac hashAlg hmacKey (rest ++ name) = some integrity ∧ e = none) ∧
    (∀ integrity rest hmacKey mac,
      unmarshalSized blob = .ok (integrity, rest) →
      c.kdfa hashAlg seed IntegrityKey [] [] (c.digestSize hashAlg * 8) = some hmacKey →
      c.hmac hashAlg hmacKey (rest ++ name) = some mac → mac ≠ integrity →
      ∀ (dec : SymObjectAlgorithmId → Bytes → Bytes → Bytes → Except Err Bytes)
        (sym : Option SymDefObject),
        UnwrapOuter { c with decrypt := dec } hashAlg sym name seed blob
          = .ret (none, some (.msg "integrity digest is invalid"))) ∧
    (∀ (innerAlg : Option SymDefObject) (innerSymKey : Bytes) (s : Option S) (e : Err),
      DuplicateToSensitive c codec blob name hashAlg symmetricAlg seed innerAlg innerSymKey
        = .ret (s, some e) → s = none) ∧
    (∀ (innerAlg : Option SymDefObject) (sym : SymDefObject)
      (innerSymKey dup pt innerIntegrity rest digest : Bytes),
      (if seed.length > 0 then
        UnwrapOuter c hashAlg symmetricAlg name seed blob = .ret (some dup, none)
      else dup = blob) →
      hasInnerWrapper innerAlg = some sym →
      c.decrypt sym.Algorithm innerSymKey (zeroIV c sym.Algorithm) dup = .ok pt →
      unmarshalSized pt = .ok (innerIntegrity, rest) →
      c.hash (c.nameAlgorithm name) (rest ++ name) = some digest →
      digest ≠ innerIntegrity →
      DuplicateToSensitive c codec blob name hashAlg symmetricAlg seed innerAlg innerSymKey
        = (.ret (none, some (.msg "inner integrity digest is invalid")) :
          Outcome (Option S × Option Err))) := by
  refine ⟨?_, ?_, ?_, ?_⟩
  · intro d e h
    obtain ⟨integrity, rest, hmacKey, _, _, hu, hk, hm, _, _, _, he⟩ :=
      UnwrapOuter_data c hashAlg symmetricAlg name seed blob d e h
    exact ⟨integrity, rest, hmacKey, hu, hk, hm, he⟩
  · intro integrity rest hmacKey mac hu hk hm hne dec sym
    exact UnwrapOuter_mismatch { c with decrypt := dec } hashAlg sym name seed blob integrity
      rest hmacKey mac hu hk hm hne
  · intro innerAlg innerSymKey s e h
    exact DuplicateToSensitive_error_nil c codec blob name hashAlg symmetricAlg seed innerAlg
      innerSymKey s e h
  · intro innerAlg sym innerSymKey dup pt innerIntegrity rest digest hdup hsym hdec hu hh hne
    by_cases hseed : seed.length > 0
    · rw [if_pos hseed] at hdup
      rw [DuplicateToSensitive_after_outer c codec blob name hashAlg symmetricAlg seed innerAlg
        innerSymKey dup hseed hdup]
      exact removeInner_mismatch c codec dup name innerAlg sym innerSymKey pt innerIntegrity
        rest digest hsym hdec hu hh hne
    · rw [if_neg hseed] at hdup
      subst hdup
      rw [DuplicateToSensitive_no_seed c codec dup name hashAlg symmetricAlg seed innerAlg
        innerSymKey (by omega)]
      exact removeInner_mismatch c codec dup name innerAlg sym innerSymKey pt innerIntegrity
        rest digest hsym hdec hu hh hne

/-- C4, on concrete inputs: an outer-wrapped blob whose integrity field was changed is
refused with nil and the integrity error even by a cipher that would fail and with a nil
symmetric definition; an inner-wrapped blob whose digest byte was changed is refused
with nil and the inner integrity error. -/
theorem integrity_checks_gate_output_witness :
    UnwrapOuter { demoCrypto with decrypt := fun _ _ _ _ => .error (.msg "unreachable") }
        AlgorithmSHA256 none demoName demoSeed
        (flipBit demoOuterBlob 2 0)
      = .ret (none, some (.msg "integrity digest is invalid")) ∧
    DuplicateToSensitive demoCrypto demoCodec
        (flipBit demoInnerBlob 3 0) demoName AlgorithmSHA256 (some ⟨AlgorithmAES, 128⟩) []
        (some ⟨AlgorithmAES, 128⟩) demoKey
      = .ret (none, some (.msg "inner integrity digest is invalid")) := by
  constructor
  · exact (integrity_checks_gate_output demoCrypto demoCodec AlgorithmSHA256
      (some ⟨AlgorithmAES, 128⟩) demoName demoSeed
      (flipBit demoOuterBlob 2 0)).2.1 [135, 116]
      [90, 74, 27, 24, 25, 30, 31, 28, 29, 18, 19, 16, 17, 22, 23, 20, 21, 10] [191, 192]
      [134, 116] (by rfl) (by rfl) (by rfl) (by decide) _ none
  · exact (integrity_checks_gate_output demoCrypto demoCodec AlgorithmSHA256
      (some ⟨AlgorithmAES, 128⟩) demoName []
      (flipBit demoInnerBlob 3 0)).2.2.2 (some ⟨AlgorithmAES, 128⟩) ⟨AlgorithmAES, 128⟩
      demoKey
      (flipBit demoInnerBlob 3 0)
      [0, 2, 147, 10, 0, 16, 65, 66, 67, 68, 69, 70, 71, 72, 73, 74, 75, 76, 77, 78, 79, 80]
      [147, 10] [0, 16, 65, 66, 67, 68, 69, 70, 71, 72, 73, 74, 75, 76, 77, 78, 79, 80]
      [147, 11] (by rfl) (by rfl) (by rfl) (by rfl) (by rfl) (by decide)

/-! ## resources.go: the store -/

/-- The discriminator `WrapHandle` switches on is the byte above the low 24 bits. -/
theorem handleTypeByte_eq (handle : Handle) :
    handleTypeByte handle = handle / 16777216 % 256 := by
  unfold handleTypeByte
  have e1 : (0xff000000 : Nat) = (2 ^ 8 - 1) <<< 24 := by decide
  have e2 : handle / 16777216 % 256 = (handle >>> 24) % 2 ^ 8 := by
    rw [Nat.shiftRight_eq_div_pow]
    norm_num
  rw [e1, e2]
  apply Nat.eq_of_testBit_eq
  intro i
  simp only [Nat.testBit_shiftRight, Nat.testBit_and, Nat.testBit_shiftLeft,
    Nat.testBit_two_pow_sub_one, Nat.testBit_mod_two_pow]
  have : 24 + i - 24 = i := by omega
  rw [this]
  by_cases hi : i < 8 <;> simp [hi, Bool.and_comm]

theorem Context.Handle_SetTpm (t : Option ConnId) (ctx : Context) :
    (ctx.SetTpm t).Handle = ctx.Handle := by
  cases ctx <;> rfl

theorem Context.Tpm_SetTpm (t : Option ConnId) (ctx : Context) : (ctx.SetTpm t).Tpm = t := by
  cases ctx <;> rfl

theorem Context.Name_SetTpm (t : Option ConnId) (ctx : Context) :
    (ctx.SetTpm t).Name = ctx.Name := by
  cases ctx <;> rfl

theorem Context.SetTpm_Tpm (ctx : Context) : ctx.SetTpm ctx.Tpm = ctx := by
  cases ctx <;> rfl

/-- What `addResourceContext` does on a context that is not nil. -/
theorem addResourceContext_some (t : ConnId) (id : CtxId) (w : World) :
    addResourceContext t (some id) w =
      if (w.heap id).Tpm ≠ none then
        .panicked w "Attempting to add a resource to more than one TPM instance"
      else if (w.resources t (w.heap id).Handle).isSome then
        .panicked w "Resource object for handle already exists"
      else
        .done { w with
          heap := Function.update w.heap id ((w.heap id).SetTpm (some t))
          resources := Function.update w.resources t
            (Function.update (w.resources t) (w.heap id).Handle (some (some id))) } () := by
  unfold addResourceContext
  simp only [Function.update_same, Context.Handle_SetTpm]

/-- What `evictResourceContext` does on a context that is not nil. -/
theorem evictResourceContext_some (t : ConnId) (id : CtxId) (w : World) :
    evictResourceContext t (some id) w =
      if (w.heap id).Tpm = none then .done w ()
      else if (w.heap id).Tpm ≠ some t then
        .panicked w "Attempting to evict a resource for another TPM instance"
      else
        .done { w with
          heap := Function.update w.heap id ((w.heap id).SetTpm none)
          resources := Function.update w.resources t
            (Function.update (w.resources t) (w.heap id).Handle none) } () := by
  unfold evictResourceContext
  simp only [Function.update_same, Context.Handle_SetTpm]

/-! ## C5: addResourceContext -/

/-- C5, as stated, fails: `addResourceContext` also panics on a nil context, which is
neither owned by a connection nor registered under its handle. `WrapHandle` makes this
call for a handle without a case in its switch, here a PCR handle. -/
theorem addResourceContext_nil_panics :
    (addResourceContext 0 none emptyWorld).isPanic = true ∧
    ¬ AlreadyOwned emptyWorld none ∧ ¬ HandleRegistered emptyWorld 0 none ∧
    synthesizeContext demoDevice 0 0x00000005 emptyWorld = .done emptyWorld (none, none) := by
  refine ⟨rfl, ?_, ?_, ?_⟩
  · rintro ⟨id, h, _⟩
    cases h
  · rintro ⟨id, h, _⟩
    cases h
  · simp [synthesizeContext, handleTypeByte_eq]

/-- C5, amended: `addResourceContext(rc)` on connection `t` panics if and only if `rc` is
nil, or `rc` is already owned by some connection, or `t.resources` already holds an entry
for `rc.Handle()`; whenever it panics, the state (every back-reference and every entry of
every map) is what it was before the call. -/
theorem addResourceContext_panics_iff (t : ConnId) (rc : ResourceContext) (w : World) :
    ((addResourceContext t rc w).isPanic = true ↔
      (rc = none ∨ AlreadyOwned w rc ∨ HandleRegistered w t rc)) ∧
    ((addResourceContext t rc w).isPanic = true → (addResourceContext t rc w).world = w) := by
  cases rc with
  | none =>
    refine ⟨⟨fun _ => Or.inl rfl, fun _ => rfl⟩, fun _ => rfl⟩
  | some id =>
    rw [addResourceContext_some]
    by_cases h1 : (w.heap id).Tpm ≠ none
    · rw [if_pos h1]
      exact ⟨⟨fun _ => Or.inr (Or.inl ⟨id, rfl, h1⟩), fun _ => rfl⟩, fun _ => rfl⟩
    · rw [if_neg h1]
      by_cases h2 : (w.resources t (w.heap id).Handle).isSome = true
      · rw [if_pos h2]
        exact ⟨⟨fun _ => Or.inr (Or.inr ⟨id, rfl, h2⟩), fun _ => rfl⟩, fun _ => rfl⟩
      · rw [if_neg h2]
        refine ⟨⟨(fun h => by cases h), ?_⟩, (fun h => by cases h)⟩
        rintro (h | ⟨id', h, ho⟩ | ⟨id', h, hr⟩)
        · cases h
        · cases h
          exact absurd ho h1
        · cases h
          exact absurd hr h2

/-! ## C6: checkResourceContextParam -/

theorem string_append_left_ne (p a b : String) (h : a.data ≠ b.data) : p ++ a ≠ p ++ b := by
  intro he
  have h2 := congrArg String.data he
  simp only [String.data_append, List.append_cancel_left_eq] at h2
  exact h h2

/-- On nil and on a pointer to a context struct, `checkResourceContextParam(rc, name)` on
connection `t` does not panic and leaves the state as it was; it returns nil if and only if
`rc` is not nil and is owned by `t`; otherwise it returns an error whose text tells the
three cases apart: `rc` is nil, `rc` is not owned (`resource has been closed`), `rc` is
owned by another connection. The three texts are pairwise distinct. -/
theorem checkResourceContextParam_of_context (t : ConnId) (rc : ResourceContext)
    (name : String) (w : World) :
    ∃ r, checkResourceContextParam t rc name w = .done w r ∧
      (r = none ↔ ∃ id, rc = some id ∧ (w.heap id).Tpm = some t) ∧
      (rc = none → r = some (.msg ("invalid resource context for " ++ name ++ ": nil"))) ∧
      (∀ id, rc = some id → (w.heap id).Tpm = none →
        r = some (.msg
          ("invalid resource context for " ++ name ++ ": resource has been closed"))) ∧
      (∀ id t', rc = some id → (w.heap id).Tpm = some t' → t' ≠ t →
        r = some (.msg ("invalid resource context for " ++ name ++
          ": resource belongs to another tpm2.TPM instance"))) ∧
      "invalid resource context for " ++ name ++ ": nil"
        ≠ "invalid resource context for " ++ name ++ ": resource has been closed" ∧
      "invalid resource context for " ++ name ++ ": nil"
        ≠ "invalid resource context for " ++ name ++
          ": resource belongs to another tpm2.TPM instance" ∧
      "invalid resource context for " ++ name ++ ": resource has been closed"
        ≠ "invalid resource context for " ++ name ++
          ": resource belongs to another tpm2.TPM instance" := by
  have hne1 := string_append_left_ne ("invalid resource context for " ++ name) ": nil"
    ": resource has been closed" (by decide)
  have hne2 := string_append_left_ne ("invalid resource context for " ++ name) ": nil"
    ": resource belongs to another tpm2.TPM instance" (by decide)
  have hne3 := string_append_left_ne ("invalid resource context for " ++ name)
    ": resource has been closed" ": resource belongs to another tpm2.TPM instance" (by decide)
  cases rc with
  | none =>
    refine ⟨_, rfl, ⟨(fun h => by cases h), ?_⟩, fun _ => rfl, ?_, ?_, hne1, hne2, hne3⟩
    · rintro ⟨id, h, _⟩
      cases h
    · intro id h
      cases h
    · intro id t' h
      cases h
  | some id =>
    unfold checkResourceContextParam
    by_cases h1 : (w.heap id).Tpm = none
    · simp only [h1, if_true]
      refine ⟨_, rfl, ⟨(fun h => by cases h), ?_⟩, (fun h => by cases h), ?_, ?_, hne1,
        hne2, hne3⟩
      · rintro ⟨id', h, ho⟩
        cases h
        rw [h1] at ho
        cases ho
      · intro id' h _
        rfl
      · intro id' t' h ho
        cases h
        rw [h1] at ho
        cases ho
    · by_cases h2 : (w.heap id).Tpm ≠ some t
      · simp only [h1, if_false, h2, ne_eq, not_false_eq_true, if_true]
        refine ⟨_, rfl, ⟨(fun h => by cases h), ?_⟩, (fun h => by cases h), ?_, ?_, hne1,
          hne2, hne3⟩
        · rintro ⟨id', h, ho⟩
          cases h
          exact absurd ho h2
        · intro id' h ho
          cases h
          exact absurd ho h1
        · intro id' t' h _ _
          rfl
      · have h2' : (w.heap id).Tpm = some t := by
          by_contra hc
          exact h2 hc
        simp only [h1, if_false, h2', ne_eq, not_true_eq_false]
        refine ⟨_, rfl, ⟨fun _ => ⟨id, rfl, h2'⟩, fun _ => rfl⟩, (fun h => by cases h),
          ?_, ?_,
          hne1, hne2, hne3⟩
        · intro id' h ho
          cases h
          rw [h2'] at ho
          cases ho
        · intro id' t' h ho hne
          cases h
          rw [h2'] at ho
          cases ho
          exact absurd rfl hne

/-- C6, as stated, fails: `ResourceContext` is an exported interface, and on a value of a
type declared outside the package the type assertion of `checkResourceContextParam`
panics; on a nil pointer of a context struct of the package the call of `Tpm()` panics.
Neither returns an error. -/
theorem checkResourceContextParam_foreign_panics :
    checkResourceContextParam 1 InterfaceValue.foreign "policySession" sessionWorld
      = .panicked sessionWorld "interface conversion: missing method SetTpm" ∧
    checkResourceContextParam 1 InterfaceValue.nilPointer "policySession" sessionWorld
      = .panicked sessionWorld "invalid memory address or nil pointer dereference" ∧
    (checkResourceContextParam 1 InterfaceValue.foreign "policySession" sessionWorld).result?
      = none :=
  ⟨rfl, rfl, rfl⟩

/-- C6, amended: `checkResourceContextParam(rc, name)` on connection `t` never changes the
state. It panics exactly when `rc` is a value of a type declared outside the package or a
nil pointer of a context struct. When `rc` is nil or a pointer to one of the context
structs it returns: nil if and only if `rc` is not nil and is owned by `t`; otherwise an
error whose text tells the three cases apart: `rc` is nil, `rc` is not owned
(`resource has been closed`), `rc` is owned by another connection. The three texts are
pairwise distinct. -/
theorem checkResourceContextParam_spec (t : ConnId) (v : InterfaceValue) (name : String)
    (w : World) :
    (checkResourceContextParam t v name w).world = w ∧
    ((checkResourceContextParam t v name w).isPanic = true ↔
      v = .foreign ∨ v = .nilPointer) ∧
    (∀ rc : ResourceContext, v = .context rc →
      ∃ r, checkResourceContextParam t v name w = .done w r ∧
        (r = none ↔ ∃ id, rc = some id ∧ (w.heap id).Tpm = some t) ∧
        (rc = none → r = some (.msg ("invalid resource context for " ++ name ++ ": nil"))) ∧
        (∀ id, rc = some id → (w.heap id).Tpm = none →
          r = some (.msg
            ("invalid resource context for " ++ name ++ ": resource has been closed"))) ∧
        (∀ id t', rc = some id → (w.heap id).Tpm = some t' → t' ≠ t →
          r = some (.msg ("invalid resource context for " ++ name ++
            ": resource belongs to another tpm2.TPM instance")))) ∧
    "invalid resource context for " ++ name ++ ": nil"
      ≠ "invalid resource context for " ++ name ++ ": resource has been closed" ∧
    "invalid resource context for " ++ name ++ ": nil"
      ≠ "invalid resource context for " ++ name ++
        ": resource belongs to another tpm2.TPM instance" ∧
    "invalid resource context for " ++ name ++ ": resource has been closed"
      ≠ "invalid resource context for " ++ name ++
        ": resource belongs to another tpm2.TPM instance" := by
  have hctx : ∀ rc : ResourceContext, v = .context rc →
      ∃ r, checkResourceContextParam t v name w = .done w r ∧
        (r = none ↔ ∃ id, rc = some id ∧ (w.heap id).Tpm = some t) ∧
        (rc = none → r = some (.msg ("invalid resource context for " ++ name ++ ": nil"))) ∧
        (∀ id, rc = some id → (w.heap id).Tpm = none →
          r = some (.msg
            ("invalid resource context for " ++ name ++ ": resource has been closed"))) ∧
        (∀ id t', rc = some id → (w.heap id).Tpm = some t' → t' ≠ t →
          r = some (.msg ("invalid resource context for " ++ name ++
            ": resource belongs to another tpm2.TPM instance"))) := by
    intro rc hv
    subst hv
    obtain ⟨r, hr, h1, h2, h3, h4, _⟩ := checkResourceContextParam_of_context t rc name w
    exact ⟨r, hr, h1, h2, h3, h4⟩
  obtain ⟨_, _, _, _, _, _, hne1, hne2, hne3⟩ :=
    checkResourceContextParam_of_context t none name w
  refine ⟨?_, ?_, hctx, hne1, hne2, hne3⟩
  · cases v with
    | context rc =>
      obtain ⟨r, hr, _⟩ := hctx rc rfl
      rw [hr]
      rfl
    | nilPointer => rfl
    | foreign => rfl
  · cases v with
    | context rc =>
      obtain ⟨r, hr, _⟩ := hctx rc rfl
      rw [hr]
      constructor
      · intro h
        cases h
      · rintro (h | h) <;> cases h
    | nilPointer => exact ⟨fun _ => Or.inr rfl, fun _ => rfl⟩
    | foreign => exact ⟨fun _ => Or.inl rfl, fun _ => rfl⟩

/-- C6, amended, on concrete inputs: in `sessionWorld` context 0 is owned by connection 1,
so connection 2 gets the error for a context of another connection and connection 1 gets
nil; a value of a foreign type makes the call panic. -/
theorem checkResourceContextParam_spec_witness :
    checkResourceContextParam 2 (InterfaceValue.context (some 0)) "policySession" sessionWorld
      = .done sessionWorld (some (.msg ("invalid resource context for policySession" ++
        ": resource belongs to another tpm2.TPM instance"))) ∧
    checkResourceContextParam 1 (InterfaceValue.context (some 0)) "policySession" sessionWorld
      = .done sessionWorld none ∧
    (checkResourceContextParam 1 InterfaceValue.foreign "policySession" sessionWorld).isPanic
      = true ∧
    (checkResourceContextParam 1 InterfaceValue.foreign "policySession" sessionWorld).world
      = sessionWorld :=
  ⟨by rfl, by rfl,
    (checkResourceContextParam_spec 1 InterfaceValue.foreign "policySession"
      sessionWorld).2.1.2 (Or.inl rfl),
    (checkResourceContextParam_spec 1 InterfaceValue.foreign "policySession" sessionWorld).1⟩

/-! ## C7: ownership sequences -/

/-- C7: for connections `A` and `B` and a context: after a successful
`A.addResourceContext(ctx)` a second `A.addResourceContext(ctx)` panics; after
`A.evictResourceContext(ctx)` has returned, `A.checkResourceContextParam(ctx)` returns the
invalid-context error `resource has been closed`; and while `ctx` is owned by `A`,
`B.checkResourceContextParam(ctx)` for `B` other than `A` returns the invalid-context
error `resource belongs to another tpm2.TPM instance`. -/
theorem ownership_sequences (A B : ConnId) (rc : ResourceContext) (name : String)
    (w : World) :
    ((addResourceContext A rc w).isPanic = false →
      (addResourceContext A rc (addResourceContext A rc w).world).isPanic = true) ∧
    ((evictResourceContext A rc w).isPanic = false →
      checkResourceContextParam A rc name (evictResourceContext A rc w).world
        = .done (evictResourceContext A rc w).world (some (.msg
          ("invalid resource context for " ++ name ++ ": resource has been closed")))) ∧
    (A ≠ B → ∀ id, rc = some id → (w.heap id).Tpm = some A →
      checkResourceContextParam B rc name w
        = .done w (some (.msg ("invalid resource context for " ++ name ++
          ": resource belongs to another tpm2.TPM instance")))) := by
  refine ⟨?_, ?_, ?_⟩
  · intro h
    cases rc with
    | none => cases h
    | some id =>
      have key := addResourceContext_some A id w
      by_cases h1 : (w.heap id).Tpm ≠ none
      · rw [key, if_pos h1] at h
        cases h
      · by_cases h2 : (w.resources A (w.heap id).Handle).isSome = true
        · rw [key, if_neg h1, if_pos h2] at h
          cases h
        · rw [if_neg h1, if_neg h2] at key
          rw [key]
          simp only [Run.world]
          rw [addResourceContext_some]
          simp [Function.update_same, Context.Tpm_SetTpm, Run.isPanic]
  · intro h
    cases rc with
    | none => cases h
    | some id =>
      have key := evictResourceContext_some A id w
      by_cases h1 : (w.heap id).Tpm = none
      · rw [if_pos h1] at key
        rw [key]
        simp [Run.world, checkResourceContextParam, h1]
      · by_cases h2 : (w.heap id).Tpm ≠ some A
        · rw [key, if_neg h1, if_pos h2] at h
          cases h
        · rw [if_neg h1, if_neg h2] at key
          rw [key]
          simp [Run.world, checkResourceContextParam, Function.update_same,
            Context.Tpm_SetTpm]
  · intro hAB id hrc hown
    subst hrc
    have hne : A ≠ B := hAB
    simp [checkResourceContextParam, hown, hne]

/-- C7, on concrete inputs: connection 1 adds context 0, a second add panics; after the
evict the context no longer validates on connection 1; while owned by connection 1 it does
not validate on connection 2. -/
theorem ownership_sequences_witness :
    (addResourceContext 1 (some 0) emptyWorld).isPanic = false ∧
    (addResourceContext 1 (some 0) (addResourceContext 1 (some 0) emptyWorld).world).isPanic
      = true ∧
    (checkResourceContextParam 1 (some 0) "policySession"
      (evictResourceContext 1 (some 0)
        (addResourceContext 1 (some 0) emptyWorld).world).world).result?
      = some (some (.msg
        "invalid resource context for policySession: resource has been closed")) ∧
    (checkResourceContextParam 2 (some 0) "policySession"
      (addResourceContext 1 (some 0) emptyWorld).world).result?
      = some (some (.msg ("invalid resource context for policySession: resource belongs " ++
        "to another tpm2.TPM instance"))) := by
  refine ⟨rfl, ?_, ?_, ?_⟩
  · exact (ownership_sequences 1 2 (some 0) "policySession" emptyWorld).1 rfl
  · rw [(ownership_sequences 1 2 (some 0) "policySession"
      (addResourceContext 1 (some 0) emptyWorld).world).2.1 rfl]
    rfl
  · rw [(ownership_sequences 1 2 (some 0) "policySession"
      (addResourceContext 1 (some 0) emptyWorld).world).2.2 (by decide) 0 rfl rfl]
    rfl

/-! ## C8: evictResourceContext -/

/-- C8: `evictResourceContext(rc)` on connection `t`, for a context `rc`:
if `rc` is not owned, nothing changes; if `rc` is owned by `t`, the back-reference of `rc`
becomes nil, the entry of `t.resources` for `rc.Handle()` is removed, and everything else
(the other fields of `rc`, every other context, every other entry of `t.resources`, the
maps of the other connections) is unchanged; if `rc` is owned by another connection the
call panics and the state is unchanged. Evicting a second time changes nothing. -/
theorem evictResourceContext_spec (t : ConnId) (id : CtxId) (w : World) :
    ((w.heap id).Tpm = none → evictResourceContext t (some id) w = .done w ()) ∧
    ((w.heap id).Tpm = some t →
      ∃ w', evictResourceContext t (some id) w = .done w' () ∧
        (w'.heap id).Tpm = none ∧
        w'.heap id = (w.heap id).SetTpm none ∧
        (w'.heap id).Handle = (w.heap id).Handle ∧
        (∀ id', id' ≠ id → w'.heap id' = w.heap id') ∧
        w'.resources t (w.heap id).Handle = none ∧
        (∀ h, h ≠ (w.heap id).Handle → w'.resources t h = w.resources t h) ∧
        (∀ t', t' ≠ t → w'.resources t' = w.resources t') ∧
        w'.sent = w.sent ∧ w'.next = w.next) ∧
    (∀ t', (w.heap id).Tpm = some t' → t' ≠ t →
      evictResourceContext t (some id) w
        = .panicked w "Attempting to evict a resource for another TPM instance") ∧
    ((evictResourceContext t (some id) w).isPanic = false →
      evictResourceContext t (some id) (evictResourceContext t (some id) w).world
        = .done (evictResourceContext t (some id) w).world ()) := by
  refine ⟨?_, ?_, ?_, ?_⟩
  · intro h
    rw [evictResourceContext_some, if_pos h]
  · intro h
    rw [evictResourceContext_some]
    simp only [h, ne_eq, not_true_eq_false, if_false]
    refine ⟨_, rfl, ?_, ?_, ?_, ?_, ?_, ?_, ?_, rfl, rfl⟩
    · simp [Function.update_same, Context.Tpm_SetTpm]
    · simp [Function.update_same]
    · simp [Function.update_same, Context.Handle_SetTpm]
    · intro id' hne
      simp [Function.update_noteq hne]
    · simp [Function.update_same]
    · intro h' hne
      simp [Function.update_same, Function.update_noteq hne]
    · intro t' hne
      simp [Function.update_noteq hne]
  · intro t' h hne
    rw [evictResourceContext_some]
    have h1 : ¬ (w.heap id).Tpm = none := by rw [h]; simp
    have h2 : (w.heap id).Tpm ≠ some t := by
      rw [h]
      intro hc
      cases hc
      exact hne rfl
    rw [if_neg h1, if_pos h2]
  · intro h
    have key := evictResourceContext_some t id w
    by_cases h1 : (w.heap id).Tpm = none
    · rw [if_pos h1] at key
      rw [key]
      simp only [Run.world]
      exact key
    · by_cases h2 : (w.heap id).Tpm ≠ some t
      · rw [key, if_neg h1, if_pos h2] at h
        cases h
      · rw [if_neg h1, if_neg h2] at key
        rw [key]
        simp only [Run.world]
        rw [evictResourceContext_some]
        simp [Function.update_same, Context.Tpm_SetTpm]

/-- C8, on concrete inputs: context 0, registered with connection 1, is evicted by
connection 1 (the entry for its handle goes, the owner becomes nil); connection 2 cannot
evict it; a context that is not owned is left alone. -/
theorem evictResourceContext_spec_witness :
    ((addResourceContext 1 (some 0) emptyWorld).world.heap 0).Tpm = some 1 ∧
    (addResourceContext 1 (some 0) emptyWorld).world.resources 1 HandleOwner
      = some (some 0) ∧
    (∃ w', evictResourceContext 1 (some 0) (addResourceContext 1 (some 0) emptyWorld).world
        = .done w' () ∧ (w'.heap 0).Tpm = none ∧ w'.resources 1 HandleOwner = none) ∧
    evictResourceContext 2 (some 0) (addResourceContext 1 (some 0) emptyWorld).world
      = .panicked (addResourceContext 1 (some 0) emptyWorld).world
        "Attempting to evict a resource for another TPM instance" ∧
    evictResourceContext 1 (some 0) emptyWorld = .done emptyWorld () := by
  refine ⟨rfl, rfl, ?_, ?_, ?_⟩
  · obtain ⟨w', h, h1, _, _, _, h2, _⟩ :=
      (evictResourceContext_spec 1 0 (addResourceContext 1 (some 0) emptyWorld).world).2.1 rfl
    exact ⟨w', h, h1, h2⟩
  · exact (evictResourceContext_spec 2 0
      (addResourceContext 1 (some 0) emptyWorld).world).2.2.1 1 rfl (by decide)
  · exact (evictResourceContext_spec 1 0 emptyWorld).1 rfl

/-! ## C9, C10: WrapHandle -/

/-- C9: for a handle that has an entry in `t.resources`, `WrapHandle` returns that
registered context with a nil error whatever the device would answer, makes no device
round trip, and leaves the state (every map, every owner) as it was; so a second
`WrapHandle` on the same handle returns the same context. -/
theorem WrapHandle_registered (dev : Device) (t : ConnId) (handle : Handle) (w : World)
    (rc : ResourceContext) (h : w.resources t handle = some rc) :
    WrapHandle dev t handle w = .done w (rc, none) ∧
    (∀ dev', WrapHandle dev' t handle w = WrapHandle dev t handle w) ∧
    (WrapHandle dev t handle w).world.sent = w.sent ∧
    WrapHandle dev t handle (WrapHandle dev t handle w).world = .done w (rc, none) := by
  have key : ∀ d, WrapHandle d t handle w = .done w (rc, none) := by
    intro d
    unfold WrapHandle
    rw [h]
  refine ⟨key dev, fun dev' => ?_, ?_, ?_⟩
  · rw [key dev', key dev]
  · rw [key dev]
    rfl
  · rw [key dev]
    exact key dev

/-- C9, on concrete inputs: once context 0 is registered with connection 1 under
`HandleOwner`, `WrapHandle(HandleOwner)` returns it, twice, with no device round trip. -/
theorem WrapHandle_registered_witness :
    (addResourceContext 1 (some 0) emptyWorld).world.resources 1 HandleOwner
      = some (some 0) ∧
    (WrapHandle demoDevice 1 HandleOwner
      (addResourceContext 1 (some 0) emptyWorld).world).result? = some (some 0, none) ∧
    (WrapHandle demoDevice 1 HandleOwner
      (addResourceContext 1 (some 0) emptyWorld).world).world.sent = [] ∧
    (WrapHandle demoDevice 1 HandleOwner (WrapHandle demoDevice 1 HandleOwner
      (addResourceContext 1 (some 0) emptyWorld).world).world).result?
      = some (some 0, none) := by
  obtain ⟨h1, _, h3, h4⟩ := WrapHandle_registered demoDevice 1 HandleOwner
    (addResourceContext 1 (some 0) emptyWorld).world (some 0) rfl
  refine ⟨rfl, ?_, h3, ?_⟩
  · rw [h1]
    rfl
  · rw [h4]
    rfl

/-- The state after a freshly allocated context `ctx` with handle `handle` was registered
with connection `t`, `calls` being the device round trips made on the way. -/
theorem addResourceContext_fresh (t : ConnId) (handle : Handle) (w : World) (ctx : Context)
    (calls : List (ConnId × DeviceCall))
    (hun : w.resources t handle = none) (hh : ctx.Handle = handle) (ht : ctx.Tpm = none) :
    addResourceContext t (some w.next)
        { heap := Function.update w.heap w.next ctx, next := w.next + 1,
          resources := w.resources, sent := calls } =
      .done
        { heap := Function.update w.heap w.next (ctx.SetTpm (some t)), next := w.next + 1,
          resources := Function.update w.resources t
            (Function.update (w.resources t) handle (some (some w.next))),
          sent := calls } () := by
  rw [addResourceContext_some]
  simp [Function.update_same, ht, hh, hun]

/-- C10: for a handle with no entry in `t.resources` whose top byte is 0x40, 0x01, 0x80
or 0x81, `WrapHandle` does not panic, and

* top byte 0x40: with no device round trip it returns a new permanent context for the
  handle, owned by `t` and entered in `t.resources` under the handle;
* top byte 0x01: after one `nvReadPublic` round trip it returns a new NV index context
  with the name the device reported, owned and entered likewise, or, if the round trip
  failed, nil and that error, no context and no entry having changed;
* top byte 0x80 or 0x81: the same with `readPublic` and an object context that carries
  the public area and the name.

In every case of success the returned context has `Handle()` equal to the handle, is owned
by `t` and is the entry of `t.resources` under the handle, every other entry of every
map being unchanged; in every case of an error the result is nil and no context and no
entry has changed. -/
theorem WrapHandle_unregistered (dev : Device) (t : ConnId) (handle : Handle) (w : World)
    (hun : w.resources t handle = none)
    (htop : handleTypeByte handle = 0x40 ∨ handleTypeByte handle = 0x01 ∨
      handleTypeByte handle = 0x80 ∨ handleTypeByte handle = 0x81) :
    (WrapHandle dev t handle w).isPanic = false ∧
    (handleTypeByte handle = 0x40 →
      WrapHandle dev t handle w = .done
        { heap := Function.update w.heap w.next (.permanentContext (some t) handle),
          next := w.next + 1,
          resources := Function.update w.resources t
            (Function.update (w.resources t) handle (some (some w.next))),
          sent := w.sent } (some w.next, none)) ∧
    (handleTypeByte handle = 0x01 → ∀ name, dev.nvReadPublic handle = .ok name →
      WrapHandle dev t handle w = .done
        { heap := Function.update w.heap w.next (.nvIndexContext (some t) handle name),
          next := w.next + 1,
          resources := Function.update w.resources t
            (Function.update (w.resources t) handle (some (some w.next))),
          sent := (t, .nvReadPublic handle) :: w.sent } (some w.next, none)) ∧
    (handleTypeByte handle = 0x01 → ∀ err, dev.nvReadPublic handle = .error err →
      WrapHandle dev t handle w
        = .done { w with sent := (t, .nvReadPublic handle) :: w.sent } (none, some err)) ∧
    (handleTypeByte handle = 0x80 ∨ handleTypeByte handle = 0x81 →
      ∀ pub name, dev.readPublic handle = .ok (pub, name) →
      WrapHandle dev t handle w = .done
        { heap := Function.update w.heap w.next (.objectContext (some t) handle pub name),
          next := w.next + 1,
          resources := Function.update w.resources t
            (Function.update (w.resources t) handle (some (some w.next))),
          sent := (t, .readPublic handle) :: w.sent } (some w.next, none)) ∧
    (handleTypeByte handle = 0x80 ∨ handleTypeByte handle = 0x81 →
      ∀ err, dev.readPublic handle = .error err →
      WrapHandle dev t handle w
        = .done { w with sent := (t, .readPublic handle) :: w.sent } (none, some err)) ∧
    (∀ w' rc, WrapHandle dev t handle w = .done w' (rc, none) →
      ∃ id, rc = some id ∧ (w'.heap id).Handle = handle ∧ (w'.heap id).Tpm = some t ∧
        w'.resources t handle = some (some id) ∧
        (∀ h, h ≠ handle → w'.resources t h = w.resources t h) ∧
        (∀ t', t' ≠ t → w'.resources t' = w.resources t') ∧
        (∀ id', id' ≠ id → w'.heap id' = w.heap id')) ∧
    (∀ w' rc err, WrapHandle dev t handle w = .done w' (rc, some err) →
      rc = none ∧ w'.resources = w.resources ∧ w'.heap = w.heap) := by
  have hperm : handleTypeByte handle = 0x40 →
      WrapHandle dev t handle w = .done
        { heap := Function.update w.heap w.next (.permanentContext (some t) handle),
          next := w.next + 1,
          resources := Function.update w.resources t
            (Function.update (w.resources t) handle (some (some w.next))),
          sent := w.sent } (some w.next, none) := by
    intro h40
    unfold WrapHandle
    simp only [hun, synthesizeContext, h40, World.alloc]
    simp only [Nat.reduceEqDiff, if_false, if_true]
    rw [addResourceContext_fresh t handle w (.permanentContext none handle) w.sent hun rfl rfl]
    rfl
  have hnvok : handleTypeByte handle = 0x01 → ∀ name, dev.nvReadPublic handle = .ok name →
      WrapHandle dev t handle w = .done
        { heap := Function.update w.heap w.next (.nvIndexContext (some t) handle name),
          next := w.next + 1,
          resources := Function.update w.resources t
            (Function.update (w.resources t) handle (some (some w.next))),
          sent := (t, .nvReadPublic handle) :: w.sent } (some w.next, none) := by
    intro h01 name hdev
    unfold WrapHandle
    simp only [hun, synthesizeContext, h01, if_true, makeNVIndexContext, hdev, World.alloc]
    rw [addResourceContext_fresh t handle w (.nvIndexContext none handle name)
      ((t, .nvReadPublic handle) :: w.sent) hun rfl rfl]
    rfl
  have hnverr : handleTypeByte handle = 0x01 → ∀ err, dev.nvReadPublic handle = .error err →
      WrapHandle dev t handle w
        = .done { w with sent := (t, .nvReadPublic handle) :: w.sent } (none, some err) := by
    intro h01 err hdev
    unfold WrapHandle
    simp only [hun, synthesizeContext, h01, if_true, makeNVIndexContext, hdev]
  have hobjok : handleTypeByte handle = 0x80 ∨ handleTypeByte handle = 0x81 →
      ∀ pub name, dev.readPublic handle = .ok (pub, name) →
      WrapHandle dev t handle w = .done
        { heap := Function.update w.heap w.next (.objectContext (some t) handle pub name),
          next := w.next + 1,
          resources := Function.update w.resources t
            (Function.update (w.resources t) handle (some (some w.next))),
          sent := (t, .readPublic handle) :: w.sent } (some w.next, none) := by
    intro h8 pub name hdev
    have hn1 : ¬ handleTypeByte handle = 0x01 := by rcases h8 with h | h <;> rw [h] <;> decide
    have hn40 : ¬ handleTypeByte handle = 0x40 := by rcases h8 with h | h <;> rw [h] <;> decide
    unfold WrapHandle
    simp only [hun, synthesizeContext, hn1, hn40, h8, if_true, if_false, makeObjectContext,
      hdev, World.alloc]
    rw [addResourceContext_fresh t handle w (.objectContext none handle pub name)
      ((t, .readPublic handle) :: w.sent) hun rfl rfl]
    rfl
  have hobjerr : handleTypeByte handle = 0x80 ∨ handleTypeByte handle = 0x81 →
      ∀ err, dev.readPublic handle = .error err →
      WrapHandle dev t handle w
        = .done { w with sent := (t, .readPublic handle) :: w.sent } (none, some err) := by
    intro h8 err hdev
    have hn1 : ¬ handleTypeByte handle = 0x01 := by rcases h8 with h | h <;> rw [h] <;> decide
    have hn40 : ¬ handleTypeByte handle = 0x40 := by rcases h8 with h | h <;> rw [h] <;> decide
    unfold WrapHandle
    simp only [hun, synthesizeContext, hn1, hn40, h8, if_true, if_false, makeObjectContext,
      hdev]
  -- the shape of every outcome
  have hshape : (∃ (ctx : Context) (calls : List (ConnId × DeviceCall)),
        ctx.Handle = handle ∧
        WrapHandle dev t handle w = .done
          { heap := Function.update w.heap w.next (ctx.SetTpm (some t)), next := w.next + 1,
            resources := Function.update w.resources t
              (Function.update (w.resources t) handle (some (some w.next))),
            sent := calls } (some w.next, none)) ∨
      (∃ (calls : List (ConnId × DeviceCall)) (err : Err),
        WrapHandle dev t handle w = .done { w with sent := calls } (none, some err)) := by
    rcases htop with h | h | h | h
    · exact Or.inl ⟨.permanentContext none handle, w.sent, rfl, hperm h⟩
    · cases hdev : dev.nvReadPublic handle with
      | error err => exact Or.inr ⟨_, err, hnverr h err hdev⟩
      | ok name => exact Or.inl ⟨.nvIndexContext none handle name, _, rfl, hnvok h name hdev⟩
    · cases hdev : dev.readPublic handle with
      | error err => exact Or.inr ⟨_, err, hobjerr (Or.inl h) err hdev⟩
      | ok r =>
        exact Or.inl ⟨.objectContext none handle r.1 r.2, _, rfl,
          hobjok (Or.inl h) r.1 r.2 hdev⟩
    · cases hdev : dev.readPublic handle with
      | error err => exact Or.inr ⟨_, err, hobjerr (Or.inr h) err hdev⟩
      | ok r =>
        exact Or.inl ⟨.objectContext none handle r.1 r.2, _, rfl,
          hobjok (Or.inr h) r.1 r.2 hdev⟩
  refine ⟨?_, hperm, hnvok, hnverr, hobjok, hobjerr, ?_, ?_⟩
  · rcases hshape with ⟨ctx, calls, _, hw⟩ | ⟨calls, err, hw⟩ <;> rw [hw] <;> rfl
  · intro w' rc hres
    rcases hshape with ⟨ctx, calls, hh, hw⟩ | ⟨calls, err, hw⟩
    · rw [hw] at hres
      cases hres
      refine ⟨w.next, rfl, ?_, ?_, ?_, ?_, ?_, ?_⟩
      · simp [Function.update_same, Context.Handle_SetTpm, hh]
      · simp [Function.update_same, Context.Tpm_SetTpm]
      · simp [Function.update_same]
      · intro h hne
        simp [Function.update_same, Function.update_noteq hne]
      · intro t' hne
        simp [Function.update_noteq hne]
      · intro id' hne
        simp [Function.update_noteq hne]
    · rw [hw] at hres
      cases hres
  · intro w' rc err hres
    rcases hshape with ⟨ctx, calls, hh, hw⟩ | ⟨calls, err', hw⟩
    · rw [hw] at hres
      cases hres
    · rw [hw] at hres
      cases hres
      exact ⟨rfl, rfl, rfl⟩

/-- C10, on concrete inputs, on a connection with no registration: a permanent handle is
wrapped with no device round trip; an NV index and a transient object the device knows are
wrapped after one round trip; an NV index and a persistent object the device does not
know give nil and the error of the device, and no entry. -/
theorem WrapHandle_unregistered_witness :
    WrapHandle demoDevice 1 HandleOwner emptyWorld = .done
      { heap := Function.update emptyWorld.heap 0 (.permanentContext (some 1) HandleOwner),
        next := 1,
        resources := Function.update emptyWorld.resources 1
          (Function.update (emptyWorld.resources 1) HandleOwner (some (some 0))),
        sent := [] } (some 0, none) ∧
    (WrapHandle demoDevice 1 0x01000001 emptyWorld).result? = some (some 0, none) ∧
    (WrapHandle demoDevice 1 0x01000001 emptyWorld).world.heap 0
      = .nvIndexContext (some 1) 0x01000001 demoName ∧
    (WrapHandle demoDevice 1 0x01000001 emptyWorld).world.sent
      = [(1, .nvReadPublic 0x01000001)] ∧
    (WrapHandle demoDevice 1 0x80000000 emptyWorld).world.heap 0
      = .objectContext (some 1) 0x80000000 demoParent demoName ∧
    (WrapHandle demoDevice 1 0x80000000 emptyWorld).world.resources 1 0x80000000
      = some (some 0) ∧
    WrapHandle demoDevice 1 0x01000002 emptyWorld
      = .done { emptyWorld with sent := [(1, .nvReadPublic 0x01000002)] }
        (none, some (.msg "TPM_RC_HANDLE")) ∧
    WrapHandle demoDevice 1 0x81000001 emptyWorld
      = .done { emptyWorld with sent := [(1, .readPublic 0x81000001)] }
        (none, some (.msg "TPM_RC_HANDLE")) := by
  have hperm := (WrapHandle_unregistered demoDevice 1 HandleOwner emptyWorld rfl
    (Or.inl (by decide))).2.1 (by decide)
  have hnv := (WrapHandle_unregistered demoDevice 1 0x01000001 emptyWorld rfl
    (Or.inr (Or.inl (by decide)))).2.2.1 (by decide) demoName rfl
  have hobj := (WrapHandle_unregistered demoDevice 1 0x80000000 emptyWorld rfl
    (Or.inr (Or.inr (Or.inl (by decide))))).2.2.2.2.1 (Or.inl (by decide)) demoParent demoName
    rfl
  have hnverr := (WrapHandle_unregistered demoDevice 1 0x01000002 emptyWorld rfl
    (Or.inr (Or.inl (by decide)))).2.2.2.1 (by decide) (.msg "TPM_RC_HANDLE") rfl
  have hobjerr := (WrapHandle_unregistered demoDevice 1 0x81000001 emptyWorld rfl
    (Or.inr (Or.inr (Or.inr (by decide))))).2.2.2.2.2.1 (Or.inr (by decide))
    (.msg "TPM_RC_HANDLE") rfl
  refine ⟨hperm, ?_, ?_, ?_, ?_, ?_, hnverr, hobjerr⟩
  · rw [hnv]
    rfl
  · rw [hnv]
    simp [Run.world, emptyWorld]
  · rw [hnv]
    rfl
  · rw [hobj]
    simp [Run.world, emptyWorld]
  · rw [hobj]
    simp [Run.world, emptyWorld]

/-! ## C11: WrapHandle on a handle class without a case -/

/-- A handle with no entry whose discriminator meets none of the cases 0x01, 0x40, 0x80
and 0x81 leaves `rc` nil, and `addResourceContext(nil)` panics; the state is untouched. -/
theorem WrapHandle_no_case (dev : Device) (t : ConnId) (handle : Handle) (w : World)
    (hun : w.resources t handle = none)
    (h1 : handleTypeByte handle ≠ 0x01) (h40 : handleTypeByte handle ≠ 0x40)
    (h80 : handleTypeByte handle ≠ 0x80) (h81 : handleTypeByte handle ≠ 0x81) :
    WrapHandle dev t handle w = .panicked w "interface conversion: interface is nil" := by
  unfold WrapHandle
  simp only [hun, synthesizeContext, h1, h40, h80, h81, if_false, or_self, addResourceContext]

/-- C11, on the code: for a PCR handle (0x00000005), an HMAC session handle (0x02000001) and
a policy session handle (0x03000000) without registration, `WrapHandle` does not return
an error: it panics in `addResourceContext(nil)`. No context is returned and the state is
unchanged. -/
theorem WrapHandle_unsupported_class_panics :
    WrapHandle demoDevice 1 0x00000005 emptyWorld
      = .panicked emptyWorld "interface conversion: interface is nil" ∧
    WrapHandle demoDevice 1 0x02000001 emptyWorld
      = .panicked emptyWorld "interface conversion: interface is nil" ∧
    WrapHandle demoDevice 1 0x03000000 emptyWorld
      = .panicked emptyWorld "interface conversion: interface is nil" ∧
    (WrapHandle demoDevice 1 0x00000005 emptyWorld).result? = none := by
  have h5 := WrapHandle_no_case demoDevice 1 0x00000005 emptyWorld rfl (by decide)
    (by decide) (by decide) (by decide)
  refine ⟨h5, ?_, ?_, ?_⟩
  · exact WrapHandle_no_case demoDevice 1 0x02000001 emptyWorld rfl (by decide) (by decide)
      (by decide) (by decide)
  · exact WrapHandle_no_case demoDevice 1 0x03000000 emptyWorld rfl (by decide) (by decide)
      (by decide) (by decide)
  · rw [h5]
    rfl

/-! ## C12: classification by the top byte -/

/-- The mask `handle & 0xff000000` keeps the discriminator byte in its place. -/
theorem and_mask_eq (handle : Handle) :
    handle &&& 0xff000000 = handleTypeByte handle * 16777216 := by
  rw [handleTypeByte_eq]
  have e1 : (0xff000000 : Nat) = (2 ^ 8 - 1) <<< 24 := by decide
  have e2 : (handle / 16777216 % 256) * 16777216 = ((handle >>> 24) % 2 ^ 8) <<< 24 := by
    rw [Nat.shiftRight_eq_div_pow, Nat.shiftLeft_eq]
    norm_num
  rw [e1, e2]
  apply Nat.eq_of_testBit_eq
  intro i
  simp only [Nat.testBit_and, Nat.testBit_shiftLeft, Nat.testBit_two_pow_sub_one,
    Nat.testBit_mod_two_pow, Nat.testBit_shiftRight]
  by_cases hi : 24 ≤ i
  · have : 24 + (i - 24) = i := by omega
    rw [this]
    by_cases h8 : i - 24 < 8 <;> simp [hi, h8, Bool.and_comm]
  · simp [hi]

theorem top_byte_of_uint32 (n : Nat) (hn : n < 4294967296) :
    n / 16777216 % 256 = n / 16777216 ∧ n / 16777216 % 256 < 256 := by
  omega

theorem handleType_eq_typeByte (c : HandleClass) : c.handleType = c.typeByte * 16777216 := by
  cases c <;> decide

theorem classify_eq_some_iff (handle : Handle) (c : HandleClass) :
    classify handle = some c ↔ handleTypeByte handle = c.typeByte := by
  unfold classify
  generalize handleTypeByte handle = b
  cases c <;> simp only [HandleClass.typeByte] <;> split_ifs <;> simp_all

/-- C12, as stated, fails: the 32-bit handle 0x04000000 has the top byte 0x04, which is
none of the seven class bytes; the switch of `WrapHandle` has no case for it and
`handle & 0xff000000` is none of the `HandleType*` constants. -/
theorem classify_not_total :
    (0x04000000 : Handle) < 4294967296 ∧ handleTypeByte 0x04000000 = 0x04 ∧
    classify 0x04000000 = none ∧
    ∀ c : HandleClass, (0x04000000 : Handle) &&& 0xff000000 ≠ c.handleType := by
  refine ⟨by decide, by decide, by decide, ?_⟩
  intro c
  cases c <;> decide

/-- C12, amended: for every 32-bit handle the discriminator `(h & 0xff000000) >> 24` of
`WrapHandle` is the top byte of the handle; it meets the case of at most one of the seven
classes, and it meets the case of a class exactly when `h & 0xff000000` equals the
`HandleType*` constant of that class; the constants of different classes differ. A handle
whose top byte is none of 0x00, 0x01, 0x02, 0x03, 0x40, 0x80, 0x81 has no class. -/
theorem classify_spec (h : Handle) (h32 : h < 4294967296) :
    handleTypeByte h = h / 16777216 ∧ handleTypeByte h < 256 ∧
    (∀ c, classify h = some c ↔ h &&& 0xff000000 = c.handleType) ∧
    (∀ c, classify h = some c ↔ handleTypeByte h = c.typeByte) ∧
    (∀ c c', classify h = some c → classify h = some c' → c = c') ∧
    (∀ c c' : HandleClass, c.handleType = c'.handleType → c = c') ∧
    (classify h = none ↔
      handleTypeByte h ≠ 0x00 ∧ handleTypeByte h ≠ 0x01 ∧ handleTypeByte h ≠ 0x02 ∧
      handleTypeByte h ≠ 0x03 ∧ handleTypeByte h ≠ 0x40 ∧ handleTypeByte h ≠ 0x80 ∧
      handleTypeByte h ≠ 0x81) := by
  have hb : handleTypeByte h = h / 16777216 % 256 := handleTypeByte_eq h
  have hm := and_mask_eq h
  have htop := top_byte_of_uint32 h h32
  have hbyte := classify_eq_some_iff h
  refine ⟨hb.trans htop.1, hb ▸ htop.2, ?_, hbyte, ?_, ?_, ?_⟩
  · intro c
    rw [hbyte c, hm, handleType_eq_typeByte c]
    constructor
    · intro hc
      rw [hc]
    · intro hc
      exact Nat.eq_of_mul_eq_mul_right (by decide) hc
  · intro c c' h1 h2
    rw [h1] at h2
    exact Option.some.inj h2
  · intro c c' hcc
    cases c <;> cases c' <;> first | rfl | (exact absurd hcc (by decide))
  · unfold classify
    generalize handleTypeByte h = b
    constructor
    · intro hc
      split_ifs at hc
      refine ⟨?_, ?_, ?_, ?_, ?_, ?_, ?_⟩ <;> assumption
    · rintro ⟨h0, h1, h2, h3, h4, h5, h6⟩
      simp only [h0, h1, h2, h3, h4, h5, h6, if_false]

/-- C12, amended, on concrete inputs: `HandleOwner` is a permanent handle, and
`h & 0xff000000` is `HandleTypePermanent`. -/
theorem classify_spec_witness :
    classify HandleOwner = some .permanent ∧
    HandleOwner &&& 0xff000000 = HandleTypePermanent ∧ handleTypeByte HandleOwner = 0x40 := by
  have h := classify_spec HandleOwner (by decide)
  exact ⟨(h.2.2.1 .permanent).2 (by decide), by decide, by decide⟩

/-! ## C13, C14: names of permanent and session contexts -/

theorem toUInt8_toNat_mod (x : Nat) : (x % 256).toUInt8.toNat = x % 256 := by
  show (x % 256) % 256 = x % 256
  omega

/-- Reading back the big-endian encoding of a uint32. -/
theorem getUint32_putUint32 (n : Nat) (h : n < 4294967296) (rest : Bytes) :
    getUint32 (putUint32 n ++ rest) = some n := by
  simp only [putUint32, List.cons_append, List.nil_append, getUint32, toUInt8_toNat_mod]
  congr 1
  omega

/-- C13: for every permanent context with a (32-bit) handle `h`, `Name()` has exactly four
bytes and is the big-endian encoding of `h`: reading it back as a big-endian uint32 gives
`h`, and permanent contexts with different handles have different names. -/
theorem permanentContext_Name (tpm : Option ConnId) (h : Handle) (h32 : h < 4294967296) :
    (Context.permanentContext tpm h).Name.length = 4 ∧
    (Context.permanentContext tpm h).Name = putUint32 h ∧
    getUint32 (Context.permanentContext tpm h).Name = some h ∧
    (∀ (tpm' : Option ConnId) (h' : Handle), h' < 4294967296 → h' ≠ h →
      (Context.permanentContext tpm' h').Name ≠ (Context.permanentContext tpm h).Name) := by
  have hn : ∀ (tp : Option ConnId) (x : Handle), x < 4294967296 →
      (Context.permanentContext tp x).Name = putUint32 x := by
    intro tp x hx
    simp only [Context.Name, Nat.mod_eq_of_lt hx]
  have hg : ∀ x : Handle, x < 4294967296 → getUint32 (putUint32 x) = some x := by
    intro x hx
    have := getUint32_putUint32 x hx []
    rwa [List.append_nil] at this
  refine ⟨?_, hn tpm h h32, ?_, ?_⟩
  · rw [hn tpm h h32]
    rfl
  · rw [hn tpm h h32]
    exact hg h h32
  · intro tpm' h' h32' hne heq
    rw [hn tpm h h32, hn tpm' h' h32'] at heq
    have h1 := hg h' h32'
    rw [heq, hg h h32] at h1
    exact hne (Option.some.inj h1).symm

/-- C13, on concrete inputs: the name of the permanent context of `HandleOwner`
(0x40000001) is 40 00 00 01. -/
theorem permanentContext_Name_witness :
    (Context.permanentContext none HandleOwner).Name = [0x40, 0x00, 0x00, 0x01] ∧
    getUint32 [0x40, 0x00, 0x00, 0x01] = some HandleOwner := by
  have h := permanentContext_Name none HandleOwner (by decide)
  refine ⟨?_, ?_⟩
  · rw [h.2.1]
    decide
  · have h3 := h.2.2.1
    rw [h.2.1] at h3
    exact h3

/-- C14, on the code: `Name()` of a session context is nil for every handle; it is never
the four-byte big-endian encoding of the handle. -/
theorem sessionContext_Name_nil (tpm : Option ConnId) (h : Handle) (session : SessionData) :
    (Context.sessionContext tpm h session).Name = [] ∧
    (Context.sessionContext tpm h session).Name ≠ putUint32 (h % 4294967296) ∧
    (Context.sessionContext (some 1) 0x02000000 demoSession).Name = [] ∧
    putUint32 0x02000000 = [0x02, 0x00, 0x00, 0x00] := by
  refine ⟨rfl, ?_, rfl, by decide⟩
  intro hc
  have := congrArg List.length hc
  simp [Context.Name, putUint32] at this

/-! ## cmds_ea.go: validation and the round trip -/

theorem checkResourceContextParam_valid (t : ConnId) (id : CtxId) (name : String) (w : World)
    (h : (w.heap id).Tpm = some t) :
    checkResourceContextParam t (some id) name w = .done w none := by
  simp [checkResourceContextParam, h]

theorem checkResourceContextParam_invalid (t : ConnId) (rc : ResourceContext) (name : String)
    (w : World) (h : ¬ ValidContext w t rc) :
    ∃ err, checkResourceContextParam t rc name w = .done w (some err) := by
  cases rc with
  | none => exact ⟨_, rfl⟩
  | some id =>
    unfold checkResourceContextParam
    by_cases h1 : (w.heap id).Tpm = none
    · simp only [h1, if_true]
      exact ⟨_, rfl⟩
    · by_cases h2 : (w.heap id).Tpm = some t
      · exact absurd ⟨id, rfl, h2⟩ h
      · simp only [h1, if_false, ne_eq, h2, not_false_eq_true, if_true]
        exact ⟨_, rfl⟩

theorem checkResourceContextParam_none (t : ConnId) (rc : ResourceContext) (name : String)
    (w w' : World) (h : checkResourceContextParam t rc name w = .done w' none) :
    ValidContext w t rc := by
  by_contra hv
  obtain ⟨err, he⟩ := checkResourceContextParam_invalid t rc name w hv
  rw [he] at h
  cases h

/-- The state after `RunCommand`: only the list of round trips has grown. -/
theorem RunCommand_eq (tr : Transport) (t : ConnId) (code : CommandCode)
    (contexts : List ResourceContext) (params auths : List Bytes) (w : World) :
    RunCommand tr t code contexts params auths w =
      .done { w with sent := (t, DeviceCall.runCommand code
          (contexts.map (fun rc => rc.map (fun id => (w.heap id).Handle))) params auths)
          :: w.sent }
        (tr.respond ((t, DeviceCall.runCommand code
          (contexts.map (fun rc => rc.map (fun id => (w.heap id).Handle))) params auths)
          :: w.sent)) := rfl

theorem PolicyOR_invalid (tr : Transport) (t : ConnId) (rc : ResourceContext)
    (pHashList : List Bytes) (w : World) (err : Err)
    (h : checkResourceContextParam t rc "policySession" w = .done w (some err)) :
    PolicyOR tr t rc pHashList w = .done w (some err) := by
  simp only [PolicyOR, h]

theorem PolicyPCR_invalid (tr : Transport) (t : ConnId) (rc : ResourceContext)
    (pcrDigest pcrs : Bytes) (sessions : List Bytes) (w : World) (err : Err)
    (h : checkResourceContextParam t rc "policySession" w = .done w (some err)) :
    PolicyPCR tr t rc pcrDigest pcrs sessions w = .done w (some err) := by
  simp only [PolicyPCR, h]

theorem PolicyAuthValue_invalid (tr : Transport) (t : ConnId) (rc : ResourceContext)
    (w : World) (err : Err)
    (h : checkResourceContextParam t rc "policySession" w = .done w (some err)) :
    PolicyAuthValue tr t rc w = .done w (some err) := by
  simp only [PolicyAuthValue, h]

theorem PolicyPassword_invalid (tr : Transport) (t : ConnId) (rc : ResourceContext)
    (w : World) (err : Err)
    (h : checkResourceContextParam t rc "policySession" w = .done w (some err)) :
    PolicyPassword tr t rc w = .done w (some err) := by
  simp only [PolicyPassword, h]

theorem PolicyGetDigest_invalid (tr : Transport) (t : ConnId) (rc : ResourceContext)
    (w : World) (err : Err)
    (h : checkResourceContextParam t rc "policySession" w = .done w (some err)) :
    PolicyGetDigest tr t rc w = .done w (none, some err) := by
  simp only [PolicyGetDigest, h]

theorem PolicySecret_invalid_authContext (tr : Transport) (t : ConnId)
    (authContext policySession : ResourceContext) (cpHashA policyRef : Bytes)
    (expiration : Int) (authContextAuth : Bytes) (sessions : List Bytes) (w : World)
    (err : Err)
    (h : checkResourceContextParam t authContext "authContext" w = .done w (some err)) :
    PolicySecret tr t authContext policySession cpHashA policyRef expiration authContextAuth
      sessions w = .done w (none, none, some err) := by
  simp only [PolicySecret, h]

theorem PolicySecret_invalid_policySession (tr : Transport) (t : ConnId)
    (authContext policySession : ResourceContext) (cpHashA policyRef : Bytes)
    (expiration : Int) (authContextAuth : Bytes) (sessions : List Bytes) (w : World)
    (err : Err)
    (ha : checkResourceContextParam t authContext "authContext" w = .done w none)
    (h : checkResourceContextParam t policySession "policySession" w = .done w (some err)) :
    PolicySecret tr t authContext policySession cpHashA policyRef expiration authContextAuth
      sessions w = .done w (none, none, some err) := by
  simp only [PolicySecret, ha, h]

/-- What `PolicyOR` does with a context that passed the validation: it sends the command
and returns the answer of the device. -/
theorem PolicyOR_valid (tr : Transport) (t : ConnId) (id : CtxId) (pHashList : List Bytes)
    (w : World) (h : (w.heap id).Tpm = some t) :
    PolicyOR tr t (some id) pHashList w =
      .done { w with sent := (t, DeviceCall.runCommand CommandPolicyOR
          [some (w.heap id).Handle] pHashList []) :: w.sent }
        (match tr.respond ((t, DeviceCall.runCommand CommandPolicyOR
            [some (w.heap id).Handle] pHashList []) :: w.sent) with
          | .error err => some err
          | .ok _ => none) := by
  simp only [PolicyOR, checkResourceContextParam_valid t id "policySession" w h, RunCommand_eq,
    List.map, Option.map]
  generalize tr.respond _ = r
  cases r <;> rfl

/-- What `PolicyPCR` does with a context that passed the validation: it sends the command
and returns the answer of the device. -/
theorem PolicyPCR_valid (tr : Transport) (t : ConnId) (id : CtxId) (pcrDigest pcrs : Bytes)
    (sessions : List Bytes) (w : World) (h : (w.heap id).Tpm = some t) :
    PolicyPCR tr t (some id) pcrDigest pcrs sessions w =
      .done { w with sent := (t, DeviceCall.runCommand CommandPolicyPCR
          [some (w.heap id).Handle] [pcrDigest, pcrs] sessions) :: w.sent }
        (match tr.respond ((t, DeviceCall.runCommand CommandPolicyPCR
            [some (w.heap id).Handle] [pcrDigest, pcrs] sessions) :: w.sent) with
          | .error err => some err
          | .ok _ => none) := by
  simp only [PolicyPCR, checkResourceContextParam_valid t id "policySession" w h,
    RunCommand_eq, List.map, Option.map]
  generalize tr.respond _ = r
  cases r <;> rfl

theorem asSessionContext_session (w : World) (sc : CtxId) (tpm : Option ConnId)
    (handle : Handle) (session : SessionData)
    (hs : w.heap sc = .sessionContext tpm handle session) :
    asSessionContext w (some sc) = some (sc, session) := by
  simp only [asSessionContext, hs]

theorem asSessionContext_none_iff (w : World) (id : CtxId) :
    asSessionContext w (some id) = none ↔
      ∀ tpm handle session, w.heap id ≠ .sessionContext tpm handle session := by
  unfold asSessionContext
  cases hc : w.heap id <;> simp [hc]

/-- What `PolicyAuthValue` does with a session context that passed the validation: it
sends the command; on an error of the device it returns the error and changes nothing;
on success it sets the flag of the session to `policyHMACTypeAuth`. -/
theorem PolicyAuthValue_session (tr : Transport) (t : ConnId) (sc : CtxId) (w : World)
    (handle : Handle) (session : SessionData)
    (hs : w.heap sc = .sessionContext (some t) handle session) :
    PolicyAuthValue tr t (some sc) w =
      match tr.respond ((t, DeviceCall.runCommand CommandPolicyAuthValue [some handle] [] [])
          :: w.sent) with
      | .error err =>
        .done { w with sent := (t, DeviceCall.runCommand CommandPolicyAuthValue
          [some handle] [] []) :: w.sent } (some err)
      | .ok _ =>
        .done
          { heap := Function.update w.heap sc (.sessionContext (some t) handle
              { session with policyHMACType := .policyHMACTypeAuth }),
            next := w.next, resources := w.resources,
            sent := (t, DeviceCall.runCommand CommandPolicyAuthValue [some handle] [] [])
              :: w.sent } none := by
  have hv : (w.heap sc).Tpm = some t := by rw [hs]; rfl
  have hh : (w.heap sc).Handle = handle := by rw [hs]; rfl
  simp only [PolicyAuthValue, checkResourceContextParam_valid t sc "policySession" w hv,
    asSessionContext_session w sc (some t) handle session hs, RunCommand_eq, List.map,
    Option.map, hh]
  generalize tr.respond _ = r
  cases r
  · rfl
  · simp only [hs, Context.setPolicyHMACType]

/-- What `PolicyPassword` does with a session context that passed the validation: it
sends the command; on an error of the device it returns the error and changes nothing;
on success it sets the flag of the session to `policyHMACTypePassword`. -/
theorem PolicyPassword_session (tr : Transport) (t : ConnId) (sc : CtxId) (w : World)
    (handle : Handle) (session : SessionData)
    (hs : w.heap sc = .sessionContext (some t) handle session) :
    PolicyPassword tr t (some sc) w =
      match tr.respond ((t, DeviceCall.runCommand CommandPolicyPassword [some handle] [] [])
          :: w.sent) with
      | .error err =>
        .done { w with sent := (t, DeviceCall.runCommand CommandPolicyPassword
          [some handle] [] []) :: w.sent } (some err)
      | .ok _ =>
        .done
          { heap := Function.update w.heap sc (.sessionContext (some t) handle
              { session with policyHMACType := .policyHMACTypePassword }),
            next := w.next, resources := w.resources,
            sent := (t, DeviceCall.runCommand CommandPolicyPassword [some handle] [] [])
              :: w.sent } none := by
  have hv : (w.heap sc).Tpm = some t := by rw [hs]; rfl
  have hh : (w.heap sc).Handle = handle := by rw [hs]; rfl
  simp only [PolicyPassword, checkResourceContextParam_valid t sc "policySession" w hv,
    asSessionContext_session w sc (some t) handle session hs, RunCommand_eq, List.map,
    Option.map, hh]
  generalize tr.respond _ = r
  cases r
  · rfl
  · simp only [hs, Context.setPolicyHMACType]

theorem PolicyAuthValue_not_session (tr : Transport) (t : ConnId) (id : CtxId) (w : World)
    (hv : (w.heap id).Tpm = some t) (hn : asSessionContext w (some id) = none) :
    PolicyAuthValue tr t (some id) w
      = .done w (some (makeInvalidParamError "policySession" "not a session context")) := by
  simp only [PolicyAuthValue, checkResourceContextParam_valid t id "policySession" w hv, hn]

/-- C15: `PolicyAuthValue(policySession)` on connection `t`.
If the validation of `policySession` fails it returns that error, and if the context is
valid but not a session context it returns the error of the session-type check; in both
cases nothing is sent and the state is unchanged. On a valid session context it sends the
command: if the device answers with an error, that error is returned and the state is the
old one but for the list of round trips; if the command succeeds, the flag
`policyHMACType` of the session is `policyHMACTypeAuth` and every other field of the
session, every other context and every map of the store is unchanged. -/
theorem PolicyAuthValue_spec (tr : Transport) (t : ConnId) (policySession : ResourceContext)
    (w : World) :
    (∀ err, checkResourceContextParam t policySession "policySession" w = .done w (some err) →
      PolicyAuthValue tr t policySession w = .done w (some err)) ∧
    (∀ id, policySession = some id → (w.heap id).Tpm = some t →
      (∀ tpm handle session, w.heap id ≠ .sessionContext tpm handle session) →
      PolicyAuthValue tr t policySession w
        = .done w (some (makeInvalidParamError "policySession" "not a session context"))) ∧
    (∀ sc handle session, policySession = some sc →
      w.heap sc = .sessionContext (some t) handle session →
      (∀ err, tr.respond ((t, DeviceCall.runCommand CommandPolicyAuthValue [some handle] [] [])
          :: w.sent) = .error err →
        PolicyAuthValue tr t policySession w
          = .done { w with sent := (t, DeviceCall.runCommand CommandPolicyAuthValue
              [some handle] [] []) :: w.sent } (some err)) ∧
      (∀ resp, tr.respond ((t, DeviceCall.runCommand CommandPolicyAuthValue [some handle] [] [])
          :: w.sent) = .ok resp →
        PolicyAuthValue tr t policySession w
          = .done
            { heap := Function.update w.heap sc (.sessionContext (some t) handle
                { session with policyHMACType := .policyHMACTypeAuth }),
              next := w.next, resources := w.resources,
              sent := (t, DeviceCall.runCommand CommandPolicyAuthValue [some handle] [] [])
                :: w.sent } none)) := by
  refine ⟨fun err h => PolicyAuthValue_invalid tr t policySession w err h, ?_, ?_⟩
  · intro id hrc hv hn
    subst hrc
    exact PolicyAuthValue_not_session tr t id w hv ((asSessionContext_none_iff w id).2 hn)
  · intro sc handle session hrc hs
    subst hrc
    have key := PolicyAuthValue_session tr t sc w handle session hs
    constructor
    · intro err hr
      rw [key, hr]
    · intro resp hr
      rw [key, hr]

/-- C15, on concrete inputs: on the policy session of `sessionWorld` a command the device
accepts sets the flag to `policyHMACTypeAuth`; a command the device rejects leaves the
flag as it was; on the permanent context the error of the session-type check comes back
and nothing is sent. -/
theorem PolicyAuthValue_spec_witness :
    (PolicyAuthValue acceptingTransport 1 (some 0) sessionWorld).result? = some none ∧
    (PolicyAuthValue acceptingTransport 1 (some 0) sessionWorld).world.heap 0
      = .sessionContext (some 1) 0x03000000
        { demoSession with policyHMACType := .policyHMACTypeAuth } ∧
    PolicyAuthValue rejectingTransport 1 (some 0) sessionWorld
      = .done { sessionWorld with sent := [(1, DeviceCall.runCommand CommandPolicyAuthValue
          [some 0x03000000] [] [])] } (some (.msg "TPM_RC_VALUE")) ∧
    PolicyAuthValue acceptingTransport 1 (some 1) sessionWorld
      = .done sessionWorld
        (some (makeInvalidParamError "policySession" "not a session context")) := by
  have h := PolicyAuthValue_spec acceptingTransport 1 (some 0) sessionWorld
  have hok := (h.2.2 0 0x03000000 demoSession rfl rfl).2 _ rfl
  have hr := ((PolicyAuthValue_spec rejectingTransport 1 (some 0) sessionWorld).2.2 0
    0x03000000 demoSession rfl rfl).1 _ rfl
  have hp := (PolicyAuthValue_spec acceptingTransport 1 (some 1) sessionWorld).2.1 1 rfl rfl
    (by intro tpm handle session hc; cases hc)
  refine ⟨?_, ?_, hr, hp⟩
  · rw [hok]
    rfl
  · rw [hok]
    simp [Run.world]

/-- C16: `PolicyPassword(policySession)` on connection `t`, on a valid session context:
if the command succeeds, the flag `policyHMACType` of the session is
`policyHMACTypePassword` whatever it was, and every other field of the session, every
other context and every map of the store is unchanged; if the device answers with an
error, that error is returned and the flag is unchanged. A successful `PolicyAuthValue`
followed by a successful `PolicyPassword` on the same session ends with the flag
`policyHMACTypePassword`, nothing else of the session or the store having changed in
either call. -/
theorem PolicyPassword_spec (tr : Transport) (t : ConnId) (sc : CtxId) (handle : Handle)
    (session : SessionData) (w : World)
    (hs : w.heap sc = .sessionContext (some t) handle session) :
    (∀ resp, tr.respond ((t, DeviceCall.runCommand CommandPolicyPassword [some handle] [] [])
        :: w.sent) = .ok resp →
      PolicyPassword tr t (some sc) w
        = .done
          { heap := Function.update w.heap sc (.sessionContext (some t) handle
              { session with policyHMACType := .policyHMACTypePassword }),
            next := w.next, resources := w.resources,
            sent := (t, DeviceCall.runCommand CommandPolicyPassword [some handle] [] [])
              :: w.sent } none) ∧
    (∀ err, tr.respond ((t, DeviceCall.runCommand CommandPolicyPassword [some handle] [] [])
        :: w.sent) = .error err →
      PolicyPassword tr t (some sc) w
        = .done { w with sent := (t, DeviceCall.runCommand CommandPolicyPassword
            [some handle] [] []) :: w.sent } (some err)) ∧
    (∀ resp1 resp2,
      tr.respond ((t, DeviceCall.runCommand CommandPolicyAuthValue [some handle] [] [])
        :: w.sent) = .ok resp1 →
      tr.respond ((t, DeviceCall.runCommand CommandPolicyPassword [some handle] [] [])
        :: (t, DeviceCall.runCommand CommandPolicyAuthValue [some handle] [] [])
        :: w.sent) = .ok resp2 →
      PolicyPassword tr t (some sc) (PolicyAuthValue tr t (some sc) w).world
        = .done
          { heap := Function.update w.heap sc (.sessionContext (some t) handle
              { session with policyHMACType := .policyHMACTypePassword }),
            next := w.next, resources := w.resources,
            sent := (t, DeviceCall.runCommand CommandPolicyPassword [some handle] [] [])
              :: (t, DeviceCall.runCommand CommandPolicyAuthValue [some handle] [] [])
              :: w.sent } none) := by
  have key := PolicyPassword_session tr t sc w handle session hs
  refine ⟨?_, ?_, ?_⟩
  · intro resp hr
    rw [key, hr]
  · intro err hr
    rw [key, hr]
  · intro resp1 resp2 hr1 hr2
    have k1 := PolicyAuthValue_session tr t sc w handle session hs
    rw [hr1] at k1
    rw [k1]
    simp only [Run.world]
    rw [PolicyPassword_session tr t sc _ handle
      { session with policyHMACType := .policyHMACTypeAuth } (by simp)]
    simp only [hr2, Function.update_idem]

/-- C16, on concrete inputs: on the policy session of `sessionWorld`, `PolicyAuthValue`
then `PolicyPassword`, both accepted by the device, end with the flag
`policyHMACTypePassword`; the other fields of the session are those of `demoSession`. -/
theorem PolicyPassword_spec_witness :
    (PolicyPassword acceptingTransport 1 (some 0)
      (PolicyAuthValue acceptingTransport 1 (some 0) sessionWorld).world).result?
      = some none ∧
    (PolicyPassword acceptingTransport 1 (some 0)
      (PolicyAuthValue acceptingTransport 1 (some 0) sessionWorld).world).world.heap 0
      = .sessionContext (some 1) 0x03000000
        { demoSession with policyHMACType := .policyHMACTypePassword } ∧
    (PolicyPassword rejectingTransport 1 (some 0) sessionWorld).world.heap 0
      = sessionWorld.heap 0 := by
  have h := PolicyPassword_spec acceptingTransport 1 0 0x03000000 demoSession sessionWorld rfl
  have hseq := h.2.2 _ _ rfl rfl
  have hrej := (PolicyPassword_spec rejectingTransport 1 0 0x03000000 demoSession sessionWorld
    rfl).2.1 _ rfl
  refine ⟨?_, ?_, ?_⟩
  · rw [hseq]
    rfl
  · rw [hseq]
    simp [Run.world]
  · rw [hrej]
    rfl

/-! ## C17: the session-type check -/

/-- `PolicyOR` and `PolicyPCR` make no session-type check of their own. On the permanent
context of `HandleOwner`, registered with connection 1, they send the command and return
what the device answers; a device that accepted such a command would get no error back
from them. -/
theorem PolicyOR_PolicyPCR_accept_permanent_context :
    sessionWorld.heap 1 = .permanentContext (some 1) HandleOwner ∧
    sessionWorld.resources 1 HandleOwner = some (some 1) ∧
    PolicyOR acceptingTransport 1 (some 1) [demoSeed] sessionWorld
      = .done { sessionWorld with sent := [(1, DeviceCall.runCommand CommandPolicyOR
          [some HandleOwner] [demoSeed] [])] } none ∧
    PolicyPCR acceptingTransport 1 (some 1) demoSeed [] [] sessionWorld
      = .done { sessionWorld with sent := [(1, DeviceCall.runCommand CommandPolicyPCR
          [some HandleOwner] [demoSeed, []] [])] } none := by
  refine ⟨rfl, rfl, ?_, ?_⟩
  · rw [PolicyOR_valid acceptingTransport 1 1 [demoSeed] sessionWorld rfl]
    rfl
  · rw [PolicyPCR_valid acceptingTransport 1 1 demoSeed [] [] sessionWorld rfl]
    rfl

theorem not_validContext_iff (w : World) (t : ConnId) (rc : ResourceContext) :
    ¬ ValidContext w t rc ↔
      rc = none ∨ ∃ id, rc = some id ∧
        ((w.heap id).Tpm = none ∨ ∃ t', (w.heap id).Tpm = some t' ∧ t' ≠ t) := by
  constructor
  · intro h
    cases rc with
    | none => exact Or.inl rfl
    | some id =>
      refine Or.inr ⟨id, rfl, ?_⟩
      cases ht : (w.heap id).Tpm with
      | none => exact Or.inl rfl
      | some t' =>
        refine Or.inr ⟨t', rfl, ?_⟩
        intro he
        subst he
        exact h ⟨id, rfl, ht⟩
  · rintro (h | ⟨id, h, hc⟩) ⟨id', h', hv⟩
    · rw [h] at h'
      cases h'
    · rw [h] at h'
      cases h'
      rcases hc with hc | ⟨t', hc, hne⟩
      · rw [hc] at hv
        cases hv
      · rw [hc] at hv
        cases hv
        exact hne rfl

/-- C18: each of `PolicySecret`, `PolicyOR`, `PolicyPCR`, `PolicyAuthValue`,
`PolicyPassword` and `PolicyGetDigest` validates its resource contexts before use. If
`policySession` is nil, not owned (evicted) or owned by another connection, the operation
returns the error of `checkResourceContextParam` for the parameter name `policySession`
(`PolicySecret` does so when its `authContext` is valid), with nil result values, and the
state is what it was: no command has been sent. `PolicySecret` checks `authContext`
first: if that is nil, not owned or owned by another connection, it returns the error for
the parameter name `authContext`, whatever `policySession` is. -/
theorem policy_commands_validate (tr : Transport) (t : ConnId)
    (authContext policySession : ResourceContext) (cpHashA policyRef : Bytes)
    (expiration : Int) (authContextAuth : Bytes) (sessions pHashList : List Bytes)
    (pcrDigest pcrs : Bytes) (w : World) :
    ((policySession = none ∨ ∃ id, policySession = some id ∧
        ((w.heap id).Tpm = none ∨ ∃ t', (w.heap id).Tpm = some t' ∧ t' ≠ t)) →
      ∃ err, checkResourceContextParam t policySession "policySession" w
          = .done w (some err) ∧
        PolicyOR tr t policySession pHashList w = .done w (some err) ∧
        PolicyPCR tr t policySession pcrDigest pcrs sessions w = .done w (some err) ∧
        PolicyAuthValue tr t policySession w = .done w (some err) ∧
        PolicyPassword tr t policySession w = .done w (some err) ∧
        PolicyGetDigest tr t policySession w = .done w (none, some err) ∧
        (ValidContext w t authContext →
          PolicySecret tr t authContext policySession cpHashA policyRef expiration
            authContextAuth sessions w = .done w (none, none, some err))) ∧
    ((authContext = none ∨ ∃ id, authContext = some id ∧
        ((w.heap id).Tpm = none ∨ ∃ t', (w.heap id).Tpm = some t' ∧ t' ≠ t)) →
      ∃ err, checkResourceContextParam t authContext "authContext" w = .done w (some err) ∧
        PolicySecret tr t authContext policySession cpHashA policyRef expiration
          authContextAuth sessions w = .done w (none, none, some err)) := by
  constructor
  · intro h
    obtain ⟨err, he⟩ := checkResourceContextParam_invalid t policySession "policySession" w
      ((not_validContext_iff w t policySession).2 h)
    refine ⟨err, he, PolicyOR_invalid tr t policySession pHashList w err he,
      PolicyPCR_invalid tr t policySession pcrDigest pcrs sessions w err he,
      PolicyAuthValue_invalid tr t policySession w err he,
      PolicyPassword_invalid tr t policySession w err he,
      PolicyGetDigest_invalid tr t policySession w err he, ?_⟩
    rintro ⟨a, ha, hav⟩
    subst ha
    exact PolicySecret_invalid_policySession tr t (some a) policySession cpHashA policyRef
      expiration authContextAuth sessions w err
      (checkResourceContextParam_valid t a "authContext" w hav) he
  · intro h
    obtain ⟨err, he⟩ := checkResourceContextParam_invalid t authContext "authContext" w
      ((not_validContext_iff w t authContext).2 h)
    exact ⟨err, he, PolicySecret_invalid_authContext tr t authContext policySession cpHashA
      policyRef expiration authContextAuth sessions w err he⟩

/-- C18, on concrete inputs: a nil `policySession`, and the session of `sessionWorld` used
on connection 2, which does not own it, are refused by `PolicyGetDigest` and `PolicyOR`
with the error of the validation, nothing being sent; `PolicySecret` with a nil
`authContext` reports `authContext`. -/
theorem policy_commands_validate_witness :
    PolicyGetDigest acceptingTransport 1 none sessionWorld
      = .done sessionWorld (none, some (.msg
        "invalid resource context for policySession: nil")) ∧
    PolicyOR acceptingTransport 2 (some 0) [] sessionWorld
      = .done sessionWorld (some (.msg ("invalid resource context for policySession: " ++
        "resource belongs to another tpm2.TPM instance"))) ∧
    PolicySecret acceptingTransport 1 none none [] [] 0 [] [] sessionWorld
      = .done sessionWorld (none, none, some (.msg
        "invalid resource context for authContext: nil")) := by
  refine ⟨?_, ?_, ?_⟩
  · obtain ⟨err, he, _, _, _, _, hg, _⟩ := (policy_commands_validate acceptingTransport 1 none
      none [] [] 0 [] [] [] [] [] sessionWorld).1 (Or.inl rfl)
    cases he
    exact hg
  · obtain ⟨err, he, ho, _⟩ := (policy_commands_validate acceptingTransport 2 none
      (some 0) [] [] 0 [] [] [] [] [] sessionWorld).1
      (Or.inr ⟨0, rfl, Or.inr ⟨1, rfl, by decide⟩⟩)
    have he' : checkResourceContextParam 2 (some 0) "policySession" sessionWorld
        = .done sessionWorld (some (.msg ("invalid resource context for policySession: " ++
          "resource belongs to another tpm2.TPM instance"))) := by rfl
    rw [he'] at he
    cases he
    exact ho
  · obtain ⟨err, he, hs⟩ := (policy_commands_validate acceptingTransport 1 none
      none [] [] 0 [] [] [] [] [] sessionWorld).2 (Or.inl rfl)
    cases he
    exact hs

/-! ## C19: PolicyGetDigest and PolicyOR leave the client state alone -/

theorem hasInnerWrapper_none_iff (symmetricAlg : Option SymDefObject) :
    hasInnerWrapper symmetricAlg = none ↔
      symmetricAlg = none ∨
        ∃ sym, symmetricAlg = some sym ∧ sym.Algorithm = SymObjectAlgorithmNull := by
  cases symmetricAlg with
  | none => simp [hasInnerWrapper]
  | some sym =>
    by_cases h : sym.Algorithm = SymObjectAlgorithmNull <;> simp [hasInnerWrapper, h]

/-- C20: with an empty seed and an inner symmetric algorithm that is nil or
`SymObjectAlgorithmNull`, `SensitiveToDuplicate` returns a nil inner key and the
size-prefixed marshalling of the `Sensitive` as the blob (a 2-byte length and the
marshalled struct: no encryption, no integrity field), or the error of the marshalling;
`DuplicateToSensitive` returns the plain unmarshalling of the blob, the same for every
name, inner key, parent name algorithm, parent symmetric definition and for every
implementation of the cryptographic primitives. -/
theorem no_wrapper_passthrough {S : Type} (c : Crypto) (codec : SensitiveCodec S)
    (rand : Entropy) (sensitive : S) (name : Bytes) (parent : Public) (seed : Bytes)
    (symmetricAlg : Option SymDefObject) (innerSymKey : Bytes)
    (hseed : seed = [])
    (hsym : symmetricAlg = none ∨
      ∃ sym, symmetricAlg = some sym ∧ sym.Algorithm = SymObjectAlgorithmNull) :
    (∀ e, marshalSensitiveSized codec sensitive = .error e →
      SensitiveToDuplicate c codec rand sensitive name parent seed symmetricAlg innerSymKey
        = .ret (none, none, some (.wrap "cannot marshal sensitive" e))) ∧
    (∀ b, marshalSensitiveSized codec sensitive = .ok b →
      SensitiveToDuplicate c codec rand sensitive name parent seed symmetricAlg innerSymKey
        = .ret (none, some b, none)) ∧
    (∀ body, codec.marshal sensitive = .ok body → body.length ≤ 65535 →
      SensitiveToDuplicate c codec rand sensitive name parent seed symmetricAlg innerSymKey
        = .ret (none, some (putUint16 body.length ++ body), none)) ∧
    (∀ (blob : Bytes) (parentNameAlg : HashAlgorithmId)
      (parentSymmetricAlg : Option SymDefObject),
      DuplicateToSensitive c codec blob name parentNameAlg parentSymmetricAlg seed
        symmetricAlg innerSymKey = unmarshalDuplicate codec blob) ∧
    (∀ (c' : Crypto) (blob name' innerSymKey' : Bytes) (parentNameAlg : HashAlgorithmId)
      (parentSymmetricAlg : Option SymDefObject),
      DuplicateToSensitive c' codec blob name' parentNameAlg parentSymmetricAlg seed
        symmetricAlg innerSymKey'
        = DuplicateToSensitive c codec blob name parent.NameAlg parent.AsymDetailSymmetric
          seed symmetricAlg innerSymKey) := by
  subst hseed
  have hw := (hasInnerWrapper_none_iff symmetricAlg).2 hsym
  have hd : ∀ (c' : Crypto) (blob name' innerSymKey' : Bytes)
      (parentNameAlg : HashAlgorithmId) (parentSymmetricAlg : Option SymDefObject),
      DuplicateToSensitive c' codec blob name' parentNameAlg parentSymmetricAlg []
        symmetricAlg innerSymKey' = unmarshalDuplicate codec blob := by
    intro c' blob name' innerSymKey' parentNameAlg parentSymmetricAlg
    rw [DuplicateToSensitive_no_seed c' codec blob name' parentNameAlg parentSymmetricAlg []
      symmetricAlg innerSymKey' rfl]
    simp only [removeInnerAndUnmarshal, hw]
  have hs : ∀ b, marshalSensitiveSized codec sensitive = .ok b →
      SensitiveToDuplicate c codec rand sensitive name parent [] symmetricAlg innerSymKey
        = .ret (none, some b, none) := by
    intro b hb
    simp [SensitiveToDuplicate, hb, hw, applyOuterWrapper]
  refine ⟨?_, hs, ?_, ?_, ?_⟩
  · intro e he
    simp only [SensitiveToDuplicate, he]
  · intro body hbody hlen
    apply hs
    simp only [marshalSensitiveSized, hbody, marshalSized, hlen, if_true]
  · intro blob parentNameAlg parentSymmetricAlg
    exact hd c blob name innerSymKey parentNameAlg parentSymmetricAlg
  · intro c' blob name' innerSymKey' parentNameAlg parentSymmetricAlg
    rw [hd, hd]

/-- C20, on concrete inputs: with no seed and no inner algorithm (nil, or the null
algorithm with a key) the blob of `demoPayload` is its size-prefixed encoding, and it
unwraps to `demoPayload` under another name and key. -/
theorem no_wrapper_passthrough_witness :
    SensitiveToDuplicate demoCrypto demoCodec demoEntropy demoPayload demoName demoParent []
        none []
      = .ret (none, some (putUint16 16 ++ demoPayload), none) ∧
    SensitiveToDuplicate demoCrypto demoCodec demoEntropy demoPayload demoName demoParent []
        (some ⟨SymObjectAlgorithmNull, 128⟩) demoKey
      = .ret (none, some (putUint16 16 ++ demoPayload), none) ∧
    DuplicateToSensitive demoCrypto demoCodec (putUint16 16 ++ demoPayload) demoSeed
        AlgorithmNull none [] (some ⟨SymObjectAlgorithmNull, 128⟩) demoKey
      = .ret (some demoPayload, none) := by
  have h1 := (no_wrapper_passthrough demoCrypto demoCodec demoEntropy demoPayload demoName
    demoParent [] none [] rfl (Or.inl rfl)).2.2.1 demoPayload rfl (by decide)
  have h2 := no_wrapper_passthrough demoCrypto demoCodec demoEntropy demoPayload demoName
    demoParent [] (some ⟨SymObjectAlgorithmNull, 128⟩) demoKey rfl (Or.inr ⟨_, rfl, rfl⟩)
  have h3 := (no_wrapper_passthrough demoCrypto demoCodec demoEntropy demoPayload demoSeed
    demoParent [] (some ⟨SymObjectAlgorithmNull, 128⟩) demoKey rfl
    (Or.inr ⟨_, rfl, rfl⟩)).2.2.2.1 (putUint16 16 ++ demoPayload) AlgorithmNull none
  refine ⟨h1, h2.2.2.1 demoPayload rfl (by decide), ?_⟩
  rw [h3]
  rfl

/-! ## C21: the layout of the outer wrapper -/

/-- The call `mu.MustMarshalToBytes(field, mu.RawBytes(raw))` returns exactly when the
field fits a 2-byte length, and then the 2-byte big-endian length, the field and the raw
bytes. -/
theorem mustMarshalSizedThenRaw_eq_some (field raw out : Bytes) :
    mustMarshalSizedThenRaw field raw = some out ↔
      field.length ≤ 65535 ∧ out = putUint16 field.length ++ field ++ raw := by
  unfold mustMarshalSizedThenRaw marshalSized
  by_cases h : field.length ≤ 65535
  · rw [if_pos h]
    constructor
    · intro h1
      cases h1
      exact ⟨h, rfl⟩
    · rintro ⟨_, h2⟩
      rw [h2]
  · rw [if_neg h]
    constructor
    · intro h1
      cases h1
    · rintro ⟨h1, _⟩
      exact absurd h1 h

theorem putUint16_length (n : Nat) : (putUint16 n).length = 2 := rfl

theorem demoCipher_length (alg : SymObjectAlgorithmId) (key iv p ct : Bytes)
    (h : demoCipher alg key iv p = .ok ct) : ct.length = p.length := by
  unfold demoCipher at h
  split at h
  · cases h
  · split at h
    · cases h
    · cases h
      rw [List.length_map]

theorem demoHash_length (alg : HashAlgorithmId) (m mac : Bytes)
    (h : demoHash alg m = some mac) : mac.length = 2 := by
  unfold demoHash at h
  split at h
  · cases h
    rfl
  · cases h

/-- C21: `ProduceOuterWrap` is encrypt-then-MAC. It returns a blob exactly when the storage
key `KDFa(nameAlg, seed, "STORAGE", name, empty, symmetric key bits)` and the HMAC key
`KDFa(nameAlg, seed, "INTEGRITY", empty, empty, 8 * digest size)` can be derived, the
encryption of `data` under the storage key and the zero IV succeeds, and the HMAC of
`ciphertext ++ name` fits a 2-byte length; the blob is then the 2-byte big-endian length of
the integrity value, the integrity value, and the ciphertext. The HMAC covers the
ciphertext, and its key is derived without the name. When the cipher keeps the length of
its input and the HMAC has the digest size, the ciphertext is as long as `data` and the
blob has `2 + digest size + len(data)` bytes. -/
theorem ProduceOuterWrap_layout (c : Crypto)
    (hcipher : ∀ alg key iv p ct, c.encrypt alg key iv p = .ok ct → ct.length = p.length)
    (hmacLen : ∀ alg key m mac, c.hmac alg key m = some mac → mac.length = c.digestSize alg)
    (protector : Public) (name seed data out : Bytes) :
    (ProduceOuterWrap c protector name seed data = .ret (some out, none) ↔
      ∃ symmetric symKey ct hmacKey integrity,
        protector.AsymDetailSymmetric = some symmetric ∧
        c.kdfa protector.NameAlg seed StorageKey name [] symmetric.KeyBitsSym = some symKey ∧
        c.encrypt symmetric.Algorithm symKey
          (List.replicate (c.blockSize symmetric.Algorithm) 0) data = .ok ct ∧
        c.kdfa protector.NameAlg seed IntegrityKey [] []
          (c.digestSize protector.NameAlg * 8) = some hmacKey ∧
        c.hmac protector.NameAlg hmacKey (ct ++ name) = some integrity ∧
        integrity.length ≤ 65535 ∧
        out = putUint16 integrity.length ++ integrity ++ ct) ∧
    (ProduceOuterWrap c protector name seed data = .ret (some out, none) →
      out.length = 2 + c.digestSize protector.NameAlg + data.length ∧
      (out.drop (2 + c.digestSize protector.NameAlg)).length = data.length) := by
  have hfwd : ProduceOuterWrap c protector name seed data = .ret (some out, none) →
      ∃ symmetric symKey ct hmacKey integrity,
        protector.AsymDetailSymmetric = some symmetric ∧
        c.kdfa protector.NameAlg seed StorageKey name [] symmetric.KeyBitsSym = some symKey ∧
        c.encrypt symmetric.Algorithm symKey
          (List.replicate (c.blockSize symmetric.Algorithm) 0) data = .ok ct ∧
        c.kdfa protector.NameAlg seed IntegrityKey [] []
          (c.digestSize protector.NameAlg * 8) = some hmacKey ∧
        c.hmac protector.NameAlg hmacKey (ct ++ name) = some integrity ∧
        integrity.length ≤ 65535 ∧
        out = putUint16 integrity.length ++ integrity ++ ct := by
    intro h
    obtain ⟨symmetric, symKey, ct, hmacKey, integrity, out1, hsym, hk, hct, hhk, hint, hout,
      hres⟩ := ProduceOuterWrap_ok c protector name seed data _ h
    cases hres
    obtain ⟨hlen, ho⟩ := (mustMarshalSizedThenRaw_eq_some integrity ct out).1 hout
    exact ⟨symmetric, symKey, ct, hmacKey, integrity, hsym, hk, hct, hhk, hint, hlen, ho⟩
  refine ⟨⟨hfwd, ?_⟩, ?_⟩
  · rintro ⟨symmetric, symKey, ct, hmacKey, integrity, hsym, hk, hct, hhk, hint, hlen, ho⟩
    have hout := (mustMarshalSizedThenRaw_eq_some integrity ct out).2 ⟨hlen, ho⟩
    have hct1 : c.encrypt symmetric.Algorithm symKey (zeroIV c symmetric.Algorithm) data
        = .ok ct := hct
    unfold ProduceOuterWrap
    simp only [hsym, hk, hct1, hhk, hint, hout]
  · intro h
    obtain ⟨symmetric, symKey, ct, hmacKey, integrity, _, _, hct, _, hint, _, ho⟩ := hfwd h
    have h1 := hcipher _ _ _ _ _ hct
    have h2 := hmacLen _ _ _ _ hint
    subst ho
    constructor
    · simp only [List.length_append, putUint16_length, h1, h2]
    · rw [List.length_drop]
      simp only [List.length_append, putUint16_length, h1, h2]
      omega

/-- C21, on concrete inputs: the blob made of a 16-byte payload under a two-byte checksum
has 2 + 2 + 16 bytes, and its last 16 bytes are the ciphertext. -/
theorem ProduceOuterWrap_layout_witness :
    ProduceOuterWrap demoCrypto demoParent demoName demoSeed demoPayload
      = .ret (some [0, 2, 226, 100, 27, 24, 25, 30, 31, 28, 29, 18, 19, 16, 17, 22, 23, 20,
        21, 10], none) ∧
    demoCrypto.hmac AlgorithmSHA256 [191, 192]
      ([27, 24, 25, 30, 31, 28, 29, 18, 19, 16, 17, 22, 23, 20, 21, 10] ++ demoName)
      = some [226, 100] ∧
    ([0, 2, 226, 100, 27, 24, 25, 30, 31, 28, 29, 18, 19, 16, 17, 22, 23, 20, 21,
      10] : Bytes).length = 2 + demoCrypto.digestSize demoParent.NameAlg + demoPayload.length :=
  ⟨by rfl, by rfl,
    ((ProduceOuterWrap_layout demoCrypto
      (fun alg key iv p ct h => demoCipher_length alg key iv p ct h)
      (fun alg key m mac h => demoHash_length alg (key ++ m) mac h)
      demoParent demoName demoSeed demoPayload _).2 (by rfl)).1⟩

/-! ## C22, C23: the inner wrapper and its key -/

/-- What a successful `applyOuterWrapper` returned: the key it was handed, and either the
bytes as they are (no seed) or the result of `ProduceOuterWrap` on them. -/
theorem applyOuterWrapper_ok (c : Crypto) (parent : Public) (name seed : Bytes)
    (keyOut0 : Option Bytes) (inner : Bytes) (keyOut blob : Option Bytes)
    (h : applyOuterWrapper c parent name seed keyOut0 inner = .ret (keyOut, blob, none)) :
    keyOut = keyOut0 ∧ (seed.length = 0 → blob = some inner) ∧
      (seed.length > 0 → ProduceOuterWrap c parent name seed inner = .ret (blob, none)) := by
  unfold applyOuterWrapper at h
  split at h
  · rename_i hs
    split at h
    · cases h
    · cases h
    · rename_i res hp
      cases h
      exact ⟨rfl, fun h0 => by omega, fun _ => hp⟩
  · rename_i hs
    cases h
    exact ⟨rfl, fun _ => rfl, fun h0 => absurd h0 hs⟩

/-- With an inner wrapper, what a successful `SensitiveToDuplicate` computed: the
size-prefixed `Sensitive`, its digest with the name, the key (read from the entropy source
when none was given), the encryption of the framed digest and `Sensitive`, and the outer
step. -/
theorem SensitiveToDuplicate_inner_shape {S : Type} (c : Crypto) (codec : SensitiveCodec S)
    (rand : Entropy) (sensitive : S) (name : Bytes) (parent : Public) (seed : Bytes)
    (symmetricAlg : Option SymDefObject) (sym : SymDefObject) (innerSymKey : Bytes)
    (keyOut blob : Option Bytes)
    (hsym : hasInnerWrapper symmetricAlg = some sym)
    (h : SensitiveToDuplicate c codec rand sensitive name parent seed symmetricAlg innerSymKey
      = .ret (keyOut, blob, none)) :
    ∃ M I key ct,
      marshalSensitiveSized codec sensitive = .ok M ∧
      c.hash (c.nameAlgorithm name) (M ++ name) = some I ∧
      I.length ≤ 65535 ∧
      (innerSymKey.length = 0 →
        randRead rand (sym.KeyBitsSym / 8) = .ok key ∧ keyOut = some key) ∧
      (innerSymKey.length ≠ 0 → key = innerSymKey ∧ keyOut = none) ∧
      c.encrypt sym.Algorithm key (zeroIV c sym.Algorithm) (putUint16 I.length ++ I ++ M)
        = .ok ct ∧
      (seed.length = 0 → blob = some ct) ∧
      (seed.length > 0 → ProduceOuterWrap c parent name seed ct = .ret (blob, none)) := by
  unfold SensitiveToDuplicate at h
  split at h
  · cases h
  · rename_i M hM
    rw [hsym] at h
    simp only at h
    split at h
    · cases h
    · rename_i I hI
      split at h
      · cases h
      · rename_i framed hfr
        obtain ⟨hlen, hframed⟩ := (mustMarshalSizedThenRaw_eq_some I M framed).1 hfr
        subst hframed
        split at h
        · rename_i hk0
          split at h
          · cases h
          · rename_i key hkey
            split at h
            · cases h
            · rename_i ct hct
              obtain ⟨hko, hb0, hb1⟩ := applyOuterWrapper_ok c parent name seed _ ct _ _ h
              exact ⟨M, I, key, ct, hM, hI, hlen, fun _ => ⟨hkey, hko⟩,
                fun hne => absurd hk0 hne, hct, hb0, hb1⟩
        · rename_i hk0
          split at h
          · cases h
          · rename_i ct hct
            obtain ⟨hko, hb0, hb1⟩ := applyOuterWrapper_ok c parent name seed _ ct _ _ h
            exact ⟨M, I, innerSymKey, ct, hM, hI, hlen, fun h0 => absurd h0 hk0,
              fun _ => ⟨rfl, hko⟩, hct, hb0, hb1⟩

theorem randRead_length (rand : Entropy) (n : Nat) (b : Bytes)
    (h : randRead rand n = .ok b) : b.length = n := by
  unfold randRead at h
  split at h
  · cases h
  · cases h
    rw [List.length_map, List.length_range]

/-- Without an inner wrapper `SensitiveToDuplicate` does not look at the inner key. -/
theorem SensitiveToDuplicate_no_inner {S : Type} (c : Crypto) (codec : SensitiveCodec S)
    (rand : Entropy) (sensitive : S) (name : Bytes) (parent : Public) (seed : Bytes)
    (symmetricAlg : Option SymDefObject) (innerSymKey : Bytes)
    (hsym : hasInnerWrapper symmetricAlg = none) :
    SensitiveToDuplicate c codec rand sensitive name parent seed symmetricAlg innerSymKey
      = match marshalSensitiveSized codec sensitive with
        | .error e => .ret (none, none, some (.wrap "cannot marshal sensitive" e))
        | .ok duplicate => applyOuterWrapper c parent name seed none duplicate := by
  unfold SensitiveToDuplicate
  rw [hsym]

/-- C22: the inner wrapper is MAC-then-encrypt. When `SensitiveToDuplicate` succeeds with
an inner wrapper, then with `M` the size-prefixed marshalling of the `Sensitive` and
`I` the hash of `M ++ name` under the algorithm of the name, the inner blob is the
encryption, under the inner key and the zero IV, of the 2-byte big-endian length of `I`,
then `I`, then `M`. Without a seed that is the returned blob; with a seed the returned blob
is the outer wrap of it. -/
theorem inner_wrapper_layout {S : Type} (c : Crypto) (codec : SensitiveCodec S)
    (rand : Entropy) (sensitive : S) (name : Bytes) (parent : Public) (seed : Bytes)
    (symmetricAlg : Option SymDefObject) (sym : SymDefObject) (innerSymKey : Bytes)
    (keyOut blob : Option Bytes)
    (hsym : hasInnerWrapper symmetricAlg = some sym)
    (h : SensitiveToDuplicate c codec rand sensitive name parent seed symmetricAlg innerSymKey
      = .ret (keyOut, blob, none)) :
    ∃ M I innerKey ct,
      marshalSensitiveSized codec sensitive = .ok M ∧
      c.hash (c.nameAlgorithm name) (M ++ name) = some I ∧
      (innerSymKey.length ≠ 0 → innerKey = innerSymKey) ∧
      (innerSymKey.length = 0 → keyOut = some innerKey) ∧
      c.encrypt sym.Algorithm innerKey (List.replicate (c.blockSize sym.Algorithm) 0)
        (putUint16 I.length ++ I ++ M) = .ok ct ∧
      (seed.length = 0 → blob = some ct) ∧
      (seed.length > 0 → ProduceOuterWrap c parent name seed ct = .ret (blob, none)) := by
  obtain ⟨M, I, key, ct, hM, hI, _, hk0, hk1, hct, hb0, hb1⟩ :=
    SensitiveToDuplicate_inner_shape c codec rand sensitive name parent seed symmetricAlg sym
      innerSymKey keyOut blob hsym h
  exact ⟨M, I, key, ct, hM, hI, fun hne => (hk1 hne).1, fun h0 => (hk0 h0).2, hct, hb0, hb1⟩

/-- C22, on concrete inputs: AES-128 inner wrapper under `demoKey`, no seed. The
size-prefixed payload is `0, 16` and the payload, its digest with the name is `147, 11`,
and the blob is the encryption of `0, 2, 147, 11, 0, 16` and the payload. -/
theorem inner_wrapper_layout_witness :
    SensitiveToDuplicate demoCrypto demoCodec demoEntropy demoPayload demoName demoParent []
      (some ⟨AlgorithmAES, 128⟩) demoKey = .ret (none, some demoInnerBlob, none) ∧
    demoCrypto.hash (demoCrypto.nameAlgorithm demoName) ((0 :: 16 :: demoPayload) ++ demoName)
      = some [147, 11] ∧
    demoCrypto.encrypt AlgorithmAES demoKey (List.replicate 16 0)
      ([0, 2] ++ [147, 11] ++ (0 :: 16 :: demoPayload)) = .ok demoInnerBlob ∧
    ∃ M I innerKey ct,
      marshalSensitiveSized demoCodec demoPayload = .ok M ∧
      demoCrypto.hash (demoCrypto.nameAlgorithm demoName) (M ++ demoName) = some I ∧
      (demoKey.length ≠ 0 → innerKey = demoKey) ∧
      (demoKey.length = 0 → (none : Option Bytes) = some innerKey) ∧
      demoCrypto.encrypt AlgorithmAES innerKey
        (List.replicate (demoCrypto.blockSize AlgorithmAES) 0)
        (putUint16 I.length ++ I ++ M) = .ok ct ∧
      (([] : Bytes).length = 0 → some demoInnerBlob = some ct) ∧
      (([] : Bytes).length > 0 →
        ProduceOuterWrap demoCrypto demoParent demoName [] ct
          = .ret (some demoInnerBlob, none)) :=
  ⟨by rfl, by rfl, by rfl,
    inner_wrapper_layout demoCrypto demoCodec demoEntropy demoPayload demoName demoParent []
      (some ⟨AlgorithmAES, 128⟩) ⟨AlgorithmAES, 128⟩ demoKey none (some demoInnerBlob)
      (by rfl) (by rfl)⟩

/-- C23: the inner key. With an inner wrapper and an empty `innerSymKey`, a successful
`SensitiveToDuplicate` read a key of exactly `KeyBits.Sym / 8` bytes from the entropy
source, encrypted with it and returned it as the first result. With an inner wrapper and a
non-empty `innerSymKey`, it encrypted with that key and the first result is nil. Without an
inner wrapper the first result is nil and the result does not depend on `innerSymKey`. -/
theorem inner_key_handling {S : Type} (c : Crypto) (codec : SensitiveCodec S)
    (rand : Entropy) (sensitive : S) (name : Bytes) (parent : Public) (seed : Bytes)
    (symmetricAlg : Option SymDefObject) (innerSymKey : Bytes)
    (keyOut blob : Option Bytes)
    (h : SensitiveToDuplicate c codec rand sensitive name parent seed symmetricAlg innerSymKey
      = .ret (keyOut, blob, none)) :
    (∀ sym, hasInnerWrapper symmetricAlg = some sym → innerSymKey.length = 0 →
      ∃ key plain ct, randRead rand (sym.KeyBitsSym / 8) = .ok key ∧
        key.length = sym.KeyBitsSym / 8 ∧ keyOut = some key ∧
        c.encrypt sym.Algorithm key (zeroIV c sym.Algorithm) plain = .ok ct ∧
        (seed.length = 0 → blob = some ct) ∧
        (seed.length > 0 → ProduceOuterWrap c parent name seed ct = .ret (blob, none))) ∧
    (∀ sym, hasInnerWrapper symmetricAlg = some sym → innerSymKey.length ≠ 0 →
      keyOut = none ∧
      ∃ plain ct,
        c.encrypt sym.Algorithm innerSymKey (zeroIV c sym.Algorithm) plain = .ok ct ∧
        (seed.length = 0 → blob = some ct) ∧
        (seed.length > 0 → ProduceOuterWrap c parent name seed ct = .ret (blob, none))) ∧
    (hasInnerWrapper symmetricAlg = none →
      keyOut = none ∧
      ∀ other, SensitiveToDuplicate c codec rand sensitive name parent seed symmetricAlg other
        = .ret (keyOut, blob, none)) := by
  refine ⟨?_, ?_, ?_⟩
  · intro sym hsym h0
    obtain ⟨M, I, key, ct, _, _, _, hk0, _, hct, hb0, hb1⟩ :=
      SensitiveToDuplicate_inner_shape c codec rand sensitive name parent seed symmetricAlg
        sym innerSymKey keyOut blob hsym h
    exact ⟨key, _, ct, (hk0 h0).1, randRead_length rand _ key (hk0 h0).1, (hk0 h0).2, hct,
      hb0, hb1⟩
  · intro sym hsym hne
    obtain ⟨M, I, key, ct, _, _, _, _, hk1, hct, hb0, hb1⟩ :=
      SensitiveToDuplicate_inner_shape c codec rand sensitive name parent seed symmetricAlg
        sym innerSymKey keyOut blob hsym h
    obtain ⟨hkey, hko⟩ := hk1 hne
    subst hkey
    exact ⟨hko, _, ct, hct, hb0, hb1⟩
  · intro hsym
    have hind : ∀ other,
        SensitiveToDuplicate c codec rand sensitive name parent seed symmetricAlg other
          = .ret (keyOut, blob, none) := by
      intro other
      rw [SensitiveToDuplicate_no_inner c codec rand sensitive name parent seed symmetricAlg
        other hsym, ← SensitiveToDuplicate_no_inner c codec rand sensitive name parent seed
        symmetricAlg innerSymKey hsym]
      exact h
    refine ⟨?_, hind⟩
    rw [SensitiveToDuplicate_no_inner c codec rand sensitive name parent seed symmetricAlg
      innerSymKey hsym] at h
    split at h
    · cases h
    · exact (applyOuterWrapper_ok c parent name seed none _ keyOut blob h).1

/-- C23, on concrete inputs: with the AES-128 inner wrapper and no key given, the call
returns the 16 bytes it read from the entropy source; the blob differs from the one made
under `demoKey`. -/
theorem inner_key_handling_witness :
    SensitiveToDuplicate demoCrypto demoCodec demoEntropy demoPayload demoName demoParent []
      (some ⟨AlgorithmAES, 128⟩) []
      = .ret (some [1, 4, 7, 10, 13, 16, 19, 22, 25, 28, 31, 34, 37, 40, 43, 46],
        some [122, 120, 233, 113, 122, 106, 59, 56, 57, 62, 63, 60, 61, 50, 51, 48, 49, 54,
          55, 52, 53, 42], none) ∧
    ∃ key plain ct, randRead demoEntropy (128 / 8) = .ok key ∧
      key.length = 128 / 8 ∧
      some [1, 4, 7, 10, 13, 16, 19, 22, 25, 28, 31, 34, 37, 40, 43, 46] = some key ∧
      demoCrypto.encrypt AlgorithmAES key (zeroIV demoCrypto AlgorithmAES) plain = .ok ct ∧
      (([] : Bytes).length = 0 →
        some [122, 120, 233, 113, 122, 106, 59, 56, 57, 62, 63, 60, 61, 50, 51, 48, 49, 54,
          55, 52, 53, 42] = some ct) ∧
      (([] : Bytes).length > 0 →
        ProduceOuterWrap demoCrypto demoParent demoName [] ct
          = .ret (some [122, 120, 233, 113, 122, 106, 59, 56, 57, 62, 63, 60, 61, 50, 51, 48,
            49, 54, 55, 52, 53, 42], none)) :=
  ⟨by rfl,
    (inner_key_handling demoCrypto demoCodec demoEntropy demoPayload demoName demoParent []
      (some ⟨AlgorithmAES, 128⟩) [] _ _ (by rfl)).1 ⟨AlgorithmAES, 128⟩ (by rfl) (by rfl)⟩

/-! ## C24: malformed length-prefixed fields -/

/-- A length-prefixed field cannot be read exactly when there are fewer than 2 bytes, or
the 2-byte big-endian length at the front is larger than the number of bytes after it. -/
theorem unmarshalSized_error_iff (blob : Bytes) :
    (∃ e, unmarshalSized blob = .error e) ↔
      (blob.length < 2 ∨
        blob.length - 2 < (blob.getD 0 0).toNat * 256 + (blob.getD 1 0).toNat) := by
  match blob with
  | [] => exact ⟨fun _ => Or.inl (by decide), fun _ => ⟨_, rfl⟩⟩
  | [_] => exact ⟨fun _ => Or.inl (Nat.lt_succ_self 1), fun _ => ⟨_, rfl⟩⟩
  | b0 :: b1 :: rest =>
    unfold unmarshalSized
    simp only [List.getD_cons_zero, List.getD_cons_succ, List.length_cons,
      Nat.add_sub_cancel]
    by_cases hle : b0.toNat * 256 + b1.toNat ≤ rest.length
    · rw [if_pos hle]
      constructor
      · rintro ⟨e, he⟩
        cases he
      · rintro (h | h)
        · omega
        · omega
    · rw [if_neg hle]
      exact ⟨fun _ => Or.inr (by omega), fun _ => ⟨_, rfl⟩⟩

/-- C24: a malformed length-prefixed field is rejected. For a blob of fewer than 2 bytes,
or whose leading 2-byte big-endian length is larger than the number of bytes that follow,
there is an error `e` of the reader such that: `UnwrapOuter` returns no data and
`cannot unpack integrity digest: e`, whatever the cryptographic primitives, algorithms,
name and seed (no HMAC is computed and nothing is decrypted); `DuplicateToSensitive` with a
seed passes this on under `cannot unwrap outer wrapper`; when the inner decryption yields
such a blob, `DuplicateToSensitive` returns no `Sensitive` and
`cannot unpack inner integrity digest: e`; and when such a blob is what is left to
unmarshal as the size-prefixed `Sensitive`, it returns no `Sensitive` and
`cannot unmarhsal sensitive: e`. -/
theorem malformed_fields_rejected (blob : Bytes)
    (hbad : blob.length < 2 ∨
      blob.length - 2 < (blob.getD 0 0).toNat * 256 + (blob.getD 1 0).toNat) :
    ∃ e : Err,
      (∀ (c : Crypto) (hashAlg : HashAlgorithmId) (symmetricAlg : Option SymDefObject)
          (name seed : Bytes),
        UnwrapOuter c hashAlg symmetricAlg name seed blob
          = .ret (none, some (.wrap "cannot unpack integrity digest" e))) ∧
      (∀ (S : Type) (c : Crypto) (codec : SensitiveCodec S) (name : Bytes)
          (parentNameAlg : HashAlgorithmId) (parentSymmetricAlg : Option SymDefObject)
          (seed : Bytes) (symmetricAlg : Option SymDefObject) (innerSymKey : Bytes),
        seed.length > 0 →
        DuplicateToSensitive c codec blob name parentNameAlg parentSymmetricAlg seed
          symmetricAlg innerSymKey
          = .ret (none, some (.wrap "cannot unwrap outer wrapper"
            (.wrap "cannot unpack integrity digest" e)))) ∧
      (∀ (S : Type) (c : Crypto) (codec : SensitiveCodec S) (duplicate name : Bytes)
          (parentNameAlg : HashAlgorithmId) (parentSymmetricAlg : Option SymDefObject)
          (symmetricAlg : Option SymDefObject) (sym : SymDefObject) (innerSymKey : Bytes),
        hasInnerWrapper symmetricAlg = some sym →
        c.decrypt sym.Algorithm innerSymKey (zeroIV c sym.Algorithm) duplicate = .ok blob →
        DuplicateToSensitive c codec duplicate name parentNameAlg parentSymmetricAlg []
          symmetricAlg innerSymKey
          = .ret (none, some (.wrap "cannot unpack inner integrity digest" e))) ∧
      (∀ (S : Type) (c : Crypto) (codec : SensitiveCodec S) (name : Bytes)
          (parentNameAlg : HashAlgorithmId) (parentSymmetricAlg : Option SymDefObject)
          (symmetricAlg : Option SymDefObject) (innerSymKey : Bytes),
        hasInnerWrapper symmetricAlg = none →
        DuplicateToSensitive c codec blob name parentNameAlg parentSymmetricAlg []
          symmetricAlg innerSymKey
          = .ret (none, some (.wrap "cannot unmarhsal sensitive" e))) ∧
      (∀ (S : Type) (c : Crypto) (codec : SensitiveCodec S) (duplicate name : Bytes)
          (parentNameAlg : HashAlgorithmId) (parentSymmetricAlg : Option SymDefObject)
          (symmetricAlg : Option SymDefObject) (sym : SymDefObject)
          (innerSymKey pt innerIntegrity : Bytes),
        hasInnerWrapper symmetricAlg = some sym →
        c.decrypt sym.Algorithm innerSymKey (zeroIV c sym.Algorithm) duplicate = .ok pt →
        unmarshalSized pt = .ok (innerIntegrity, blob) →
        c.hash (c.nameAlgorithm name) (blob ++ name) = some innerIntegrity →
        DuplicateToSensitive c codec duplicate name parentNameAlg parentSymmetricAlg []
          symmetricAlg innerSymKey
          = .ret (none, some (.wrap "cannot unmarhsal sensitive" e))) := by
  obtain ⟨e, he⟩ := (unmarshalSized_error_iff blob).2 hbad
  have hu : ∀ (c : Crypto) (hashAlg : HashAlgorithmId) (symmetricAlg : Option SymDefObject)
      (name seed : Bytes),
      UnwrapOuter c hashAlg symmetricAlg name seed blob
        = .ret (none, some (.wrap "cannot unpack integrity digest" e)) := by
    intro c hashAlg symmetricAlg name seed
    unfold UnwrapOuter
    simp only [he]
  have hfinal : ∀ (S : Type) (codec : SensitiveCodec S),
      unmarshalDuplicate codec blob
        = .ret (none, some (.wrap "cannot unmarhsal sensitive" e)) := by
    intro S codec
    unfold unmarshalDuplicate unmarshalSensitiveSized
    simp only [he]
  refine ⟨e, hu, ?_, ?_, ?_, ?_⟩
  · intro S c codec name parentNameAlg parentSymmetricAlg seed symmetricAlg innerSymKey hseed
    unfold DuplicateToSensitive
    rw [if_pos hseed, hu]
  · intro S c codec duplicate name parentNameAlg parentSymmetricAlg symmetricAlg sym
      innerSymKey hsym hd
    rw [DuplicateToSensitive_no_seed c codec duplicate name parentNameAlg parentSymmetricAlg
      [] symmetricAlg innerSymKey rfl]
    exact removeInner_malformed c codec duplicate name symmetricAlg sym innerSymKey blob e
      hsym hd he
  · intro S c codec name parentNameAlg parentSymmetricAlg symmetricAlg innerSymKey hsym
    rw [DuplicateToSensitive_no_seed c codec blob name parentNameAlg parentSymmetricAlg
      [] symmetricAlg innerSymKey rfl]
    unfold removeInnerAndUnmarshal
    rw [hsym]
    exact hfinal S codec
  · intro S c codec duplicate name parentNameAlg parentSymmetricAlg symmetricAlg sym
      innerSymKey pt innerIntegrity hsym hd hpt hh
    rw [DuplicateToSensitive_no_seed c codec duplicate name parentNameAlg parentSymmetricAlg
      [] symmetricAlg innerSymKey rfl]
    unfold removeInnerAndUnmarshal
    simp only [hsym, hd, hpt, hh, ne_eq, not_true_eq_false, if_false]
    exact hfinal S codec

/-- C24, on concrete inputs: the blob `0, 5, 1, 2` announces 5 bytes and carries 2; the
one-byte blob `7` has no length prefix. -/
theorem malformed_fields_rejected_witness :
    UnwrapOuter demoCrypto AlgorithmSHA256 (some ⟨AlgorithmAES, 128⟩) demoName demoSeed
      [0, 5, 1, 2]
      = .ret (none, some (.wrap "cannot unpack integrity digest" (.msg "unexpected EOF"))) ∧
    DuplicateToSensitive demoCrypto demoCodec [7] demoName AlgorithmSHA256
      (some ⟨AlgorithmAES, 128⟩) [] none []
      = .ret (none, some (.wrap "cannot unmarhsal sensitive" (.msg "EOF"))) ∧
    ∃ e : Err,
      (∀ (c : Crypto) (hashAlg : HashAlgorithmId) (symmetricAlg : Option SymDefObject)
          (name seed : Bytes),
        UnwrapOuter c hashAlg symmetricAlg name seed [0, 5, 1, 2]
          = .ret (none, some (.wrap "cannot unpack integrity digest" e))) :=
  ⟨by rfl, by rfl,
    (malformed_fields_rejected [0, 5, 1, 2] (Or.inr (by decide))).imp (fun _ h => h.1)⟩

/-! ## C29: what the outer integrity check binds -/

/-- C29: the outer integrity check binds only the concatenation `data ++ name`. For two
blobs with the same integrity field and remainders `data` and `data'`, and names `name`
and `name'` with `data ++ name = data' ++ name'`, the HMAC that `UnwrapOuter` recomputes is
the same: the integrity check fails for one call exactly when it fails for the other, and
when `UnwrapOuter` returns data for the first, the integrity field is the HMAC of
`data' ++ name'` under the same key and the second call does not end with the integrity
error. -/
theorem outer_integrity_binds_concatenation (c : Crypto) (hashAlg : HashAlgorithmId)
    (symmetricAlg symmetricAlg' : Option SymDefObject)
    (name name' seed integrity data data' blob blob' : Bytes)
    (hcat : data ++ name = data' ++ name')
    (hb : unmarshalSized blob = .ok (integrity, data))
    (hb' : unmarshalSized blob' = .ok (integrity, data')) :
    (UnwrapOuter c hashAlg symmetricAlg name seed blob
        = .ret (none, some (.msg "integrity digest is invalid")) ↔
      UnwrapOuter c hashAlg symmetricAlg' name' seed blob'
        = .ret (none, some (.msg "integrity digest is invalid"))) ∧
    (∀ d, UnwrapOuter c hashAlg symmetricAlg name seed blob = .ret (some d, none) →
      (∃ hmacKey,
        c.kdfa hashAlg seed IntegrityKey [] [] (c.digestSize hashAlg * 8) = some hmacKey ∧
        c.hmac hashAlg hmacKey (data' ++ name') = some integrity) ∧
      UnwrapOuter c hashAlg symmetricAlg' name' seed blob'
        ≠ .ret (none, some (.msg "integrity digest is invalid"))) := by
  have key : ∀ (sa : Option SymDefObject) (n b dt : Bytes),
      unmarshalSized b = .ok (integrity, dt) → dt ++ n = data ++ name →
      (UnwrapOuter c hashAlg sa n seed b
          = .ret (none, some (.msg "integrity digest is invalid")) ↔
        ∃ hmacKey mac,
          c.kdfa hashAlg seed IntegrityKey [] [] (c.digestSize hashAlg * 8) = some hmacKey ∧
          c.hmac hashAlg hmacKey (data ++ name) = some mac ∧ mac ≠ integrity) := by
    intro sa n b dt hu hdn
    constructor
    · intro h
      unfold UnwrapOuter at h
      rw [hu] at h
      simp only at h
      rw [hdn] at h
      split at h
      · cases h
      · rename_i hmacKey hk
        split at h
        · cases h
        · rename_i mac hm
          split at h
          · rename_i hne
            exact ⟨hmacKey, mac, hk, hm, hne⟩
          · split at h
            · cases h
            · split at h
              · cases h
              · split at h
                · cases h
                · cases h
    · rintro ⟨hmacKey, mac, hk, hm, hne⟩
      rw [← hdn] at hm
      exact UnwrapOuter_mismatch c hashAlg sa n seed b integrity dt hmacKey mac hu hk hm hne
  have hiff := (key symmetricAlg name blob data hb rfl).trans
    (key symmetricAlg' name' blob' data' hb' hcat.symm).symm
  refine ⟨hiff, ?_⟩
  intro d hd
  obtain ⟨integrity1, rest, hmacKey, _, _, hu, hk, hm, _, _, _, _⟩ :=
    UnwrapOuter_data c hashAlg symmetricAlg name seed blob d none hd
  rw [hb] at hu
  cases hu
  refine ⟨⟨hmacKey, hk, ?_⟩, ?_⟩
  · rw [← hcat]
    exact hm
  · intro hbad
    have h1 := hiff.2 hbad
    rw [hd] at h1
    cases h1

/-- C29, on concrete inputs: the blob that `ProduceOuterWrap` made for `demoName` is
accepted; so is the blob without its last byte when that byte, 10, is put in front of the
name, although this is another name and another ciphertext. -/
theorem outer_integrity_binds_concatenation_witness :
    UnwrapOuter demoCrypto AlgorithmSHA256 (some ⟨AlgorithmAES, 128⟩) demoName demoSeed
      [0, 2, 226, 100, 27, 24, 25, 30, 31, 28, 29, 18, 19, 16, 17, 22, 23, 20, 21, 10]
      = .ret (some demoPayload, none) ∧
    (∃ d, UnwrapOuter demoCrypto AlgorithmSHA256 (some ⟨AlgorithmAES, 128⟩) (10 :: demoName)
      demoSeed [0, 2, 226, 100, 27, 24, 25, 30, 31, 28, 29, 18, 19, 16, 17, 22, 23, 20, 21]
      = .ret (some d, none)) ∧
    UnwrapOuter demoCrypto AlgorithmSHA256 (some ⟨AlgorithmAES, 128⟩) (10 :: demoName)
      demoSeed [0, 2, 226, 100, 27, 24, 25, 30, 31, 28, 29, 18, 19, 16, 17, 22, 23, 20, 21]
      ≠ .ret (none, some (.msg "integrity digest is invalid")) :=
  ⟨by rfl, ⟨_, by rfl⟩,
    ((outer_integrity_binds_concatenation demoCrypto AlgorithmSHA256
      (some ⟨AlgorithmAES, 128⟩) (some ⟨AlgorithmAES, 128⟩) demoName (10 :: demoName) demoSeed
      [226, 100] [27, 24, 25, 30, 31, 28, 29, 18, 19, 16, 17, 22, 23, 20, 21, 10]
      [27, 24, 25, 30, 31, 28, 29, 18, 19, 16, 17, 22, 23, 20, 21]
      [0, 2, 226, 100, 27, 24, 25, 30, 31, 28, 29, 18, 19, 16, 17, 22, 23, 20, 21, 10]
      [0, 2, 226, 100, 27, 24, 25, 30, 31, 28, 29, 18, 19, 16, 17, 22, 23, 20, 21]
      (by rfl) (by rfl) (by rfl)).2 demoPayload (by rfl)).2⟩

/-! ## C25, C26: NewSealedObject -/

/-- Clearing the bits of `m` clears every set of bits inside `m`. -/
theorem bitClear_and (a m k : Nat) (hk : k &&& m = k) : bitClear a m &&& k = 0 := by
  apply Nat.eq_of_testBit_eq
  intro i
  have hki := congrArg (fun x => x.testBit i) hk
  simp only [Nat.testBit_and] at hki
  simp only [bitClear, Nat.testBit_and, Nat.testBit_xor, Nat.zero_testBit]
  revert hki
  cases a.testBit i <;> cases m.testBit i <;> cases k.testBit i <;> simp

/-- What `NewSealedObject` does when the hash `nameAlg.NewHash()` of the argument is
available: it panics exactly when `authValue` is longer than the digest size of the name
algorithm of the public area; otherwise the sensitive area is a keyed-hash object with the
data, a seed of the digest size and the zero-padded `authValue`, the public area has
neither `AttrFixedTPM` nor `AttrFixedParent`, and its `Unique` is the digest of
`SeedValue ++ data` under the argument `nameAlg`. -/
theorem NewSealedObject_of_available (c : Crypto) (template : HashAlgorithmId → Public)
    (rand : Entropy) (nameAlg : HashAlgorithmId) (authValue data : Bytes)
    (havail : ∀ m, c.hash nameAlg m ≠ none) :
    ((∃ r, NewSealedObject c template rand nameAlg authValue data = .panic r) ↔
      authValue.length > c.digestSize (template nameAlg).NameAlg) ∧
    (authValue.length ≤ c.digestSize (template nameAlg).NameAlg →
      ∃ pub s digest, NewSealedObject c template rand nameAlg authValue data = .ret (pub, s) ∧
        s.ObjectType = ObjectTypeKeyedHash ∧ s.Bits = data ∧
        s.SeedValue.length = c.digestSize (template nameAlg).NameAlg ∧
        s.AuthValue = authValue ++
          List.replicate (c.digestSize (template nameAlg).NameAlg - authValue.length) 0 ∧
        s.AuthValue.length = c.digestSize (template nameAlg).NameAlg ∧
        pub.Attrs &&& AttrFixedTPM = 0 ∧ pub.Attrs &&& AttrFixedParent = 0 ∧
        pub.NameAlg = (template nameAlg).NameAlg ∧
        c.hash nameAlg (s.SeedValue ++ data) = some digest ∧
        pub.Unique = some (.KeyedHash digest)) := by
  have hret : authValue.length ≤ c.digestSize (template nameAlg).NameAlg →
      ∃ pub s digest, NewSealedObject c template rand nameAlg authValue data = .ret (pub, s) ∧
        s.ObjectType = ObjectTypeKeyedHash ∧ s.Bits = data ∧
        s.SeedValue.length = c.digestSize (template nameAlg).NameAlg ∧
        s.AuthValue = authValue ++
          List.replicate (c.digestSize (template nameAlg).NameAlg - authValue.length) 0 ∧
        s.AuthValue.length = c.digestSize (template nameAlg).NameAlg ∧
        pub.Attrs &&& AttrFixedTPM = 0 ∧ pub.Attrs &&& AttrFixedParent = 0 ∧
        pub.NameAlg = (template nameAlg).NameAlg ∧
        c.hash nameAlg (s.SeedValue ++ data) = some digest ∧
        pub.Unique = some (.KeyedHash digest) := by
    intro hle
    have hseed : ∃ seed,
        (match randRead rand (c.digestSize (template nameAlg).NameAlg) with
          | .ok b => b
          | .error _ => List.replicate (c.digestSize (template nameAlg).NameAlg) 0) = seed ∧
        seed.length = c.digestSize (template nameAlg).NameAlg := by
      cases hr : randRead rand (c.digestSize (template nameAlg).NameAlg) with
      | error e => exact ⟨_, rfl, List.length_replicate _ _⟩
      | ok b => exact ⟨b, rfl, randRead_length rand _ b hr⟩
    obtain ⟨seed, hseedeq, hseedlen⟩ := hseed
    cases hd : c.hash nameAlg (seed ++ data) with
    | none => exact absurd hd (havail _)
    | some digest =>
      refine ⟨{ template nameAlg with
          Attrs := bitClear (template nameAlg).Attrs (AttrFixedTPM ||| AttrFixedParent)
          Unique := some (.KeyedHash digest) },
        { ObjectType := ObjectTypeKeyedHash
          AuthValue := authValue ++
            List.replicate (c.digestSize (template nameAlg).NameAlg - authValue.length) 0
          SeedValue := seed
          Bits := data },
        digest, ?_, rfl, rfl, hseedlen, rfl, ?_, ?_, ?_, rfl, hd, rfl⟩
      · unfold NewSealedObject
        simp only [not_lt.2 hle, if_false, hseedeq, hd, List.take_of_length_le hle]
      · rw [List.length_append, List.length_replicate]
        omega
      · exact bitClear_and _ _ _ (by decide)
      · exact bitClear_and _ _ _ (by decide)
  refine ⟨⟨?_, ?_⟩, hret⟩
  · rintro ⟨r, hr⟩
    by_contra hle
    obtain ⟨pub, s, _, h, _⟩ := hret (not_lt.1 hle)
    rw [h] at hr
    cases hr
  · intro hgt
    refine ⟨"authValue too large", ?_⟩
    unfold NewSealedObject
    simp only [hgt, if_true]

/-- C25, on the code: with `HashAlgorithmNull` the public area gets the name algorithm
SHA-256, whose digest size is not below the length of an empty `authValue`, and
`NewSealedObject` panics all the same, in `nameAlg.NewHash()`; with SHA-256 as the
argument the same call returns, and a 3-byte `authValue` against a 2-byte digest panics
with `authValue too large`. -/
theorem NewSealedObject_panics_without_large_authValue :
    (templates.NewSealedObject HashAlgorithmNull).NameAlg = HashAlgorithmSHA256 ∧
    ([] : Bytes).length
      ≤ demoCrypto.digestSize (templates.NewSealedObject HashAlgorithmNull).NameAlg ∧
    NewSealedObject demoCrypto templates.NewSealedObject demoEntropy HashAlgorithmNull []
      demoPayload = .panic "hash algorithm is not available" ∧
    NewSealedObject demoCrypto templates.NewSealedObject demoEntropy HashAlgorithmSHA256 [9]
      demoPayload
      = .ret
        ({ NameAlg := HashAlgorithmSHA256, AsymDetailSymmetric := none,
           ObjectType := ObjectTypeKeyedHash, Attrs := AttrUserWithAuth,
           Unique := some (.KeyedHash [141, 21]) },
         { ObjectType := ObjectTypeKeyedHash, AuthValue := [9, 0], SeedValue := [1, 4],
           Bits := demoPayload }) ∧
    NewSealedObject demoCrypto templates.NewSealedObject demoEntropy HashAlgorithmSHA256
      [9, 8, 7] demoPayload = .panic "authValue too large" :=
  ⟨by rfl, by decide, by rfl, by rfl, by rfl⟩

/-- C26, on the code: for `HashAlgorithmNull` the public area names SHA-256, and the digest
in `Unique` is asked of the hash of the argument, `HashAlgorithmNull`, not of SHA-256:
whatever the primitives, the call ends in the panic of `nameAlg.NewHash()` when that hash
is not available, and with the digest under `HashAlgorithmNull` otherwise. With the
checksums that know SHA-256 alone it panics. -/
theorem NewSealedObject_null_digest_algorithm :
    (templates.NewSealedObject HashAlgorithmNull).NameAlg = HashAlgorithmSHA256 ∧
    (∀ (c : Crypto) (rand : Entropy) (authValue data : Bytes) (pub : Public) (s : Sensitive),
      NewSealedObject c templates.NewSealedObject rand HashAlgorithmNull authValue data
        = .ret (pub, s) →
      pub.NameAlg = HashAlgorithmSHA256 ∧
      ∃ digest, c.hash HashAlgorithmNull (s.SeedValue ++ data) = some digest ∧
        pub.Unique = some (.KeyedHash digest)) ∧
    (∀ (c : Crypto) (rand : Entropy) (authValue data : Bytes),
      (∀ m, c.hash HashAlgorithmNull m = none) →
      authValue.length ≤ c.digestSize HashAlgorithmSHA256 →
      NewSealedObject c templates.NewSealedObject rand HashAlgorithmNull authValue data
        = .panic "hash algorithm is not available") ∧
    NewSealedObject demoCrypto templates.NewSealedObject demoEntropy HashAlgorithmNull [9]
      demoPayload = .panic "hash algorithm is not available" := by
  refine ⟨by rfl, ?_, ?_, by rfl⟩
  · intro c rand authValue data pub s h
    unfold NewSealedObject at h
    simp only at h
    split at h
    · cases h
    · split at h
      · cases h
      · rename_i digest hd
        cases h
        exact ⟨rfl, digest, hd, rfl⟩
  · intro c rand authValue data hnone hle
    have hle1 : authValue.length
        ≤ c.digestSize (templates.NewSealedObject HashAlgorithmNull).NameAlg := hle
    unfold NewSealedObject
    simp only [not_lt.2 hle1, if_false, hnone]

/-! ## C30: the coordinate length of NewExternalECCPublicKey -/

/-- C30, on the code: `NewExternalECCPublicKey` hands `zeroExtendBytes` the length
`BitSize/8`. For P-224, P-256 and P-384 that is the number of bytes a coordinate needs,
`ceil(BitSize/8)`. For P-521 it is 65, one less than the 66 bytes needed: the base point of
P-521, the public key of the private key 1, is on the curve and its second coordinate is
not below `256^65`, and the function asks for it in 65 bytes. A curve outside the four
makes the function panic with `unsupported curve`. -/
theorem NewExternalECCPublicKey_P521_coordinate_length :
    (EllipticCurve.P224.BitSize / 8 = (EllipticCurve.P224.BitSize + 7) / 8 ∧
      EllipticCurve.P256.BitSize / 8 = (EllipticCurve.P256.BitSize + 7) / 8 ∧
      EllipticCurve.P384.BitSize / 8 = (EllipticCurve.P384.BitSize + 7) / 8) ∧
    (EllipticCurve.P521.BitSize / 8 = 65 ∧ (EllipticCurve.P521.BitSize + 7) / 8 = 66) ∧
    (P521.IsOnCurve P521.Gx P521.Gy = true ∧ 256 ^ 65 ≤ P521.Gy ∧ P521.Gy < 256 ^ 66) ∧
    (∀ (U Sch : Type) (NewECCKey : HashAlgorithmId → U → Sch → Nat → Public)
        (zeroExtendBytes : Nat → Nat → Outcome Bytes) (nameAlg : HashAlgorithmId)
        (usage : U) (scheme : Sch),
      NewExternalECCPublicKey NewECCKey zeroExtendBytes nameAlg usage scheme demoP521Key
        = match zeroExtendBytes P521.Gx 65 with
          | .panic r => .panic r
          | .ret x =>
            match zeroExtendBytes P521.Gy 65 with
            | .panic r => .panic r
            | .ret y =>
              .ret { NewECCKey nameAlg usage scheme ECCCurveNIST_P521 with
                Attrs := bitClear (NewECCKey nameAlg usage scheme ECCCurveNIST_P521).Attrs
                  (AttrFixedTPM ||| AttrFixedParent ||| AttrSensitiveDataOrigin |||
                    AttrUserWithAuth)
                Unique := some (.ECC ⟨x, y⟩) }) ∧
    (∀ (U Sch : Type) (NewECCKey : HashAlgorithmId → U → Sch → Nat → Public)
        (zeroExtendBytes : Nat → Nat → Outcome Bytes) (nameAlg : HashAlgorithmId)
        (usage : U) (scheme : Sch) (bitSize x y : Nat),
      NewExternalECCPublicKey NewECCKey zeroExtendBytes nameAlg usage scheme
        { Curve := .other bitSize, X := x, Y := y } = .panic "unsupported curve") := by
  refine ⟨⟨by decide, by decide, by decide⟩, ⟨by decide, by decide⟩,
    ⟨by decide, by decide, by decide⟩, ?_, ?_⟩
  · intro U Sch NewECCKey zeroExtendBytes nameAlg usage scheme
    rfl
  · intro U Sch NewECCKey zeroExtendBytes nameAlg usage scheme bitSize x y
    rfl

/-! ## C27: the classes of a name -/

theorem getUint32_of_length (n : Bytes) (h : n.length = 4) :
    ∃ handle, getUint32 n = some handle := by
  match n, h with
  | [a, b, c, d], _ => exact ⟨_, rfl⟩

theorem demoDigestSizes_ne_two (alg : HashAlgorithmId) : demoDigestSizes alg ≠ some 2 := by
  unfold demoDigestSizes
  split_ifs <;> simp

/-- C27: the classes of a name, when no supported hash algorithm has a 2-byte digest. A
name is handle-form exactly when it has 4 bytes; digest-form exactly when it has at least
2 bytes, its first two bytes are the id of a supported hash algorithm and its length is 2
plus the digest size of that algorithm; invalid otherwise. `Handle()` returns exactly on
handle-form names and panics with `name is not a handle` on the others; `Digest()` returns
the bytes after the algorithm id exactly on digest-form names and panics with
`name is not a valid digest` on the others; `Algorithm()` is the algorithm id of a
digest-form name and `HashAlgorithmNull` for every other name. -/
theorem Name_classification (digestSizeOf : HashAlgorithmId → Option Nat)
    (hsize : ∀ alg, digestSizeOf alg ≠ some 2) (n : Bytes) :
    (Name.TypeOf digestSizeOf n = .NameTypeHandle ↔ n.length = 4) ∧
    (Name.TypeOf digestSizeOf n = .NameTypeDigest ↔
      2 ≤ n.length ∧
        ∃ size, digestSizeOf (getUint16 n) = some size ∧ n.length = 2 + size) ∧
    (Name.TypeOf digestSizeOf n = .NameTypeInvalid ↔
      n.length ≠ 4 ∧
        ¬ (2 ≤ n.length ∧
          ∃ size, digestSizeOf (getUint16 n) = some size ∧ n.length = 2 + size)) ∧
    ((∃ handle, Name.Handle digestSizeOf n = .ret handle) ↔
      Name.TypeOf digestSizeOf n = .NameTypeHandle) ∧
    (Name.TypeOf digestSizeOf n ≠ .NameTypeHandle →
      Name.Handle digestSizeOf n = .panic "name is not a handle") ∧
    (Name.TypeOf digestSizeOf n = .NameTypeDigest →
      Name.Digest digestSizeOf n = .ret (n.drop 2) ∧
      Name.Algorithm digestSizeOf n = getUint16 n) ∧
    (Name.TypeOf digestSizeOf n ≠ .NameTypeDigest →
      Name.Digest digestSizeOf n = .panic "name is not a valid digest" ∧
      Name.Algorithm digestSizeOf n = HashAlgorithmNull) := by
  have hH : Name.TypeOf digestSizeOf n = .NameTypeHandle ↔ n.length = 4 := by
    unfold Name.TypeOf
    by_cases h2 : n.length < 2
    · rw [if_pos h2]
      constructor
      · intro h
        cases h
      · intro h
        omega
    · rw [if_neg h2]
      by_cases h4 : n.length = 4
      · rw [if_pos h4]
        exact ⟨fun _ => h4, fun _ => rfl⟩
      · rw [if_neg h4]
        constructor
        · intro h
          split at h
          · cases h
          · split at h
            · cases h
            · cases h
        · intro h
          exact absurd h h4
  have hD : Name.TypeOf digestSizeOf n = .NameTypeDigest ↔
      2 ≤ n.length ∧
        ∃ size, digestSizeOf (getUint16 n) = some size ∧ n.length = 2 + size := by
    unfold Name.TypeOf
    by_cases h2 : n.length < 2
    · rw [if_pos h2]
      constructor
      · intro h
        cases h
      · rintro ⟨h, _⟩
        omega
    · rw [if_neg h2]
      by_cases h4 : n.length = 4
      · rw [if_pos h4]
        constructor
        · intro h
          cases h
        · rintro ⟨_, size, hs, hl⟩
          have hs2 : size = 2 := by omega
          subst hs2
          exact absurd hs (hsize _)
      · rw [if_neg h4]
        cases hs : digestSizeOf (getUint16 n) with
        | none =>
          constructor
          · intro h
            cases h
          · rintro ⟨_, size, hs1, _⟩
            cases hs1
        | some size =>
          by_cases hl : n.length - 2 = size
          · simp only [hl, if_true, true_iff]
            exact ⟨by omega, size, rfl, by omega⟩
          · simp only [hl, if_false]
            constructor
            · intro h
              cases h
            · rintro ⟨_, size1, hs1, hl1⟩
              cases hs1
              omega
  refine ⟨hH, hD, ?_, ?_, ?_, ?_, ?_⟩
  · rw [ne_eq, ← hH, ← hD]
    cases Name.TypeOf digestSizeOf n <;> simp
  · constructor
    · rintro ⟨handle, h⟩
      unfold Name.Handle at h
      by_contra hne
      rw [if_neg hne] at h
      cases h
    · intro h
      obtain ⟨handle, hh⟩ := getUint32_of_length n (hH.1 h)
      refine ⟨handle, ?_⟩
      unfold Name.Handle
      rw [if_pos h, hh]
  · intro hne
    unfold Name.Handle
    rw [if_neg hne]
  · intro h
    unfold Name.Digest Name.Algorithm
    rw [if_pos h, if_pos h]
    exact ⟨rfl, rfl⟩
  · intro hne
    unfold Name.Digest Name.Algorithm
    rw [if_neg hne, if_neg hne]
    exact ⟨rfl, rfl⟩

/-- C27, on the names of the tests: one byte, `0xaaaa` with 32 bytes, and a 30-byte name
tagged SHA-256 are invalid; 4 zero bytes are handle-form and a 34-byte name tagged SHA-256
is digest-form; the handle of the 4-byte encoding of `HandleOwner` is `HandleOwner`, a
3-byte name has none; the algorithm of a 22-byte name tagged SHA-1 is SHA-1, that of a
handle name and of the nil name is `HashAlgorithmNull`; the digest of a 34-byte name is its
last 32 bytes, and a 2-byte name tagged SHA-256 has none. -/
theorem Name_classification_witness :
    Name.TypeOf demoDigestSizes [0xaa] = .NameTypeInvalid ∧
    Name.TypeOf demoDigestSizes (0xaa :: 0xaa :: List.replicate 32 0) = .NameTypeInvalid ∧
    Name.TypeOf demoDigestSizes (0 :: 11 :: List.replicate 28 0) = .NameTypeInvalid ∧
    Name.TypeOf demoDigestSizes (List.replicate 4 0) = .NameTypeHandle ∧
    Name.TypeOf demoDigestSizes (0 :: 11 :: List.replicate 32 0) = .NameTypeDigest ∧
    Name.Handle demoDigestSizes (putUint32 HandleOwner) = .ret HandleOwner ∧
    Name.Handle demoDigestSizes (putUint32 0x02000000) = .ret 0x02000000 ∧
    Name.Handle demoDigestSizes (List.replicate 3 0) = .panic "name is not a handle" ∧
    Name.Algorithm demoDigestSizes (0 :: 11 :: List.replicate 32 0) = HashAlgorithmSHA256 ∧
    Name.Algorithm demoDigestSizes (0 :: 4 :: List.replicate 20 0) = AlgorithmSHA1 ∧
    Name.Algorithm demoDigestSizes (putUint32 HandleOwner) = HashAlgorithmNull ∧
    Name.Algorithm demoDigestSizes [] = HashAlgorithmNull ∧
    Name.Digest demoDigestSizes demoName = .ret (demoName.drop 2) ∧
    Name.Digest demoDigestSizes [0, 11] = .panic "name is not a valid digest" ∧
    (Name.TypeOf demoDigestSizes demoName = .NameTypeDigest ↔
      2 ≤ demoName.length ∧
        ∃ size, demoDigestSizes (getUint16 demoName) = some size ∧
          demoName.length = 2 + size) :=
  ⟨by rfl, by rfl, by rfl, by rfl, by rfl, by rfl, by rfl, by rfl, by rfl, by rfl, by rfl,
    by rfl, by rfl, by rfl,
    (Name_classification demoDigestSizes demoDigestSizes_ne_two demoName).2.1⟩

/-! ## C28: the store invariant -/

theorem StoreInvariant_emptyWorld : StoreInvariant emptyWorld := by
  refine ⟨⟨?_, ?_⟩, ?_⟩
  · intro t h rc hrc
    cases hrc
  · intro t id ht
    cases ht
  · intro id _
    rfl

/-- Allocating an unowned context keeps the invariant, whatever is logged on the way. -/
theorem StoreInvariant_alloc (w : World) (ctx : Context) (h : StoreInvariant w)
    (hc : ctx.Tpm = none) (s : List (ConnId × DeviceCall)) :
    StoreInvariant
      { heap := Function.update w.heap w.next ctx, next := w.next + 1,
        resources := w.resources, sent := s } := by
  obtain ⟨⟨hA, hB⟩, hC⟩ := h
  have hown : ∀ id t, (w.heap id).Tpm = some t → id ≠ w.next := by
    intro id t ht heq
    have hn := hC id (Nat.le_of_eq heq.symm)
    rw [hn] at ht
    cases ht
  refine ⟨⟨?_, ?_⟩, ?_⟩
  · intro t h rc hrc
    obtain ⟨id, hid, hh, ht⟩ := hA t h rc hrc
    refine ⟨id, hid, ?_, ?_⟩
    · show (Function.update w.heap w.next ctx id).Handle = h
      rw [Function.update_noteq (hown id t ht)]
      exact hh
    · show (Function.update w.heap w.next ctx id).Tpm = some t
      rw [Function.update_noteq (hown id t ht)]
      exact ht
  · intro t id ht
    show w.resources t (Function.update w.heap w.next ctx id).Handle = some (some id)
    change (Function.update w.heap w.next ctx id).Tpm = some t at ht
    by_cases hid : id = w.next
    · rw [hid, Function.update_same, hc] at ht
      cases ht
    · rw [Function.update_noteq hid] at ht ⊢
      exact hB t id ht
  · intro id hle
    show (Function.update w.heap w.next ctx id).Tpm = none
    have hle1 : w.next + 1 ≤ id := hle
    have hne : id ≠ w.next := Nat.ne_of_gt (Nat.lt_of_succ_le hle1)
    rw [Function.update_noteq hne]
    exact hC id (Nat.le_of_succ_le hle1)

/-- `addResourceContext` on an allocated context keeps the invariant, whether it registers
the context or panics. -/
theorem StoreInvariant_add (t : ConnId) (id : CtxId) (w : World) (h : StoreInvariant w)
    (hid : id < w.next) : StoreInvariant (addResourceContext t (some id) w).world := by
  rw [addResourceContext_some]
  by_cases h1 : (w.heap id).Tpm ≠ none
  · rw [if_pos h1]
    exact h
  rw [if_neg h1]
  by_cases h2 : (w.resources t (w.heap id).Handle).isSome = true
  · rw [if_pos h2]
    exact h
  rw [if_neg h2]
  have hT : (w.heap id).Tpm = none := not_not.1 h1
  have hR : w.resources t (w.heap id).Handle = none := by
    cases hr : w.resources t (w.heap id).Handle with
    | none => rfl
    | some x =>
      rw [hr] at h2
      exact absurd rfl h2
  obtain ⟨⟨hA, hB⟩, hC⟩ := h
  have hkeep : ∀ t' h' rc, w.resources t' h' = some rc →
      ∃ id', rc = some id' ∧
        (Function.update w.heap id ((w.heap id).SetTpm (some t)) id').Handle = h' ∧
        (Function.update w.heap id ((w.heap id).SetTpm (some t)) id').Tpm = some t' := by
    intro t' h' rc hrc
    obtain ⟨id', hid', hh', ht'⟩ := hA t' h' rc hrc
    have hne : id' ≠ id := by
      intro heq
      rw [heq, hT] at ht'
      cases ht'
    refine ⟨id', hid', ?_, ?_⟩
    · rw [Function.update_noteq hne]
      exact hh'
    · rw [Function.update_noteq hne]
      exact ht'
  refine ⟨⟨?_, ?_⟩, ?_⟩
  · intro t' h' rc hrc
    dsimp only [Run.world] at hrc ⊢
    by_cases ht : t' = t
    · subst ht
      rw [Function.update_same] at hrc
      by_cases hh : h' = (w.heap id).Handle
      · subst hh
        rw [Function.update_same] at hrc
        cases hrc
        refine ⟨id, rfl, ?_, ?_⟩
        · rw [Function.update_same, Context.Handle_SetTpm]
        · rw [Function.update_same, Context.Tpm_SetTpm]
      · rw [Function.update_noteq hh] at hrc
        exact hkeep t' h' rc hrc
    · rw [Function.update_noteq ht] at hrc
      exact hkeep t' h' rc hrc
  · intro t' id' ht'
    dsimp only [Run.world] at ht' ⊢
    by_cases hne : id' = id
    · rw [hne, Function.update_same, Context.Tpm_SetTpm] at ht'
      cases ht'
      rw [hne]
      simp only [Function.update_same, Context.Handle_SetTpm]
    · rw [Function.update_noteq hne] at ht' ⊢
      have hB1 := hB t' id' ht'
      by_cases ht : t' = t
      · subst ht
        rw [Function.update_same]
        have hh : (w.heap id').Handle ≠ (w.heap id).Handle := by
          intro heq
          rw [heq, hR] at hB1
          cases hB1
        rw [Function.update_noteq hh]
        exact hB1
      · rw [Function.update_noteq ht]
        exact hB1
  · intro id' hle
    dsimp only [Run.world] at hle ⊢
    have hne : id' ≠ id := Nat.ne_of_gt (Nat.lt_of_lt_of_le hid hle)
    rw [Function.update_noteq hne]
    exact hC id' hle

/-- `evictResourceContext` keeps the invariant, whether it removes the entry, does nothing
or panics. -/
theorem StoreInvariant_evict (t : ConnId) (id : CtxId) (w : World) (h : StoreInvariant w) :
    StoreInvariant (evictResourceContext t (some id) w).world := by
  rw [evictResourceContext_some]
  by_cases h1 : (w.heap id).Tpm = none
  · rw [if_pos h1]
    exact h
  rw [if_neg h1]
  by_cases h2 : (w.heap id).Tpm ≠ some t
  · rw [if_pos h2]
    exact h
  rw [if_neg h2]
  have hT : (w.heap id).Tpm = some t := not_not.1 h2
  obtain ⟨⟨hA, hB⟩, hC⟩ := h
  have hEntry := hB t id hT
  refine ⟨⟨?_, ?_⟩, ?_⟩
  · intro t' h' rc hrc
    dsimp only [Run.world] at hrc ⊢
    have hold : w.resources t' h' = some rc ∧ ¬ (t' = t ∧ h' = (w.heap id).Handle) := by
      by_cases ht : t' = t
      · subst ht
        rw [Function.update_same] at hrc
        by_cases hh : h' = (w.heap id).Handle
        · subst hh
          rw [Function.update_same] at hrc
          cases hrc
        · rw [Function.update_noteq hh] at hrc
          exact ⟨hrc, fun hx => hh hx.2⟩
      · rw [Function.update_noteq ht] at hrc
        exact ⟨hrc, fun hx => ht hx.1⟩
    obtain ⟨hrc0, hnot⟩ := hold
    obtain ⟨id', hid', hh', ht'⟩ := hA t' h' rc hrc0
    have hne : id' ≠ id := by
      intro heq
      rw [heq, hT] at ht'
      rw [heq] at hh'
      cases ht'
      exact hnot ⟨rfl, hh'.symm⟩
    refine ⟨id', hid', ?_, ?_⟩
    · rw [Function.update_noteq hne]
      exact hh'
    · rw [Function.update_noteq hne]
      exact ht'
  · intro t' id' ht'
    dsimp only [Run.world] at ht' ⊢
    by_cases hne : id' = id
    · rw [hne, Function.update_same, Context.Tpm_SetTpm] at ht'
      cases ht'
    · rw [Function.update_noteq hne] at ht' ⊢
      have hB1 := hB t' id' ht'
      by_cases ht : t' = t
      · subst ht
        rw [Function.update_same]
        have hh : (w.heap id').Handle ≠ (w.heap id).Handle := by
          intro heq
          rw [heq, hEntry] at hB1
          injection hB1 with hB2
          injection hB2 with hB3
          exact hne hB3.symm
        rw [Function.update_noteq hh]
        exact hB1
      · rw [Function.update_noteq ht]
        exact hB1
  · intro id' hle
    dsimp only [Run.world] at hle ⊢
    by_cases hne : id' = id
    · rw [hne, Function.update_same, Context.Tpm_SetTpm]
    · rw [Function.update_noteq hne]
      exact hC id' hle

/-- The three ways the switch of `WrapHandle` ends: with the error of the device, with no
context and no error, or with a new unowned context at the next free identity. -/
theorem synthesizeContext_cases (dev : Device) (t : ConnId) (handle : Handle) (w : World) :
    (∃ s err, synthesizeContext dev t handle w
      = .done { w with sent := s } (none, some err)) ∨
    synthesizeContext dev t handle w = .done w (none, none) ∨
    (∃ s ctx, ctx.Tpm = none ∧ synthesizeContext dev t handle w =
      .done { heap := Function.update w.heap w.next ctx, next := w.next + 1,
              resources := w.resources, sent := s } (some w.next, none)) := by
  unfold synthesizeContext
  split_ifs with h1 h40 h80
  · unfold makeNVIndexContext
    cases hd : dev.nvReadPublic handle with
    | error err => exact Or.inl ⟨_, err, rfl⟩
    | ok name => exact Or.inr (Or.inr ⟨_, .nvIndexContext none handle name, rfl, rfl⟩)
  · exact Or.inr (Or.inr ⟨_, .permanentContext none handle, rfl, rfl⟩)
  · unfold makeObjectContext
    cases hd : dev.readPublic handle with
    | error err => exact Or.inl ⟨_, err, rfl⟩
    | ok r =>
      obtain ⟨pub, name⟩ := r
      exact Or.inr (Or.inr ⟨_, .objectContext none handle pub name, rfl, rfl⟩)
  · exact Or.inr (Or.inl rfl)

/-- `WrapHandle` keeps the invariant, whether it returns a context, returns the error of
the device or panics. -/
theorem StoreInvariant_WrapHandle (dev : Device) (t : ConnId) (handle : Handle) (w : World)
    (h : StoreInvariant w) : StoreInvariant (WrapHandle dev t handle w).world := by
  unfold WrapHandle
  cases hr : w.resources t handle with
  | some rc => exact h
  | none =>
    dsimp only
    rcases synthesizeContext_cases dev t handle w with ⟨s, err, hs⟩ | hs | ⟨s, ctx, hc, hs⟩
    · rw [hs]
      exact h
    · rw [hs]
      exact h
    · rw [hs]
      have h1 := StoreInvariant_alloc w ctx h hc s
      have h2 := StoreInvariant_add t w.next _ h1 (Nat.lt_succ_self w.next)
      dsimp only
      generalize addResourceContext t (some w.next)
        { heap := Function.update w.heap w.next ctx, next := w.next + 1,
          resources := w.resources, sent := s } = r at h2 ⊢
      cases r <;> exact h2

/-- Every reachable state satisfies the invariant. -/
theorem StoreInvariant_of_Reachable (w : World) (hw : Reachable w) : StoreInvariant w := by
  induction hw with
  | empty => exact StoreInvariant_emptyWorld
  | step w call _ hwf ih =>
    cases call with
    | newContext ctx =>
      exact StoreInvariant_alloc w (ctx.SetTpm none) ih (Context.Tpm_SetTpm none ctx) w.sent
    | addResourceContext t rc =>
      cases rc with
      | none => exact ih
      | some id => exact StoreInvariant_add t id w ih (of_decide_eq_true hwf)
    | evictResourceContext t rc =>
      cases rc with
      | none => exact ih
      | some id => exact StoreInvariant_evict t id w ih
    | WrapHandle dev t handle => exact StoreInvariant_WrapHandle dev t handle w ih

/-- C28: the store invariant. In every state reached from the empty store by allocations
and calls of `addResourceContext`, `evictResourceContext` and `WrapHandle` on any
connections, the calls that panic or return an error included, an entry
`t.resources[h] = rc` holds a context with handle `h` owned by `t`, and a context owned by
`t` is the entry of `t.resources` at its own handle. So no context is an entry of two
connections, or of two handles; and evicting a context owned by `t` returns, removes the
entry at its handle, which holds that very context, leaves every other entry of every
connection as it was, and leads to a consistent state again. -/
theorem store_consistency (w : World) (hw : Reachable w) :
    StoreConsistent w ∧
    (∀ t t' h h' id, w.resources t h = some (some id) →
      w.resources t' h' = some (some id) → t = t' ∧ h = h') ∧
    (∀ t id, (w.heap id).Tpm = some t →
      w.resources t (w.heap id).Handle = some (some id) ∧
      ∃ w', evictResourceContext t (some id) w = .done w' () ∧
        (w'.heap id).Tpm = none ∧
        (∀ t' h', w'.resources t' h'
          = if t' = t ∧ h' = (w.heap id).Handle then none else w.resources t' h') ∧
        StoreConsistent w') := by
  have hinv := StoreInvariant_of_Reachable w hw
  obtain ⟨⟨hA, hB⟩, hC⟩ := hinv
  refine ⟨⟨hA, hB⟩, ?_, ?_⟩
  · intro t t' h h' id h1 h2
    obtain ⟨id1, hid1, hh1, ht1⟩ := hA t h _ h1
    obtain ⟨id2, hid2, hh2, ht2⟩ := hA t' h' _ h2
    cases hid1
    cases hid2
    rw [ht1] at ht2
    cases ht2
    exact ⟨rfl, hh1.symm.trans hh2⟩
  · intro t id hT
    refine ⟨hB t id hT, ?_⟩
    have hev := StoreInvariant_evict t id w ⟨⟨hA, hB⟩, hC⟩
    have hne : ¬ (w.heap id).Tpm = none := by
      rw [hT]
      exact fun hx => by cases hx
    have hnn : ¬ (w.heap id).Tpm ≠ some t := fun hx => hx hT
    rw [evictResourceContext_some, if_neg hne, if_neg hnn] at hev
    rw [evictResourceContext_some, if_neg hne, if_neg hnn]
    refine ⟨_, rfl, ?_, ?_, hev.1⟩
    · show (Function.update w.heap id ((w.heap id).SetTpm none) id).Tpm = none
      rw [Function.update_same, Context.Tpm_SetTpm]
    · intro t' h'
      show Function.update w.resources t
        (Function.update (w.resources t) (w.heap id).Handle none) t' h' = _
      by_cases ht : t' = t
      · subst ht
        rw [Function.update_same]
        by_cases hh : h' = (w.heap id).Handle
        · subst hh
          rw [Function.update_same, if_pos ⟨rfl, rfl⟩]
        · rw [Function.update_noteq hh, if_neg (fun hx => hh hx.2)]
      · rw [Function.update_noteq ht, if_neg (fun hx => ht hx.1)]

/-- C28, on a run on two connections: connection 1 wraps `HandleOwner`, a session context
is allocated and registered with connection 2, connection 2 fails to register the context
of connection 1, and connection 1 evicts its context. The state is consistent; the only
entry left is the session context of connection 2. -/
theorem store_consistency_witness :
    StoreConsistent demoStore ∧
    demoStore.resources 2 0x03000000 = some (some 1) ∧
    demoStore.resources 1 HandleOwner = none ∧
    (demoStore.heap 1).Tpm = some 2 ∧ (demoStore.heap 0).Tpm = none :=
  ⟨(store_consistency demoStore
      (Reachable.step _ (.evictResourceContext 1 (some 0))
        (Reachable.step _ (.addResourceContext 2 (some 0))
          (Reachable.step _ (.addResourceContext 2 (some 1))
            (Reachable.step _ (.newContext (.sessionContext none 0x03000000 demoSession))
              (Reachable.step _ (.WrapHandle demoDevice 1 HandleOwner) Reachable.empty
                (by rfl))
              (by rfl))
            (by rfl))
          (by rfl))
        (by rfl))).1,
    by rfl, by rfl, by rfl, by rfl⟩

end GoTpm2
